import Mathlib

/-!
# Investment calculator backend: list/paginate protocol and ownership-scoped CRUD

A shallow embedding of the request handlers in
`src/controllers/investmentCalculationController.js`,
`src/controllers/investorQuestionnaireController.js`,
`src/controllers/videoController.js` and
`src/controllers/videoFeedbackController.js`.

* JavaScript values are the inductive `JsVal`; an object is an ordered list of
  key/value pairs read with `getProp` (a missing key reads `undefined`).
* The relational store is a record of tables (`Db`), each a list of rows.  Every
  handler returns a `Result`: the store calls it issued, in order, the store
  afterwards, and how the request ended (`res.status(..).json(..)` or `next(..)`).
* The store is total: schema validation and constraint failures of the external
  persistence engine are not modelled, except that a negative `skip` is rejected.
* The numbers the list handlers compute with are double-precision: `skip`, the one
  value they compute, is rounded as JavaScript rounds it (`JsNum`, `toDouble`).
-/

set_option autoImplicit false

namespace Backend

/-! ## JavaScript values -/

/-- JSON-like JavaScript values.  Numbers are carried as integers: the handlers
never compute with payload numbers, they only compare them with `undefined` or
test their truthiness. -/
inductive JsVal
  | undefined
  | null
  | bool (b : Bool)
  | num (n : Int)
  | str (s : String)
  | arr (xs : List JsVal)
  | obj (kvs : List (String × JsVal))

namespace JsVal

mutual
/-- Structural equality test on values. -/
def beq : JsVal → JsVal → Bool
  | .undefined, .undefined => true
  | .null, .null => true
  | .bool a, .bool b => a == b
  | .num a, .num b => a == b
  | .str a, .str b => a == b
  | .arr xs, .arr ys => beqList xs ys
  | .obj xs, .obj ys => beqKvs xs ys
  | _, _ => false
/-- Structural equality test on arrays of values. -/
def beqList : List JsVal → List JsVal → Bool
  | [], [] => true
  | x :: xs, y :: ys => beq x y && beqList xs ys
  | _, _ => false
/-- Structural equality test on key/value lists. -/
def beqKvs : List (String × JsVal) → List (String × JsVal) → Bool
  | [], [] => true
  | (k, x) :: xs, (l, y) :: ys => k == l && beq x y && beqKvs xs ys
  | _, _ => false
end

mutual
theorem beq_iff : ∀ a b : JsVal, beq a b = true ↔ a = b
  | .undefined, b => by cases b <;> simp [beq]
  | .null, b => by cases b <;> simp [beq]
  | .bool a, b => by cases b <;> simp [beq]
  | .num a, b => by cases b <;> simp [beq]
  | .str a, b => by cases b <;> simp [beq]
  | .arr xs, b => by cases b <;> simp [beq, beqList_iff xs]
  | .obj xs, b => by cases b <;> simp [beq, beqKvs_iff xs]
theorem beqList_iff : ∀ a b : List JsVal, beqList a b = true ↔ a = b
  | [], b => by cases b <;> simp [beqList]
  | x :: xs, b => by cases b <;> simp [beqList, beq_iff x, beqList_iff xs]
theorem beqKvs_iff : ∀ a b : List (String × JsVal), beqKvs a b = true ↔ a = b
  | [], b => by cases b <;> simp [beqKvs]
  | (k, x) :: xs, b => by
    cases b with
    | nil => simp [beqKvs]
    | cons h t =>
      obtain ⟨l, y⟩ := h
      simp [beqKvs, beq_iff x, beqKvs_iff xs, and_assoc]
end

instance : DecidableEq JsVal := fun a b => decidable_of_iff _ (beq_iff a b)

instance : Inhabited JsVal := ⟨.undefined⟩

/-- JavaScript truthiness (`if (v)`, `!v`, `v && ..`). -/
def truthy : JsVal → Bool
  | .undefined => false
  | .null => false
  | .bool b => b
  | .num n => n != 0
  | .str s => s != ""
  | .arr _ => true
  | .obj _ => true

/-- The test `Array.isArray(v)`. -/
def isArray : JsVal → Bool
  | .arr _ => true
  | _ => false

end JsVal

/-- A JavaScript object: its own properties in insertion order. -/
abbrev Obj := List (String × JsVal)

/-- Property read `o[k]`: `undefined` when the key is absent. -/
def getProp (o : Obj) (k : String) : JsVal :=
  (o.lookup k).getD .undefined

/-- Property write `o[k] = v`: overwrite in place, or append a new key. -/
def setProp : Obj → String → JsVal → Obj
  | [], k, v => [(k, v)]
  | (k', v') :: rest, k, v =>
    if k' = k then (k, v) :: rest else (k', v') :: setProp rest k v

/-- Object spread `{ ...o, ...p }`: every own key `k` of `p` is assigned `p[k]`. -/
def spread (o p : Obj) : Obj :=
  p.foldl (fun acc kv => setProp acc kv.1 (getProp p kv.1)) o

/-- A Prisma `select`: the listed columns of a row. -/
def selectFields (fields : List String) (o : Obj) : Obj :=
  fields.map fun f => (f, getProp o f)

/-- Keys whose value is `undefined` are treated by the store as not provided. -/
def definedFields (o : Obj) : Obj :=
  o.filter fun kv => decide (kv.2 ≠ .undefined)

/-! ## The store -/

/-- The Prisma model accessors used by the controllers. -/
inductive Table
  | user
  | contact
  | investmentCalculation
  | investorQuestionnaire
  | video
  | videoFeedback
  | aiMessage
  deriving DecidableEq, Repr

/-- The relational store: one list of rows per table. -/
structure Db where
  user : List Obj := []
  contact : List Obj := []
  investmentCalculation : List Obj := []
  investorQuestionnaire : List Obj := []
  video : List Obj := []
  videoFeedback : List Obj := []
  aiMessage : List Obj := []
  deriving DecidableEq

namespace Db

/-- The rows of a table. -/
def rows (db : Db) : Table → List Obj
  | .user => db.user
  | .contact => db.contact
  | .investmentCalculation => db.investmentCalculation
  | .investorQuestionnaire => db.investorQuestionnaire
  | .video => db.video
  | .videoFeedback => db.videoFeedback
  | .aiMessage => db.aiMessage

/-- Replace the rows of one table. -/
def setRows (db : Db) (t : Table) (rs : List Obj) : Db :=
  match t with
  | .user => { db with user := rs }
  | .contact => { db with contact := rs }
  | .investmentCalculation => { db with investmentCalculation := rs }
  | .investorQuestionnaire => { db with investorQuestionnaire := rs }
  | .video => { db with video := rs }
  | .videoFeedback => { db with videoFeedback := rs }
  | .aiMessage => { db with aiMessage := rs }

end Db

/-- A `where` object is a conjunction of equality predicates on columns. -/
def matchesWhere (whr : Obj) (row : Obj) : Bool :=
  whr.all fun kv => decide (getProp row kv.1 = kv.2)

/-- The relation joins requested through `include`. -/
inductive Incl
  /-- Join `contact: { select: { id, name, phoneNumber, email } }`. -/
  | contact
  /-- Join `user: { select: { id, name } }`. -/
  | user
  /-- Join `video: { select: { id, title, videoUrl, thumbnailUrl } }`. -/
  | video
  /-- Join `_count: { select: { feedbacks: true } }`. -/
  | countFeedbacks
  deriving DecidableEq, Repr

/-- The value of an arithmetic expression over JavaScript numbers that hold
integers: an integer, or an infinity when the result leaves the range of double
precision. -/
inductive JsNum
  | int (n : Int)
  | infinity
  | negInfinity
  deriving DecidableEq

/-- The store calls a handler can issue, with the arguments it passes. -/
inductive StoreCall
  | findFirst (t : Table) (whr : Obj) (incl : List Incl)
  | findUnique (t : Table) (whr : Obj) (incl : List Incl)
  | count (t : Table) (whr : Obj)
  | findMany (t : Table) (whr : Obj) (orderBy : Obj) (skip : JsNum) (take : Nat)
      (incl : List Incl)
  | create (t : Table) (data : Obj) (incl : List Incl)
  | update (t : Table) (whr : Obj) (data : Obj) (incl : List Incl)
  | delete (t : Table) (whr : Obj)
  deriving DecidableEq

/-- Whether a store call writes. -/
def StoreCall.isWrite : StoreCall → Bool
  | .create .. => true
  | .update .. => true
  | .delete .. => true
  | _ => false

/-- Store `findFirst` / `findUnique`: the first row satisfying the predicate. -/
def findFirst (db : Db) (t : Table) (whr : Obj) : Option Obj :=
  (db.rows t).find? (matchesWhere whr)

/-- Store `count`: the number of rows satisfying the predicate. -/
def count (db : Db) (t : Table) (whr : Obj) : Nat :=
  ((db.rows t).filter (matchesWhere whr)).length

/-- Modelled from the spec: the relations of the data model (section 3), whose
schema file is not part of the sources.  `contactId` references a Contact,
`createdBy` a User, `videoId` a Video, and a Video counts the VideoFeedback rows
whose `videoId` is its id.  A missing related row joins as `null`. -/
def applyIncl (db : Db) (row : Obj) : Incl → Obj
  | .contact =>
    setProp row "contact"
      (match findFirst db .contact [("id", getProp row "contactId")] with
       | some c => .obj (selectFields ["id", "name", "phoneNumber", "email"] c)
       | none => .null)
  | .user =>
    setProp row "user"
      (match findFirst db .user [("id", getProp row "createdBy")] with
       | some u => .obj (selectFields ["id", "name"] u)
       | none => .null)
  | .video =>
    setProp row "video"
      (match findFirst db .video [("id", getProp row "videoId")] with
       | some v => .obj (selectFields ["id", "title", "videoUrl", "thumbnailUrl"] v)
       | none => .null)
  | .countFeedbacks =>
    setProp row "_count"
      (.obj [("feedbacks", .num (count db .videoFeedback [("videoId", getProp row "id")]))])

/-- A row with every requested relation joined in. -/
def applyIncls (db : Db) (incl : List Incl) (row : Obj) : Obj :=
  incl.foldl (applyIncl db) row

/-- The store orders rows by the single column of `orderBy`, ascending or
descending, under its collation `le`. -/
def sortRows (le : JsVal → JsVal → Bool) (orderBy : Obj) (rs : List Obj) : List Obj :=
  match orderBy with
  | [(k, dir)] =>
    if dir = .str "asc" then
      rs.insertionSort (fun a b => le (getProp a k) (getProp b k) = true)
    else
      rs.insertionSort (fun a b => le (getProp b k) (getProp a k) = true)
  | _ => rs

/-- Store `findMany`: filter, order, drop `skip`, keep `take`, join.  A negative
`skip` is rejected by the store (`none`); an infinite one drops every row. -/
def findMany (le : JsVal → JsVal → Bool) (db : Db) (t : Table) (whr orderBy : Obj)
    (skip : JsNum) (take : Nat) (incl : List Incl) : Option (List Obj) :=
  match skip with
  | .int s =>
    if s < 0 then none
    else
      some ((((sortRows le orderBy ((db.rows t).filter (matchesWhere whr))).drop
        s.toNat).take take).map (applyIncls db incl))
  | .infinity => some []
  | .negInfinity => none

/-- Store `create`: the inserted row is the provided data over the column values
the store generates (`generated`: id, timestamps). -/
def create (generated : Obj) (db : Db) (t : Table) (data : Obj) : Db × Obj :=
  let row := spread generated (definedFields data)
  (db.setRows t (db.rows t ++ [row]), row)

/-- Store `update` by primary key: the provided columns overwrite those of the
row with that id; `none` when no such row exists. -/
def update (db : Db) (t : Table) (id : JsVal) (data : Obj) : Option (Db × Obj) :=
  match (db.rows t).find? (fun r => decide (getProp r "id" = id)) with
  | none => none
  | some r =>
    some (db.setRows t ((db.rows t).map fun x =>
            if getProp x "id" = id then spread x (definedFields data) else x),
          spread r (definedFields data))

/-- Store `delete` by primary key; `none` when no such row exists. -/
def delete (db : Db) (t : Table) (id : JsVal) : Option Db :=
  match (db.rows t).find? (fun r => decide (getProp r "id" = id)) with
  | none => none
  | some _ => some (db.setRows t ((db.rows t).filter fun x => decide (getProp x "id" ≠ id)))

/-! ## Requests and outcomes -/

/-- Modelled from the spec: the role of a caller is a two-value enum (section 4.1);
the user schema is not part of the sources. -/
inductive Role
  | USER
  | ADMIN
  deriving DecidableEq, Repr

/-- The authenticated caller attached to the request as `req.user`. -/
structure User where
  id : String
  role : Role
  deriving DecidableEq, Repr

/-- The recognised query-string parameters.  `page` and `limit` carry the value
`Number(..)` yields for the supplied parameter, a natural number held in double
precision; the other parameters are strings.  `none` is an absent parameter. -/
structure Query where
  page : Option Nat := none
  limit : Option Nat := none
  sortBy : Option String := none
  order : Option String := none
  contactId : Option String := none
  propertyType : Option String := none
  marketArea : Option String := none
  isPublished : Option String := none
  videoId : Option String := none
  deriving DecidableEq

/-- An authenticated request. -/
structure Request where
  user : User
  params : Obj := []
  query : Query := {}
  body : Obj := []
  deriving DecidableEq

/-- The constants of `config/constants`, which is not part of the sources. -/
structure Pagination where
  DEFAULT_PAGE : Nat
  DEFAULT_LIMIT : Nat

/-- What a handler takes from its surroundings: the pagination constants, the
collation under which the store orders a column, and the column values the store
generates for an inserted row. -/
structure Env where
  PAGINATION : Pagination
  le : JsVal → JsVal → Bool
  generated : Obj

/-- How a request ends. -/
inductive Outcome
  /-- The handler answered `res.status(status).json(body)`. -/
  | json (status : Nat) (body : Obj)
  /-- The handler forwarded `next(new AppError(message, statusCode))`. -/
  | next (message : String) (statusCode : Nat)
  /-- A store call threw and the `catch` block forwarded the error. -/
  | thrown
  deriving DecidableEq

/-- The store calls issued, the store afterwards, and the outcome. -/
structure Result where
  calls : List StoreCall
  db : Db
  out : Outcome
  deriving DecidableEq

/-! ## The shared list protocol -/

/-- The constant `Number.MAX_VALUE`, the largest finite double, `2^1024 - 2^971`. -/
def MAX_VALUE : Nat :=
  179769313486231570814527423731704356798070567525844996598917476803157260780028538760589558632766878171540458953514382464234321326889464182768467546703537516986049910576551282076245490090389328944075868508455133942304583236903222948165808559332123348274797826204144723168738177180919299881250404026184124858368

/-- The number of low bits of `n` that do not fit the 53-bit significand of a
double: the least `e` with `n / 2^e < 2^53`, searched with `fuel` halvings. -/
def droppedBits : Nat → Nat → Nat
  | 0, _ => 0
  | fuel + 1, n => if n < 2 ^ 53 then 0 else droppedBits fuel (n / 2) + 1

/-- A natural number rounded to 53 significant bits, to the nearest and on a tie
to the even significand, as every double-precision operation rounds its exact
result. -/
def roundNat (n : Nat) : Nat :=
  let e := droppedBits n n
  let q := n / 2 ^ e
  let r := n % 2 ^ e
  if 2 ^ e < 2 * r ∨ (2 * r = 2 ^ e ∧ q % 2 = 1) then (q + 1) * 2 ^ e else q * 2 ^ e

/-- The rounding `roundNat` on integers: the sign is kept. -/
def roundInt (i : Int) : Int :=
  if i < 0 then -(roundNat i.natAbs : Int) else (roundNat i.natAbs : Int)

/-- The double an exact integer result is stored as: the rounded integer, or an
infinity when that exceeds `Number.MAX_VALUE`. -/
def toDouble (i : Int) : JsNum :=
  if roundNat i.natAbs ≤ MAX_VALUE then .int (roundInt i)
  else if i < 0 then .negInfinity else .infinity

/-- The arithmetic `(Number(page) - 1) * Number(limit)` on doubles: the difference
is rounded, then the product. -/
def skipOf (page limit : Nat) : JsNum :=
  toDouble (roundInt ((page : Int) - 1) * (limit : Int))

/-- The value of `Math.ceil(total / Number(limit))` as it appears in the JSON
response: the integer ceiling of the quotient, and `null` for a zero limit (the
quotient is then `Infinity` or `NaN`, which JSON serialises as `null`).  For a
count below `2^53`, all a JavaScript number counts exactly, the double-precision
quotient has the same ceiling as the exact one, so the ceiling is computed on
naturals. -/
def mathCeilDiv (total limit : Nat) : JsVal :=
  if limit = 0 then .null else .num (((total + limit - 1) / limit : Nat) : Int)

/-- The sort object: `orderBy = {}` followed by
`orderBy[sortBy] = order === 'asc' ? 'asc' : 'desc'`, with `sortBy` defaulting to
`createdAt`.  The assignment adds the key `sortBy` to the object, except for the
name `__proto__`: that one reaches the accessor every object inherits, which
ignores a string, and the object stays empty. -/
def orderByOf (q : Query) : Obj :=
  if q.sortBy.getD "createdAt" = "__proto__" then []
  else [(q.sortBy.getD "createdAt", .str (if q.order = some "asc" then "asc" else "desc"))]

/-- The guarded assignment `if (param) where[key] = param` for a string query
parameter: an absent or empty parameter is falsy. -/
def whenParam (p : Option String) (key : String) (whr : Obj) : Obj :=
  match p with
  | some s => if s = "" then whr else setProp whr key (.str s)
  | none => whr

/-- The guarded assignment `if (req.user.role === 'USER') where.createdBy = req.user.id`. -/
def whenUser (user : User) (whr : Obj) : Obj :=
  if user.role = .USER then setProp whr "createdBy" (.str user.id) else whr

/-- The effective page `Number(page)`, `page` defaulting to `PAGINATION.DEFAULT_PAGE`. -/
def pageOf (env : Env) (q : Query) : Nat :=
  q.page.getD env.PAGINATION.DEFAULT_PAGE

/-- The effective limit `Number(limit)`, `limit` defaulting to
`PAGINATION.DEFAULT_LIMIT`. -/
def limitOf (env : Env) (q : Query) : Nat :=
  q.limit.getD env.PAGINATION.DEFAULT_LIMIT

/-- The tail common to the eight list handlers, identical in each but for the
table, the predicate and the joins: count the matching rows, fetch one page, and
answer with the pagination block.  `pre` are the store calls already issued. -/
def listPage (env : Env) (db : Db) (q : Query) (t : Table) (whr : Obj)
    (incl : List Incl) (pre : List StoreCall) : Result :=
  let page := pageOf env q
  let limit := limitOf env q
  let skip := skipOf page limit
  let total := count db t whr
  let orderBy := orderByOf q
  let calls := pre ++ [.count t whr, .findMany t whr orderBy skip limit incl]
  match findMany env.le db t whr orderBy skip limit incl with
  | none => ⟨calls, db, .thrown⟩
  | some found =>
    ⟨calls, db, .json 200
      [("success", .bool true),
       ("data", .arr (found.map .obj)),
       ("pagination", .obj
         [("total", .num total),
          ("page", .num page),
          ("limit", .num limit),
          ("pages", mathCeilDiv total limit)])]⟩

/-! ## Investment calculations -/

/-- The `where` object built by `getAllCalculations`. -/
def getAllCalculationsWhere (user : User) (q : Query) : Obj :=
  whenParam q.marketArea "marketArea"
    (whenParam q.propertyType "propertyType"
      (whenParam q.contactId "contactId" (whenUser user [])))

/-- Handler `getAllCalculations`. -/
def getAllCalculations (env : Env) (db : Db) (req : Request) : Result :=
  listPage env db req.query .investmentCalculation
    (getAllCalculationsWhere req.user req.query) [.contact, .user] []

/-- The `where` object of the by-id lookups: the id, and for a `USER` caller the
ownership predicate. -/
def byIdWhere (req : Request) : Obj :=
  whenUser req.user [("id", getProp req.params "id")]

/-- The `where` object of the update and delete checks: id and ownership. -/
def ownedWhere (req : Request) : Obj :=
  [("id", getProp req.params "id"), ("createdBy", .str req.user.id)]

/-- Handler `getCalculationById`. -/
def getCalculationById (db : Db) (req : Request) : Result :=
  let calls := [StoreCall.findFirst .investmentCalculation (byIdWhere req) [.contact]]
  match findFirst db .investmentCalculation (byIdWhere req) with
  | none => ⟨calls, db, .next "Investment calculation not found" 404⟩
  | some calculation =>
    ⟨calls, db, .json 200
      [("success", .bool true),
       ("data", .obj (applyIncls db [.contact] calculation))]⟩

/-- The fields `createCalculation` requires. -/
def calculationRequiredFields : List String :=
  ["propertyType", "marketArea", "investmentAmount", "holdPeriod", "annualReturnRate",
   "propertyManagementFee", "vacancyRate", "monthlyCashFlow", "annualCashFlow",
   "totalReturn", "roi", "contactId"]

/-- The loop `for (const field of requiredFields) if (data[field] === undefined)
return ..`: the first required field that reads `undefined`. -/
def firstMissing (requiredFields : List String) (data : Obj) : Option String :=
  requiredFields.find? fun field => decide (getProp data field = .undefined)

/-- Handler `createCalculation`. -/
def createCalculation (env : Env) (db : Db) (req : Request) : Result :=
  let calculationData := setProp req.body "createdBy" (.str req.user.id)
  match firstMissing calculationRequiredFields calculationData with
  | some field => ⟨[], db, .next (field ++ " is required") 400⟩
  | none =>
    let whr : Obj :=
      [("id", getProp calculationData "contactId"), ("createdBy", .str req.user.id)]
    match findFirst db .contact whr with
    | none =>
      ⟨[.findFirst .contact whr []], db, .next "Contact not found or access denied" 404⟩
    | some _ =>
      let (db', calculation) := create env.generated db .investmentCalculation calculationData
      ⟨[.findFirst .contact whr [],
        .create .investmentCalculation calculationData [.contact]], db',
       .json 201
        [("success", .bool true),
         ("data", .obj (applyIncls db' [.contact] calculation)),
         ("message", .str "Investment calculation created successfully")]⟩

/-- Handler `updateCalculation`. -/
def updateCalculation (db : Db) (req : Request) : Result :=
  let check := StoreCall.findFirst .investmentCalculation (ownedWhere req) []
  match findFirst db .investmentCalculation (ownedWhere req) with
  | none => ⟨[check], db, .next "Investment calculation not found" 404⟩
  | some _ =>
    let calls := [check, .update .investmentCalculation [("id", getProp req.params "id")]
      req.body [.contact]]
    match update db .investmentCalculation (getProp req.params "id") req.body with
    | none => ⟨calls, db, .thrown⟩
    | some (db', calculation) =>
      ⟨calls, db', .json 200
        [("success", .bool true),
         ("data", .obj (applyIncls db' [.contact] calculation)),
         ("message", .str "Investment calculation updated successfully")]⟩

/-- Handler `deleteCalculation`. -/
def deleteCalculation (db : Db) (req : Request) : Result :=
  let check := StoreCall.findFirst .investmentCalculation (ownedWhere req) []
  match findFirst db .investmentCalculation (ownedWhere req) with
  | none => ⟨[check], db, .next "Investment calculation not found" 404⟩
  | some _ =>
    let calls := [check, .delete .investmentCalculation [("id", getProp req.params "id")]]
    match delete db .investmentCalculation (getProp req.params "id") with
    | none => ⟨calls, db, .thrown⟩
    | some db' =>
      ⟨calls, db', .json 200
        [("success", .bool true),
         ("message", .str "Investment calculation deleted successfully")]⟩

/-- The ownership lookup of the contact named by the path, shared by
`getContactCalculations` and `getContactQuestionnaires`. -/
def contactOwnedWhere (req : Request) : Obj :=
  [("id", getProp req.params "contactId"), ("createdBy", .str req.user.id)]

/-- The `where` object of `getContactCalculations` and `getContactQuestionnaires`. -/
def contactScopedWhere (req : Request) : Obj :=
  [("contactId", getProp req.params "contactId"), ("createdBy", .str req.user.id)]

/-- Handler `getContactCalculations`. -/
def getContactCalculations (env : Env) (db : Db) (req : Request) : Result :=
  let check := StoreCall.findFirst .contact (contactOwnedWhere req) []
  match findFirst db .contact (contactOwnedWhere req) with
  | none => ⟨[check], db, .next "Contact not found or access denied" 404⟩
  | some _ =>
    listPage env db req.query .investmentCalculation (contactScopedWhere req) [] [check]

/-! ## Investor questionnaires -/

/-- The `where` object built by `getAllQuestionnaires`. -/
def getAllQuestionnairesWhere (user : User) (q : Query) : Obj :=
  whenParam q.contactId "contactId" (whenUser user [])

/-- Handler `getAllQuestionnaires`. -/
def getAllQuestionnaires (env : Env) (db : Db) (req : Request) : Result :=
  listPage env db req.query .investorQuestionnaire
    (getAllQuestionnairesWhere req.user req.query) [.contact, .user] []

/-- Handler `getQuestionnaireById`. -/
def getQuestionnaireById (db : Db) (req : Request) : Result :=
  let calls := [StoreCall.findFirst .investorQuestionnaire (byIdWhere req) [.contact]]
  match findFirst db .investorQuestionnaire (byIdWhere req) with
  | none => ⟨calls, db, .next "Investor questionnaire not found" 404⟩
  | some questionnaire =>
    ⟨calls, db, .json 200
      [("success", .bool true),
       ("data", .obj (applyIncls db [.contact] questionnaire))]⟩

/-- The fields `createQuestionnaire` requires. -/
def questionnaireRequiredFields : List String :=
  ["isAccreditedInvestor", "hasInvestedBefore", "lookingTimeframe",
   "primaryInvestmentGoal", "investmentTimeline", "capitalToInvest", "useFinancing",
   "marketsInterested", "propertyTypesInterested", "investmentTimeframe", "contactId"]

/-- The coercion `if (!Array.isArray(data[key])) data[key] = []` of
`createQuestionnaire`. -/
def ensureArray (data : Obj) (key : String) : Obj :=
  if (getProp data key).isArray then data else setProp data key (.arr [])

/-- The coercion `if (body[key] && !Array.isArray(body[key])) body[key] = []` of
`updateQuestionnaire`. -/
def ensureArrayIfProvided (body : Obj) (key : String) : Obj :=
  if (getProp body key).truthy && !(getProp body key).isArray then
    setProp body key (.arr [])
  else body

/-- Handler `createQuestionnaire`. -/
def createQuestionnaire (env : Env) (db : Db) (req : Request) : Result :=
  let questionnaireData := setProp req.body "createdBy" (.str req.user.id)
  match firstMissing questionnaireRequiredFields questionnaireData with
  | some field => ⟨[], db, .next (field ++ " is required") 400⟩
  | none =>
    let whr : Obj :=
      [("id", getProp questionnaireData "contactId"), ("createdBy", .str req.user.id)]
    match findFirst db .contact whr with
    | none =>
      ⟨[.findFirst .contact whr []], db, .next "Contact not found or access denied" 404⟩
    | some _ =>
      let questionnaireData :=
        ensureArray (ensureArray questionnaireData "marketsInterested")
          "propertyTypesInterested"
      let (db', questionnaire) :=
        create env.generated db .investorQuestionnaire questionnaireData
      ⟨[.findFirst .contact whr [],
        .create .investorQuestionnaire questionnaireData [.contact]], db',
       .json 201
        [("success", .bool true),
         ("data", .obj (applyIncls db' [.contact] questionnaire)),
         ("message", .str "Investor questionnaire created successfully")]⟩

/-- Handler `updateQuestionnaire`. -/
def updateQuestionnaire (db : Db) (req : Request) : Result :=
  let check := StoreCall.findFirst .investorQuestionnaire (ownedWhere req) []
  match findFirst db .investorQuestionnaire (ownedWhere req) with
  | none => ⟨[check], db, .next "Investor questionnaire not found" 404⟩
  | some _ =>
    let body :=
      ensureArrayIfProvided (ensureArrayIfProvided req.body "marketsInterested")
        "propertyTypesInterested"
    let calls := [check, .update .investorQuestionnaire [("id", getProp req.params "id")]
      body [.contact]]
    match update db .investorQuestionnaire (getProp req.params "id") body with
    | none => ⟨calls, db, .thrown⟩
    | some (db', questionnaire) =>
      ⟨calls, db', .json 200
        [("success", .bool true),
         ("data", .obj (applyIncls db' [.contact] questionnaire)),
         ("message", .str "Investor questionnaire updated successfully")]⟩

/-- Handler `deleteQuestionnaire`. -/
def deleteQuestionnaire (db : Db) (req : Request) : Result :=
  let check := StoreCall.findFirst .investorQuestionnaire (ownedWhere req) []
  match findFirst db .investorQuestionnaire (ownedWhere req) with
  | none => ⟨[check], db, .next "Investor questionnaire not found" 404⟩
  | some _ =>
    let calls := [check, .delete .investorQuestionnaire [("id", getProp req.params "id")]]
    match delete db .investorQuestionnaire (getProp req.params "id") with
    | none => ⟨calls, db, .thrown⟩
    | some db' =>
      ⟨calls, db', .json 200
        [("success", .bool true),
         ("message", .str "Investor questionnaire deleted successfully")]⟩

/-- Handler `getContactQuestionnaires`. -/
def getContactQuestionnaires (env : Env) (db : Db) (req : Request) : Result :=
  let check := StoreCall.findFirst .contact (contactOwnedWhere req) []
  match findFirst db .contact (contactOwnedWhere req) with
  | none => ⟨[check], db, .next "Contact not found or access denied" 404⟩
  | some _ =>
    listPage env db req.query .investorQuestionnaire (contactScopedWhere req) [] [check]

/-! ## Videos -/

/-- The `where` object built by `getAllVideos`: the `isPublished` filter is set
whenever the parameter is present, to the test `isPublished === 'true'`. -/
def getAllVideosWhere (user : User) (q : Query) : Obj :=
  match q.isPublished with
  | some s => setProp (whenUser user []) "isPublished" (.bool (decide (s = "true")))
  | none => whenUser user []

/-- Handler `getAllVideos`. -/
def getAllVideos (env : Env) (db : Db) (req : Request) : Result :=
  listPage env db req.query .video (getAllVideosWhere req.user req.query)
    [.user, .countFeedbacks] []

/-- Handler `getVideoById`. -/
def getVideoById (db : Db) (req : Request) : Result :=
  let calls := [StoreCall.findFirst .video (byIdWhere req) [.user, .countFeedbacks]]
  match findFirst db .video (byIdWhere req) with
  | none => ⟨calls, db, .next "Video not found" 404⟩
  | some video =>
    ⟨calls, db, .json 200
      [("success", .bool true),
       ("data", .obj (applyIncls db [.user, .countFeedbacks] video))]⟩

/-- Handler `createVideo`. -/
def createVideo (env : Env) (db : Db) (req : Request) : Result :=
  let title := getProp req.body "title"
  let videoUrl := getProp req.body "videoUrl"
  let thumbnailUrl := getProp req.body "thumbnailUrl"
  let isPublished := getProp req.body "isPublished"
  if !title.truthy || !videoUrl.truthy then
    ⟨[], db, .next "title and videoUrl are required" 400⟩
  else
    let data : Obj :=
      [("title", title),
       ("videoUrl", videoUrl),
       ("thumbnailUrl", thumbnailUrl),
       ("isPublished", if isPublished ≠ .undefined then isPublished else .bool true),
       ("createdBy", .str req.user.id)]
    let (db', video) := create env.generated db .video data
    ⟨[.create .video data [.user]], db',
     .json 201
      [("success", .bool true),
       ("data", .obj (applyIncls db' [.user] video)),
       ("message", .str "Video created successfully")]⟩

/-- Handler `updateVideo`. -/
def updateVideo (db : Db) (req : Request) : Result :=
  let check := StoreCall.findFirst .video (ownedWhere req) []
  match findFirst db .video (ownedWhere req) with
  | none => ⟨[check], db, .next "Video not found or access denied" 404⟩
  | some _ =>
    let calls := [check, .update .video [("id", getProp req.params "id")] req.body [.user]]
    match update db .video (getProp req.params "id") req.body with
    | none => ⟨calls, db, .thrown⟩
    | some (db', video) =>
      ⟨calls, db', .json 200
        [("success", .bool true),
         ("data", .obj (applyIncls db' [.user] video)),
         ("message", .str "Video updated successfully")]⟩

/-- Handler `deleteVideo`. -/
def deleteVideo (db : Db) (req : Request) : Result :=
  let check := StoreCall.findFirst .video (ownedWhere req) []
  match findFirst db .video (ownedWhere req) with
  | none => ⟨[check], db, .next "Video not found or access denied" 404⟩
  | some _ =>
    let counting := StoreCall.count .videoFeedback [("videoId", getProp req.params "id")]
    let feedbackCount := count db .videoFeedback [("videoId", getProp req.params "id")]
    if feedbackCount > 0 then
      ⟨[check, counting], db, .next "Cannot delete video with existing feedback" 400⟩
    else
      let calls := [check, counting, .delete .video [("id", getProp req.params "id")]]
      match delete db .video (getProp req.params "id") with
      | none => ⟨calls, db, .thrown⟩
      | some db' =>
        ⟨calls, db', .json 200
          [("success", .bool true),
           ("message", .str "Video deleted successfully")]⟩

/-- Handler `togglePublishStatus`. -/
def togglePublishStatus (db : Db) (req : Request) : Result :=
  let check := StoreCall.findFirst .video (ownedWhere req) []
  match findFirst db .video (ownedWhere req) with
  | none => ⟨[check], db, .next "Video not found or access denied" 404⟩
  | some video =>
    let data : Obj := [("isPublished", .bool (!(getProp video "isPublished").truthy))]
    let calls := [check, .update .video [("id", getProp req.params "id")] data [.user]]
    match update db .video (getProp req.params "id") data with
    | none => ⟨calls, db, .thrown⟩
    | some (db', updatedVideo) =>
      ⟨calls, db', .json 200
        [("success", .bool true),
         ("data", .obj (applyIncls db' [.user] updatedVideo)),
         ("message", .str ("Video " ++
            (if (getProp updatedVideo "isPublished").truthy then "published"
             else "unpublished") ++ " successfully"))]⟩

/-! ## Video feedback lists -/

/-- The `where` object built by `getAllFeedbacks`. -/
def getAllFeedbacksWhere (q : Query) : Obj :=
  whenParam q.contactId "contactId" (whenParam q.videoId "videoId" [])

/-- Handler `getAllFeedbacks`. -/
def getAllFeedbacks (env : Env) (db : Db) (req : Request) : Result :=
  listPage env db req.query .videoFeedback (getAllFeedbacksWhere req.query)
    [.video, .contact] []

/-- Handler `getVideoFeedbacks`. -/
def getVideoFeedbacks (env : Env) (db : Db) (req : Request) : Result :=
  let videoId := getProp req.params "videoId"
  let check := StoreCall.findUnique .video [("id", videoId)] []
  match findFirst db .video [("id", videoId)] with
  | none => ⟨[check], db, .next "Video not found" 404⟩
  | some _ =>
    listPage env db req.query .videoFeedback [("videoId", videoId)] [.video, .contact] [check]

/-- Handler `getContactFeedbacks`. -/
def getContactFeedbacks (env : Env) (db : Db) (req : Request) : Result :=
  let contactId := getProp req.params "contactId"
  let check := StoreCall.findUnique .contact [("id", contactId)] []
  match findFirst db .contact [("id", contactId)] with
  | none => ⟨[check], db, .next "Contact not found" 404⟩
  | some _ =>
    listPage env db req.query .videoFeedback [("contactId", contactId)] [.video] [check]

/-! ## Contracts and sample data

The shapes the theorems below give to results, and a small store with requests on
which they are instantiated. -/

/-- The rows a list handler answers with for a `skip` that is not negative: the
page cut out of the ordered matching rows, each with its relations joined. -/
def pageRows (le : JsVal → JsVal → Bool) (db : Db) (q : Query) (t : Table) (whr : Obj)
    (skip : JsNum) (l : Nat) (incl : List Incl) : List Obj :=
  match skip with
  | .int s =>
    (((sortRows le (orderByOf q) ((db.rows t).filter (matchesWhere whr))).drop
      s.toNat).take l).map (applyIncls db incl)
  | _ => []

/-- The shape the list contract gives a result for page `p` and limit `l`: the
handler issued a count and then a fetch with one and the same predicate, the fetch
taking `l` rows and skipping the double-precision product `skipOf p l`, which is
`(p-1)*l` itself as long as that is at most `2^53`; it answered 200 with the
pagination block `total, page, limit, pages`, where `total` is that count and
`pages` the ceiling of `total / l`; and `pages` pages cover the rows with none to
spare. -/
def PageContract (db : Db) (q : Query) (p l : Nat) (r : Result) : Prop :=
  ∃ (t : Table) (whr : Obj) (incl : List Incl) (pre : List StoreCall) (data : List JsVal),
    r.calls = pre ++ [.count t whr, .findMany t whr (orderByOf q) (skipOf p l) l incl] ∧
    ((p - 1) * l ≤ 2 ^ 53 → skipOf p l = .int (((p - 1) * l : Nat) : Int)) ∧
    r.out = .json 200
      [("success", .bool true),
       ("data", .arr data),
       ("pagination", .obj
         [("total", .num (count db t whr)),
          ("page", .num p),
          ("limit", .num l),
          ("pages", .num ⌈(count db t whr : ℚ) / (l : ℚ)⌉)])] ∧
    (count db t whr : Int) ≤ ⌈(count db t whr : ℚ) / (l : ℚ)⌉ * (l : Int) ∧
    (0 < count db t whr →
      (⌈(count db t whr : ℚ) / (l : ℚ)⌉ - 1) * (l : Int) < (count db t whr : Int))

/-- A sample environment: first page and ten rows by default, numbers ordered by
size and every other pair of keys left in place, and a generated id. -/
def sampleEnv : Env :=
  { PAGINATION := { DEFAULT_PAGE := 1, DEFAULT_LIMIT := 10 }
    le := fun a b =>
      match a, b with
      | .num x, .num y => decide (x ≤ y)
      | _, _ => true
    generated := [("id", .str "k9"), ("createdAt", .num 9)] }

/-- A sample store: two users and an administrator, one contact each for the two
users, three calculations of `u1` and one of `u2`, one questionnaire of `u1`, one
video each, and one feedback on the video of `u2`. -/
def sampleDb : Db :=
  { user :=
      [[("id", .str "u1"), ("name", .str "Ann"), ("role", .str "USER")],
       [("id", .str "u2"), ("name", .str "Bob"), ("role", .str "USER")],
       [("id", .str "a1"), ("name", .str "Root"), ("role", .str "ADMIN")]]
    contact :=
      [[("id", .str "c1"), ("name", .str "Carl"), ("phoneNumber", .str "111"),
        ("email", .str "carl@x.io"), ("createdBy", .str "u1")],
       [("id", .str "c2"), ("name", .str "Dora"), ("phoneNumber", .str "222"),
        ("email", .null), ("createdBy", .str "u2")]]
    investmentCalculation :=
      [[("id", .str "k1"), ("propertyType", .str "Condo"), ("contactId", .str "c1"),
        ("createdBy", .str "u1"), ("createdAt", .num 1)],
       [("id", .str "k2"), ("propertyType", .str "Duplex"), ("contactId", .str "c1"),
        ("createdBy", .str "u1"), ("createdAt", .num 2)],
       [("id", .str "k3"), ("propertyType", .str "Condo"), ("contactId", .str "c1"),
        ("createdBy", .str "u1"), ("createdAt", .num 3)],
       [("id", .str "k4"), ("propertyType", .str "Condo"), ("contactId", .str "c2"),
        ("createdBy", .str "u2"), ("createdAt", .num 4)]]
    investorQuestionnaire :=
      [[("id", .str "q1"), ("contactId", .str "c1"), ("createdBy", .str "u1"),
        ("createdAt", .num 1)]]
    video :=
      [[("id", .str "v1"), ("title", .str "Intro"), ("videoUrl", .str "http://v/1"),
        ("isPublished", .bool true), ("createdBy", .str "u1"), ("createdAt", .num 1)],
       [("id", .str "v2"), ("title", .str "Tour"), ("videoUrl", .str "http://v/2"),
        ("isPublished", .bool false), ("createdBy", .str "u2"), ("createdAt", .num 2)]]
    videoFeedback :=
      [[("id", .str "f1"), ("videoId", .str "v2"), ("contactId", .str "c1"),
        ("responses", .obj [("rating", .num 5)]), ("createdAt", .num 1)]] }

/-- The caller `u1`, a plain user. -/
def userU1 : User := { id := "u1", role := .USER }

/-- The caller `a1`, an administrator. -/
def adminA1 : User := { id := "a1", role := .ADMIN }

/-- A list request of `u1`: second page, two rows a page, nested under contact
`c1` and video `v2`. -/
def sampleListReq : Request :=
  { user := userU1
    params := [("contactId", .str "c1"), ("videoId", .str "v2")]
    query := { page := some 2, limit := some 2 } }

/-- A list request of `u1` for page 4 with `2^53 - 1` rows a page. -/
def bigPageReq : Request :=
  { user := userU1
    query := { page := some 4, limit := some 9007199254740991 } }

/-- The `data` member of a JSON answer. -/
def Result.data (r : Result) : JsVal :=
  match r.out with
  | .json _ body => getProp body "data"
  | _ => .undefined

/-- The `pagination.total` member of a JSON answer. -/
def Result.total (r : Result) : JsVal :=
  match r.out with
  | .json _ body =>
    match getProp body "pagination" with
    | .obj pg => getProp pg "total"
    | _ => .undefined
  | _ => .undefined

/-- The same request asking for another page. -/
def withPage (req : Request) (p : Nat) : Request :=
  { req with query := { req.query with page := some p } }

/-- The slice contract between the answer `r` for page `p` and the answer `r1` for
page 1, limit `l` in both: `r` carries a data array of at most `l` elements and a
total; past the last page, `ceil(total / l) < p`, the array is empty; and `r1`
carries the same total. -/
def SliceContract (p l : Nat) (r r1 : Result) : Prop :=
  ∃ (data : List JsVal) (total : Nat),
    r.data = .arr data ∧ r.total = .num total ∧
    data.length ≤ l ∧
    (⌈(total : ℚ) / (l : ℚ)⌉ < (p : Int) → data = []) ∧
    r1.total = .num total

/-- A list request of `u1` past the last page: page 5 with two rows a page. -/
def samplePastReq : Request :=
  { user := userU1
    params := [("contactId", .str "c1"), ("videoId", .str "v2")]
    query := { page := some 5, limit := some 2 } }

/-- The scoping contract between the answer `r` given to the caller `uid`, who is
not an administrator, and the answer `ra` given to an administrator for the same
query on table `t`.  Both issued a count and a fetch under one predicate each
(`w`, `wa`).  Every element of the data of `r` is a row created by `uid`, and the
total of `r` counts exactly the rows created by `uid` that satisfy `wa`.  The
predicate `wa` of the administrator has no `createdBy` key, `w` is `wa` with the
ownership predicate added, and the total of `ra` counts every row satisfying `wa`,
whoever created it. -/
def ScopingContract (db : Db) (t : Table) (uid : String) (r ra : Result) : Prop :=
  ∃ (w wa ob oba : Obj) (sk ska : JsNum) (tk tka : Nat) (incl : List Incl),
    r.calls = [.count t w, .findMany t w ob sk tk incl] ∧
    ra.calls = [.count t wa, .findMany t wa oba ska tka incl] ∧
    (∀ xs, r.data = .arr xs → ∀ x ∈ xs,
      ∃ row, x = .obj row ∧ getProp row "createdBy" = .str uid) ∧
    (∀ n, r.total = .num n →
      n = (((db.rows t).filter fun row =>
        decide (getProp row "createdBy" = .str uid) && matchesWhere wa row).length : Int)) ∧
    (∀ kv ∈ wa, kv.1 ≠ "createdBy") ∧
    (∀ row, matchesWhere w row = true ↔
      getProp row "createdBy" = .str uid ∧ matchesWhere wa row = true) ∧
    (∀ n, ra.total = .num n →
      n = (((db.rows t).filter fun row => matchesWhere wa row).length : Int))

/-- The administrator asking the query of `sampleListReq`. -/
def sampleAdminListReq : Request :=
  { user := adminA1
    query := { page := some 2, limit := some 2 } }

/-- Two results that are one and the same not-found outcome: both forwarded the
404 error with message `msg`, both issued the same single store call, a read, and
each left its store (`db1`, `db2`) as it was. -/
def NotFoundAlike (msg : String) (db1 db2 : Db) (r1 r2 : Result) : Prop :=
  r1.out = .next msg 404 ∧ r2.out = .next msg 404 ∧
  (∃ c, r1.calls = [c] ∧ r2.calls = [c] ∧ c.isWrite = false) ∧
  r1.db = db1 ∧ r2.db = db2

/-- A store in which user `u2` owns a calculation, a questionnaire and a video
that all carry the id `x9`, the video with two feedback rows. -/
def foreignDb : Db :=
  { sampleDb with
    investmentCalculation := sampleDb.investmentCalculation ++
      [[("id", .str "x9"), ("contactId", .str "c2"), ("createdBy", .str "u2")]]
    investorQuestionnaire := sampleDb.investorQuestionnaire ++
      [[("id", .str "x9"), ("contactId", .str "c2"), ("createdBy", .str "u2")]]
    video := sampleDb.video ++
      [[("id", .str "x9"), ("title", .str "Private"), ("isPublished", .bool true),
        ("createdBy", .str "u2")]]
    videoFeedback := sampleDb.videoFeedback ++
      [[("id", .str "f8"), ("videoId", .str "x9")],
       [("id", .str "f9"), ("videoId", .str "x9")]] }

/-- The user `u1` asking for id `x9`, with an update body. -/
def foreignReq : Request :=
  { user := userU1
    params := [("id", .str "x9")]
    body := [("title", .str "Mine now"), ("contactId", .str "c1")] }

/-- A refused mutation: the handler forwarded the 404 error with message `msg`,
issued no write, and left the store `db` as it was. -/
def Refused (msg : String) (db : Db) (r : Result) : Prop :=
  r.out = .next msg 404 ∧ (∀ c ∈ r.calls, c.isWrite = false) ∧ r.db = db

/-- The administrator `a1` asking to change the calculation, questionnaire or
video with id `x9`, all of which belong to `u2`. -/
def adminForeignReq : Request :=
  { user := adminA1
    params := [("id", .str "x9")]
    body := [("title", .str "Taken over")] }

/-- The user `u1` updating the calculation `k1`, which is theirs, with a body that
names the contact `c2` of user `u2`. -/
def foreignContactReq : Request :=
  { user := userU1
    params := [("id", .str "k1")]
    body := [("contactId", .str "c2")] }

/-- The user `u1` updating the questionnaire `q1`, which is theirs, with a body
that names the contact `c2` of user `u2`. -/
def foreignContactQuestionnaireReq : Request :=
  { user := userU1
    params := [("id", .str "q1")]
    body := [("contactId", .str "c2")] }

/-- The `required` list documented for `POST /api/calculations` in
`routes/investmentCalculationRoutes.js`. -/
def documentedCalculationRequired : List String :=
  ["propertyType", "marketArea", "investmentAmount", "holdPeriod", "annualReturnRate",
   "propertyManagementFee", "vacancyRate", "monthlyCashFlow", "annualCashFlow",
   "totalReturn", "roi", "contactId"]

/-- The `required` list documented for `POST /api/questionnaires` in
`routes/investorQuestionnaireRoutes.js`. -/
def documentedQuestionnaireRequired : List String :=
  ["isAccreditedInvestor", "hasInvestedBefore", "lookingTimeframe",
   "primaryInvestmentGoal", "investmentTimeline", "capitalToInvest", "useFinancing",
   "marketsInterested", "propertyTypesInterested", "investmentTimeframe", "contactId"]

/-- A calculation body whose twelve required fields are all `null`, empty or `0`. -/
def falsyCalculationReq : Request :=
  { user := userU1
    body :=
      [("propertyType", .str ""), ("marketArea", .null), ("investmentAmount", .num 0),
       ("holdPeriod", .num 0), ("annualReturnRate", .num 0),
       ("propertyManagementFee", .null), ("vacancyRate", .num 0),
       ("monthlyCashFlow", .num 0), ("annualCashFlow", .num 0), ("totalReturn", .null),
       ("roi", .num 0), ("contactId", .str "")] }

/-- A questionnaire body whose eleven required fields are all `null`, empty or `0`. -/
def falsyQuestionnaireReq : Request :=
  { user := userU1
    body :=
      [("isAccreditedInvestor", .null), ("hasInvestedBefore", .null),
       ("lookingTimeframe", .str ""), ("primaryInvestmentGoal", .str ""),
       ("investmentTimeline", .str ""), ("capitalToInvest", .num 0),
       ("useFinancing", .null), ("marketsInterested", .null),
       ("propertyTypesInterested", .null), ("investmentTimeframe", .str ""),
       ("contactId", .null)] }

/-- A complete calculation body of user `u1` for their contact `c1`, carrying a
`createdBy` of its own. -/
def fullCalculationReq : Request :=
  { user := userU1
    body :=
      [("propertyType", .str "Condo"), ("marketArea", .str "Indianapolis, IN"),
       ("investmentAmount", .num 100000), ("holdPeriod", .num 5),
       ("annualReturnRate", .num 10), ("propertyManagementFee", .num 8),
       ("vacancyRate", .num 5), ("monthlyCashFlow", .num 725),
       ("annualCashFlow", .num 8700), ("totalReturn", .num 43500), ("roi", .num 43),
       ("contactId", .str "c1"), ("createdBy", .str "u2")] }

/-! ## Basic facts about objects, predicates and the store -/

theorem getProp_setProp_self (o : Obj) (k : String) (v : JsVal) :
    getProp (setProp o k v) k = v := by
  induction o with
  | nil => simp [setProp, getProp, List.lookup]
  | cons hd tl ih =>
    obtain ⟨k', v'⟩ := hd
    by_cases h : k' = k
    · subst h
      simp [setProp, getProp, List.lookup]
    · have h' : (k == k') = false := by simpa using fun e => h e.symm
      simp only [setProp, h, if_false]
      simpa [getProp, List.lookup, h'] using ih

theorem getProp_setProp_ne (o : Obj) (k k' : String) (v : JsVal) (h : k' ≠ k) :
    getProp (setProp o k v) k' = getProp o k' := by
  induction o with
  | nil =>
    have h' : (k' == k) = false := by simpa using h
    simp [setProp, getProp, List.lookup, h']
  | cons hd tl ih =>
    obtain ⟨k0, v0⟩ := hd
    by_cases h0 : k0 = k
    · subst h0
      have h' : (k' == k0) = false := by simpa using h
      simp [setProp, getProp, List.lookup, h']
    · simp only [setProp, h0, if_false]
      by_cases h1 : k' = k0
      · subst h1
        simp [getProp, List.lookup]
      · have h' : (k' == k0) = false := by simpa using h1
        simpa [getProp, List.lookup, h'] using ih

theorem matchesWhere_cons (k : String) (v : JsVal) (whr row : Obj) :
    matchesWhere ((k, v) :: whr) row = true ↔
      getProp row k = v ∧ matchesWhere whr row = true := by
  simp [matchesWhere]

theorem matchesWhere_nil (row : Obj) : matchesWhere [] row = true := by
  simp [matchesWhere]

theorem sortRows_perm (le : JsVal → JsVal → Bool) (orderBy : Obj) (rs : List Obj) :
    (sortRows le orderBy rs).Perm rs := by
  unfold sortRows
  split
  · split
    · exact List.perm_insertionSort _ _
    · exact List.perm_insertionSort _ _
  · exact List.Perm.refl _

theorem sortRows_length (le : JsVal → JsVal → Bool) (orderBy : Obj) (rs : List Obj) :
    (sortRows le orderBy rs).length = rs.length :=
  (sortRows_perm le orderBy rs).length_eq

/-! ## Double-precision rounding of `skip` -/

theorem droppedBits_enough (fuel n : Nat) (h : n < 2 ^ 53 * 2 ^ fuel) :
    n / 2 ^ droppedBits fuel n < 2 ^ 53 := by
  induction fuel generalizing n with
  | zero => simpa [droppedBits] using h
  | succ k ih =>
    unfold droppedBits
    split
    · simpa using ‹n < 2 ^ 53›
    · have h2 : n / 2 < 2 ^ 53 * 2 ^ k := by
        rw [pow_succ] at h
        omega
      have e : n / 2 ^ (droppedBits k (n / 2) + 1) = n / 2 / 2 ^ droppedBits k (n / 2) := by
        rw [pow_succ', Nat.div_div_eq_div_mul]
      rw [e]
      exact ih (n / 2) h2

theorem droppedBits_significand (fuel n : Nat) (h : 2 ^ 52 ≤ n) :
    2 ^ 52 ≤ n / 2 ^ droppedBits fuel n := by
  induction fuel generalizing n with
  | zero => simpa [droppedBits] using h
  | succ k ih =>
    unfold droppedBits
    split
    · simpa using h
    · have h2 : 2 ^ 52 ≤ n / 2 := by omega
      have e : n / 2 ^ (droppedBits k (n / 2) + 1) = n / 2 / 2 ^ droppedBits k (n / 2) := by
        rw [pow_succ', Nat.div_div_eq_div_mul]
      rw [e]
      exact ih (n / 2) h2

theorem droppedBits_small (fuel n : Nat) (h : n < 2 ^ 53) : droppedBits fuel n = 0 := by
  cases fuel with
  | zero => rfl
  | succ k =>
    unfold droppedBits
    rw [if_pos h]

/-- The search of `roundNat` has fuel enough: what it keeps fits 53 bits. -/
theorem roundNat_significand (n : Nat) : n / 2 ^ droppedBits n n < 2 ^ 53 := by
  apply droppedBits_enough
  have : n < 2 ^ n := Nat.lt_two_pow n
  calc n < 2 ^ n := this
    _ ≤ 2 ^ 53 * 2 ^ n := Nat.le_mul_of_pos_left _ (by positivity)

theorem roundNat_of_le (n : Nat) (h : n ≤ 2 ^ 53) : roundNat n = n := by
  rcases Nat.lt_or_ge n (2 ^ 53) with h1 | h1
  · simp [roundNat, droppedBits_small n n h1, Nat.mod_one]
  · have : n = 2 ^ 53 := le_antisymm h h1
    subst this
    decide

theorem roundNat_ge (n : Nat) (h : 2 ^ 53 ≤ n) : 2 ^ 53 ≤ roundNat n := by
  have hq := droppedBits_significand n n (by omega)
  have hbase : 2 ^ 53 ≤ n / 2 ^ droppedBits n n * 2 ^ droppedBits n n := by
    rcases Nat.eq_zero_or_pos (droppedBits n n) with h0 | h0
    · rw [h0]; simpa using h
    · calc 2 ^ 53 = 2 ^ 52 * 2 ^ 1 := by norm_num
        _ ≤ n / 2 ^ droppedBits n n * 2 ^ droppedBits n n :=
          Nat.mul_le_mul hq (Nat.pow_le_pow_right (by norm_num) h0)
  unfold roundNat
  simp only
  split
  · exact le_trans hbase (Nat.mul_le_mul_right _ (Nat.le_succ _))
  · exact hbase

theorem toDouble_natCast (n : Nat) :
    toDouble (n : Int) =
      if roundNat n ≤ MAX_VALUE then .int ((roundNat n : Nat) : Int) else .infinity := by
  have h0 : ¬ ((n : Int) < 0) := by omega
  simp only [toDouble, roundInt, Int.natAbs_ofNat, if_neg h0]

theorem skipOf_pos (p l : Nat) (hp : 1 ≤ p) :
    skipOf p l =
      if roundNat (roundNat (p - 1) * l) ≤ MAX_VALUE then
        .int ((roundNat (roundNat (p - 1) * l) : Nat) : Int)
      else .infinity := by
  have h1 : ((p : Int) - 1) = ((p - 1 : Nat) : Int) := by omega
  have h0 : ¬ (((p - 1 : Nat) : Int) < 0) := by omega
  have h2 : roundInt ((p - 1 : Nat) : Int) = ((roundNat (p - 1) : Nat) : Int) := by
    simp only [roundInt, Int.natAbs_ofNat, if_neg h0]
  have h3 : ((roundNat (p - 1) : Nat) : Int) * (l : Int)
      = ((roundNat (p - 1) * l : Nat) : Int) := by
    push_cast
    rfl
  unfold skipOf
  rw [h1, h2, h3, toDouble_natCast]

theorem skipOf_exact (p l : Nat) (hp : 1 ≤ p) (h : (p - 1) * l ≤ 2 ^ 53) :
    skipOf p l = .int (((p - 1) * l : Nat) : Int) := by
  have hprod : roundNat (p - 1) * l = (p - 1) * l := by
    rcases Nat.eq_zero_or_pos l with h0 | h0
    · simp [h0]
    · have : p - 1 ≤ (p - 1) * l := Nat.le_mul_of_pos_right _ h0
      rw [roundNat_of_le _ (le_trans this h)]
  rw [skipOf_pos p l hp, hprod, roundNat_of_le _ h, if_pos]
  exact le_trans h (by decide)

theorem skipOf_past (p l total : Nat) (hp : 1 ≤ p) (ht : total ≤ 2 ^ 53)
    (h : total ≤ (p - 1) * l) :
    skipOf p l = .infinity ∨ ∃ n : Nat, skipOf p l = .int (n : Int) ∧ total ≤ n := by
  rw [skipOf_pos p l hp]
  split
  · right
    refine ⟨_, rfl, ?_⟩
    have hprod : total ≤ roundNat (p - 1) * l ∨ 2 ^ 53 ≤ roundNat (p - 1) * l := by
      rcases Nat.lt_or_ge (p - 1) (2 ^ 53) with h1 | h1
      · left; rw [roundNat_of_le _ (le_of_lt h1)]; exact h
      · rcases Nat.eq_zero_or_pos l with h0 | h0
        · left; subst h0; simpa using h
        · right
          exact le_trans (roundNat_ge _ h1) (Nat.le_mul_of_pos_right _ h0)
    rcases Nat.lt_or_ge (roundNat (p - 1) * l) (2 ^ 53) with h2 | h2
    · rw [roundNat_of_le _ (le_of_lt h2)]
      rcases hprod with h3 | h3
      · exact h3
      · omega
    · exact le_trans ht (roundNat_ge _ h2)
  · left; rfl

theorem skipOf_nonneg (p l : Nat) (hp : 1 ≤ p) :
    skipOf p l = .infinity ∨ ∃ n : Nat, skipOf p l = .int (n : Int) := by
  rw [skipOf_pos p l hp]
  split
  · exact Or.inr ⟨_, rfl⟩
  · exact Or.inl rfl

/-- For a positive limit the integer formula is the ceiling of the quotient. -/
theorem ceilDiv_eq (total l : Nat) (hl : 1 ≤ l) :
    (((total + l - 1) / l : Nat) : Int) = ⌈(total : ℚ) / (l : ℚ)⌉ := by
  symm
  rw [Int.ceil_eq_iff]
  have hlq : (0 : ℚ) < (l : ℚ) := by exact_mod_cast hl
  have h1 : (total + l - 1) / l * l ≤ total + l - 1 := Nat.div_mul_le_self _ _
  have h2 : total + l - 1 < ((total + l - 1) / l + 1) * l := by
    have := Nat.lt_succ_self ((total + l - 1) / l)
    exact (Nat.div_lt_iff_lt_mul (by omega)).1 this
  set q := (total + l - 1) / l with hq
  constructor
  · rw [lt_div_iff₀ hlq]
    have : (q : Int) * l - l < total := by
      have h1' : ((q * l : Nat) : Int) ≤ ((total + l - 1 : Nat) : Int) := by exact_mod_cast h1
      have : ((total + l - 1 : Nat) : Int) = (total : Int) + l - 1 := by omega
      push_cast at h1'
      omega
    have h3 : (((q : Int) * l - l : Int) : ℚ) < ((total : Int) : ℚ) := by exact_mod_cast this
    push_cast at h3
    push_cast
    linarith
  · rw [div_le_iff₀ hlq]
    have : total ≤ q * l := by
      have : (q + 1) * l = q * l + l := by ring
      omega
    exact_mod_cast this

theorem mathCeilDiv_eq (total l : Nat) (hl : 1 ≤ l) :
    mathCeilDiv total l = .num ⌈(total : ℚ) / (l : ℚ)⌉ := by
  unfold mathCeilDiv
  rw [if_neg (by omega), ceilDiv_eq total l hl]

theorem listPage_eq (env : Env) (db : Db) (q : Query) (t : Table) (whr : Obj)
    (incl : List Incl) (pre : List StoreCall) (hp : 1 ≤ pageOf env q) :
    listPage env db q t whr incl pre =
      ⟨pre ++ [.count t whr,
               .findMany t whr (orderByOf q)
                 (skipOf (pageOf env q) (limitOf env q)) (limitOf env q) incl],
       db,
       .json 200
        [("success", .bool true),
         ("data", .arr ((pageRows env.le db q t whr
            (skipOf (pageOf env q) (limitOf env q)) (limitOf env q) incl).map .obj)),
         ("pagination", .obj
           [("total", .num (count db t whr)),
            ("page", .num (pageOf env q)),
            ("limit", .num (limitOf env q)),
            ("pages", mathCeilDiv (count db t whr) (limitOf env q))])]⟩ := by
  rcases skipOf_nonneg (pageOf env q) (limitOf env q) hp with hs | ⟨n, hs⟩
  · simp only [listPage, findMany, pageRows, hs, List.map_nil]
  · have hnn : ¬ ((n : Int) < 0) := not_lt.2 (Int.natCast_nonneg _)
    simp only [listPage, findMany, pageRows, hs, if_neg hnn]

theorem ceil_mul_ge (total l : Nat) (hl : 1 ≤ l) :
    (total : Int) ≤ ⌈(total : ℚ) / (l : ℚ)⌉ * (l : Int) := by
  rw [← ceilDiv_eq total l hl]
  have h2 : total + l - 1 < ((total + l - 1) / l + 1) * l :=
    (Nat.div_lt_iff_lt_mul (by omega)).1 (Nat.lt_succ_self _)
  have h3 : total ≤ (total + l - 1) / l * l := by
    have : ((total + l - 1) / l + 1) * l = (total + l - 1) / l * l + l := by ring
    omega
  exact_mod_cast h3

theorem ceil_pred_mul_lt (total l : Nat) (hl : 1 ≤ l) (ht : 0 < total) :
    (⌈(total : ℚ) / (l : ℚ)⌉ - 1) * (l : Int) < (total : Int) := by
  rw [← ceilDiv_eq total l hl]
  have h1 : (total + l - 1) / l * l ≤ total + l - 1 := Nat.div_mul_le_self _ _
  have h1' : (((total + l - 1) / l * l : Nat) : Int) ≤ ((total + l - 1 : Nat) : Int) := by
    exact_mod_cast h1
  have h4 : ((total + l - 1 : Nat) : Int) = (total : Int) + l - 1 := by omega
  push_cast at h1'
  rw [sub_mul, one_mul]
  omega

/-! ## The pagination contract of the list handlers -/

theorem listPage_contract (env : Env) (db : Db) (q : Query) (t : Table) (whr : Obj)
    (incl : List Incl) (pre : List StoreCall) (hp : 1 ≤ pageOf env q)
    (hl : 1 ≤ limitOf env q) :
    PageContract db q (pageOf env q) (limitOf env q) (listPage env db q t whr incl pre) := by
  refine ⟨t, whr, incl, pre,
    (pageRows env.le db q t whr (skipOf (pageOf env q) (limitOf env q)) (limitOf env q)
      incl).map .obj,
    ?_, skipOf_exact _ _ hp, ?_, ceil_mul_ge _ _ hl, ceil_pred_mul_lt _ _ hl⟩
  · rw [listPage_eq env db q t whr incl pre hp]
  · rw [listPage_eq env db q t whr incl pre hp, mathCeilDiv_eq _ _ hl]

/-- C1, the claim as it stands fails for large products: for page 4 and limit
`2^53 - 1` the fetch of `getAllCalculations` goes out with `skip`
27021597764222972, the double nearest to the product, while `(p-1)*l` is
27021597764222973. -/
theorem pagination_skip_rounded :
    (getAllCalculations sampleEnv sampleDb bigPageReq).calls =
      [.count .investmentCalculation [("createdBy", .str "u1")],
       .findMany .investmentCalculation [("createdBy", .str "u1")]
         [("createdAt", .str "desc")] (.int 27021597764222972) 9007199254740991
         [.contact, .user]] ∧
    pageOf sampleEnv bigPageReq.query = 4 ∧
    limitOf sampleEnv bigPageReq.query = 9007199254740991 ∧
    ((4 - 1) * 9007199254740991 : Int) = 27021597764222973 ∧
    JsNum.int 27021597764222972 ≠ JsNum.int ((4 - 1) * 9007199254740991) := by
  decide

/-- C1, amended. For every page `p ≥ 1` and limit `l ≥ 1`, each of the eight list
handlers (the contact- and video-nested ones once their existence check has found
the row) issues the count and the fetch with the same where-clause, the fetch with
`take = l` and with `skip` the double-precision product of `p-1` and `l`, which
is `(p-1)*l` itself whenever that is at most `2^53`, and answers 200 with
`pagination = (total, page: p, limit: l, pages: ceil(total/l))`, `total` being the
count under that where-clause; hence `pages*l ≥ total` and, when `total > 0`,
`(pages-1)*l < total`. -/
theorem list_handlers_pagination (env : Env) (db : Db) (req : Request) (p l : Nat)
    (hp : 1 ≤ p) (hl : 1 ≤ l) (hpage : pageOf env req.query = p)
    (hlimit : limitOf env req.query = l) :
    PageContract db req.query p l (getAllCalculations env db req) ∧
    PageContract db req.query p l (getAllQuestionnaires env db req) ∧
    PageContract db req.query p l (getAllVideos env db req) ∧
    PageContract db req.query p l (getAllFeedbacks env db req) ∧
    ((findFirst db .contact (contactOwnedWhere req)).isSome = true →
      PageContract db req.query p l (getContactCalculations env db req)) ∧
    ((findFirst db .contact (contactOwnedWhere req)).isSome = true →
      PageContract db req.query p l (getContactQuestionnaires env db req)) ∧
    ((findFirst db .video [("id", getProp req.params "videoId")]).isSome = true →
      PageContract db req.query p l (getVideoFeedbacks env db req)) ∧
    ((findFirst db .contact [("id", getProp req.params "contactId")]).isSome = true →
      PageContract db req.query p l (getContactFeedbacks env db req)) := by
  subst hpage hlimit
  refine ⟨listPage_contract _ _ _ _ _ _ _ hp hl, listPage_contract _ _ _ _ _ _ _ hp hl,
    listPage_contract _ _ _ _ _ _ _ hp hl, listPage_contract _ _ _ _ _ _ _ hp hl,
    ?_, ?_, ?_, ?_⟩
  · intro hg
    obtain ⟨c, hc⟩ := Option.isSome_iff_exists.1 hg
    simp only [getContactCalculations, hc]
    exact listPage_contract _ _ _ _ _ _ _ hp hl
  · intro hg
    obtain ⟨c, hc⟩ := Option.isSome_iff_exists.1 hg
    simp only [getContactQuestionnaires, hc]
    exact listPage_contract _ _ _ _ _ _ _ hp hl
  · intro hg
    obtain ⟨c, hc⟩ := Option.isSome_iff_exists.1 hg
    simp only [getVideoFeedbacks, hc]
    exact listPage_contract _ _ _ _ _ _ _ hp hl
  · intro hg
    obtain ⟨c, hc⟩ := Option.isSome_iff_exists.1 hg
    simp only [getContactFeedbacks, hc]
    exact listPage_contract _ _ _ _ _ _ _ hp hl

/-- C1, at the sample request: page 2 with limit 2, for `getAllCalculations` and for
the contact-nested `getContactCalculations`, whose contact check succeeds. -/
theorem list_handlers_pagination_witness :
    PageContract sampleDb sampleListReq.query 2 2
      (getAllCalculations sampleEnv sampleDb sampleListReq) ∧
    PageContract sampleDb sampleListReq.query 2 2
      (getContactCalculations sampleEnv sampleDb sampleListReq) :=
  have h := list_handlers_pagination sampleEnv sampleDb sampleListReq 2 2
    (by decide) (by decide) rfl rfl
  ⟨h.1, h.2.2.2.2.1 (by decide)⟩

/-! ## Page slices -/

theorem pageRows_length_le (le : JsVal → JsVal → Bool) (db : Db) (q : Query) (t : Table)
    (whr : Obj) (skip : JsNum) (l : Nat) (incl : List Incl) :
    (pageRows le db q t whr skip l incl).length ≤ l := by
  cases skip <;> simp [pageRows, List.length_take]

theorem count_le_rows (db : Db) (t : Table) (whr : Obj) :
    count db t whr ≤ (db.rows t).length :=
  List.length_filter_le _ _

theorem pageRows_eq_nil (le : JsVal → JsVal → Bool) (db : Db) (q : Query) (t : Table)
    (whr : Obj) (p l : Nat) (incl : List Incl) (hl : 1 ≤ l)
    (hrows : (db.rows t).length ≤ 2 ^ 53)
    (h : ⌈(count db t whr : ℚ) / (l : ℚ)⌉ < (p : Int)) :
    pageRows le db q t whr (skipOf p l) l incl = [] := by
  have h1 := ceil_mul_ge (count db t whr) l hl
  have hc : (0 : Int) ≤ ⌈(count db t whr : ℚ) / (l : ℚ)⌉ := by
    apply Int.ceil_nonneg
    positivity
  have hp : 1 ≤ p := by omega
  have h2 : ⌈(count db t whr : ℚ) / (l : ℚ)⌉ * (l : Int) ≤ ((p : Int) - 1) * (l : Int) :=
    mul_le_mul_of_nonneg_right (by omega) (by omega)
  have h3 : (count db t whr : Int) ≤ (((p - 1) * l : Nat) : Int) := by
    push_cast [Nat.cast_sub hp]
    omega
  have h4 : count db t whr ≤ (p - 1) * l := by exact_mod_cast h3
  rcases skipOf_past p l (count db t whr) hp
      (le_trans (count_le_rows db t whr) hrows) h4 with hs | ⟨n, hs, hn⟩
  · rw [hs]
    rfl
  · have h5 : (sortRows le (orderByOf q) ((db.rows t).filter (matchesWhere whr))).length
        ≤ n := by
      rw [sortRows_length]
      exact hn
    rw [hs]
    simp [pageRows, List.drop_eq_nil_of_le h5]

theorem listPage_slice (env : Env) (db : Db) (q q1 : Query) (t : Table) (whr : Obj)
    (incl : List Incl) (pre : List StoreCall) (hp : 1 ≤ pageOf env q)
    (hl : 1 ≤ limitOf env q) (hp1 : pageOf env q1 = 1)
    (hrows : ∀ t, (db.rows t).length ≤ 2 ^ 53) :
    SliceContract (pageOf env q) (limitOf env q) (listPage env db q t whr incl pre)
      (listPage env db q1 t whr incl pre) := by
  refine ⟨(pageRows env.le db q t whr (skipOf (pageOf env q) (limitOf env q))
      (limitOf env q) incl).map .obj,
    count db t whr, ?_, ?_, ?_, ?_, ?_⟩
  · rw [listPage_eq env db q t whr incl pre hp]
    simp [Result.data, getProp, List.lookup]
  · rw [listPage_eq env db q t whr incl pre hp]
    simp [Result.total, getProp, List.lookup]
  · simpa using pageRows_length_le env.le db q t whr _ _ incl
  · intro h
    rw [pageRows_eq_nil env.le db q t whr _ _ incl hl (hrows t) h]
    rfl
  · rw [listPage_eq env db q1 t whr incl pre (by omega)]
    simp [Result.total, getProp, List.lookup]

/-- C2. With the store fetch modelled as drop `skip`, then keep `take`, over the
ordered matching rows, in a store whose tables hold at most `2^53` rows each (the
counts a JavaScript number holds exactly): for every page `p ≥ 1` and limit `l ≥ 1`
each list handler (the nested ones once their existence check has found the row)
answers with a data array of at most `l` elements; for every page beyond
`ceil(total / l)` the array is empty; and `pagination.total` is the value answered
for page 1. -/
theorem list_handlers_slice (env : Env) (db : Db) (req : Request) (p l : Nat)
    (hp : 1 ≤ p) (hl : 1 ≤ l) (hpage : pageOf env req.query = p)
    (hlimit : limitOf env req.query = l)
    (hrows : ∀ t, (db.rows t).length ≤ 2 ^ 53) :
    SliceContract p l (getAllCalculations env db req)
      (getAllCalculations env db (withPage req 1)) ∧
    SliceContract p l (getAllQuestionnaires env db req)
      (getAllQuestionnaires env db (withPage req 1)) ∧
    SliceContract p l (getAllVideos env db req)
      (getAllVideos env db (withPage req 1)) ∧
    SliceContract p l (getAllFeedbacks env db req)
      (getAllFeedbacks env db (withPage req 1)) ∧
    ((findFirst db .contact (contactOwnedWhere req)).isSome = true →
      SliceContract p l (getContactCalculations env db req)
        (getContactCalculations env db (withPage req 1))) ∧
    ((findFirst db .contact (contactOwnedWhere req)).isSome = true →
      SliceContract p l (getContactQuestionnaires env db req)
        (getContactQuestionnaires env db (withPage req 1))) ∧
    ((findFirst db .video [("id", getProp req.params "videoId")]).isSome = true →
      SliceContract p l (getVideoFeedbacks env db req)
        (getVideoFeedbacks env db (withPage req 1))) ∧
    ((findFirst db .contact [("id", getProp req.params "contactId")]).isSome = true →
      SliceContract p l (getContactFeedbacks env db req)
        (getContactFeedbacks env db (withPage req 1))) := by
  subst hpage hlimit
  have h1 : pageOf env (withPage req 1).query = 1 := rfl
  refine ⟨listPage_slice env db _ _ _ _ _ _ hp hl h1 hrows, listPage_slice env db _ _ _ _ _ _ hp hl h1 hrows,
    listPage_slice env db _ _ _ _ _ _ hp hl h1 hrows, listPage_slice env db _ _ _ _ _ _ hp hl h1 hrows,
    ?_, ?_, ?_, ?_⟩
  · intro hg
    obtain ⟨c, hc⟩ := Option.isSome_iff_exists.1 hg
    have hc1 : findFirst db .contact (contactOwnedWhere (withPage req 1)) = some c := hc
    simp only [getContactCalculations, hc, hc1]
    exact listPage_slice env db _ _ _ _ _ _ hp hl h1 hrows
  · intro hg
    obtain ⟨c, hc⟩ := Option.isSome_iff_exists.1 hg
    have hc1 : findFirst db .contact (contactOwnedWhere (withPage req 1)) = some c := hc
    simp only [getContactQuestionnaires, hc, hc1]
    exact listPage_slice env db _ _ _ _ _ _ hp hl h1 hrows
  · intro hg
    obtain ⟨c, hc⟩ := Option.isSome_iff_exists.1 hg
    have hc1 : findFirst db .video [("id", getProp (withPage req 1).params "videoId")]
        = some c := hc
    simp only [getVideoFeedbacks, hc, hc1]
    exact listPage_slice env db _ _ _ _ _ _ hp hl h1 hrows
  · intro hg
    obtain ⟨c, hc⟩ := Option.isSome_iff_exists.1 hg
    have hc1 : findFirst db .contact [("id", getProp (withPage req 1).params "contactId")]
        = some c := hc
    simp only [getContactFeedbacks, hc, hc1]
    exact listPage_slice env db _ _ _ _ _ _ hp hl h1 hrows

/-- C2, at the sample request for page 5 with limit 2, for `getAllCalculations` and
the video-nested `getVideoFeedbacks`, whose video check succeeds. -/
theorem list_handlers_slice_witness :
    SliceContract 5 2 (getAllCalculations sampleEnv sampleDb samplePastReq)
      (getAllCalculations sampleEnv sampleDb (withPage samplePastReq 1)) ∧
    SliceContract 5 2 (getVideoFeedbacks sampleEnv sampleDb samplePastReq)
      (getVideoFeedbacks sampleEnv sampleDb (withPage samplePastReq 1)) :=
  have h := list_handlers_slice sampleEnv sampleDb samplePastReq 5 2
    (by decide) (by decide) rfl rfl (fun t => by cases t <;> decide)
  ⟨h.1, h.2.2.2.2.2.2.1 (by decide)⟩

/-! ## Ownership scoping of the list handlers -/

theorem listPage_calls (env : Env) (db : Db) (q : Query) (t : Table) (whr : Obj)
    (incl : List Incl) (pre : List StoreCall) :
    (listPage env db q t whr incl pre).calls =
      pre ++ [.count t whr, .findMany t whr (orderByOf q)
        (skipOf (pageOf env q) (limitOf env q)) (limitOf env q) incl] := by
  simp only [listPage]
  split <;> rfl

theorem listPage_db (env : Env) (db : Db) (q : Query) (t : Table) (whr : Obj)
    (incl : List Incl) (pre : List StoreCall) :
    (listPage env db q t whr incl pre).db = db := by
  simp only [listPage]
  split <;> rfl

theorem listPage_total (env : Env) (db : Db) (q : Query) (t : Table) (whr : Obj)
    (incl : List Incl) (pre : List StoreCall) (n : Int)
    (h : (listPage env db q t whr incl pre).total = .num n) :
    n = (count db t whr : Int) := by
  simp only [listPage] at h
  split at h
  · simp [Result.total] at h
  · simp [Result.total, getProp, List.lookup] at h
    exact h.symm

theorem listPage_data_mem (env : Env) (db : Db) (q : Query) (t : Table) (whr : Obj)
    (incl : List Incl) (pre : List StoreCall) (xs : List JsVal)
    (h : (listPage env db q t whr incl pre).data = .arr xs) (x : JsVal) (hx : x ∈ xs) :
    ∃ row, row ∈ db.rows t ∧ matchesWhere whr row = true ∧
      x = .obj (applyIncls db incl row) := by
  simp only [listPage] at h
  split at h
  · simp [Result.data] at h
  · rename_i found hf
    simp only [Result.data, getProp, List.lookup] at h
    simp at h
    subst h
    simp only [findMany] at hf
    split at hf
    · split at hf
      · simp at hf
      · simp only [Option.some.injEq] at hf
        subst hf
        simp only [List.mem_map] at hx
        obtain ⟨o, ⟨row, hrow, rfl⟩, rfl⟩ := hx
        have h1 := List.mem_of_mem_drop (List.mem_of_mem_take hrow)
        have h2 := (sortRows_perm env.le (orderByOf q) _).mem_iff.1 h1
        rw [List.mem_filter] at h2
        exact ⟨row, h2.1, h2.2, rfl⟩
    · simp only [Option.some.injEq] at hf
      subst hf
      simp at hx
    · simp at hf

theorem applyIncls_createdBy (db : Db) (incl : List Incl) (row : Obj) :
    getProp (applyIncls db incl row) "createdBy" = getProp row "createdBy" := by
  unfold applyIncls
  induction incl generalizing row with
  | nil => rfl
  | cons i rest ih =>
    rw [List.foldl_cons, ih]
    cases i <;> exact getProp_setProp_ne _ _ _ _ (by decide)

theorem whenUser_admin (u : User) (h : u.role = .ADMIN) (whr : Obj) : whenUser u whr = whr := by
  simp [whenUser, h]

theorem whenUser_user (u : User) (h : u.role = .USER) (whr : Obj) :
    whenUser u whr = setProp whr "createdBy" (.str u.id) := by
  simp [whenUser, h]

theorem whenParam_cases (p : Option String) (k : String) :
    (∀ w, whenParam p k w = w) ∨ ∃ s, ∀ w, whenParam p k w = setProp w k (.str s) := by
  cases p with
  | none => exact Or.inl fun _ => rfl
  | some s =>
    by_cases h : s = ""
    · exact Or.inl fun _ => by simp [whenParam, h]
    · exact Or.inr ⟨s, fun _ => by simp [whenParam, h]⟩

theorem calculationsWhere_scoped (u a : User) (q : Query) (hu : u.role = .USER)
    (ha : a.role = .ADMIN) (row : Obj) :
    (matchesWhere (getAllCalculationsWhere u q) row = true ↔
      getProp row "createdBy" = .str u.id ∧
        matchesWhere (getAllCalculationsWhere a q) row = true) ∧
    ∀ kv ∈ getAllCalculationsWhere a q, kv.1 ≠ "createdBy" := by
  simp only [getAllCalculationsWhere, whenUser_admin a ha, whenUser_user u hu]
  rcases whenParam_cases q.contactId "contactId" with h1 | ⟨s1, h1⟩ <;>
  rcases whenParam_cases q.propertyType "propertyType" with h2 | ⟨s2, h2⟩ <;>
  rcases whenParam_cases q.marketArea "marketArea" with h3 | ⟨s3, h3⟩ <;>
  simp only [h1, h2, h3] <;>
  simp [setProp, matchesWhere]

theorem questionnairesWhere_scoped (u a : User) (q : Query) (hu : u.role = .USER)
    (ha : a.role = .ADMIN) (row : Obj) :
    (matchesWhere (getAllQuestionnairesWhere u q) row = true ↔
      getProp row "createdBy" = .str u.id ∧
        matchesWhere (getAllQuestionnairesWhere a q) row = true) ∧
    ∀ kv ∈ getAllQuestionnairesWhere a q, kv.1 ≠ "createdBy" := by
  simp only [getAllQuestionnairesWhere, whenUser_admin a ha, whenUser_user u hu]
  rcases whenParam_cases q.contactId "contactId" with h1 | ⟨s1, h1⟩ <;>
  simp only [h1] <;>
  simp [setProp, matchesWhere]

theorem videosWhere_scoped (u a : User) (q : Query) (hu : u.role = .USER)
    (ha : a.role = .ADMIN) (row : Obj) :
    (matchesWhere (getAllVideosWhere u q) row = true ↔
      getProp row "createdBy" = .str u.id ∧
        matchesWhere (getAllVideosWhere a q) row = true) ∧
    ∀ kv ∈ getAllVideosWhere a q, kv.1 ≠ "createdBy" := by
  simp only [getAllVideosWhere, whenUser_admin a ha, whenUser_user u hu]
  cases q.isPublished <;> simp [setProp, matchesWhere]

theorem listPage_scoping (env : Env) (db : Db) (q : Query) (t : Table) (uid : String)
    (w wa : Obj) (incl : List Incl)
    (hw : ∀ row, matchesWhere w row = true ↔
      getProp row "createdBy" = .str uid ∧ matchesWhere wa row = true)
    (hwa : ∀ kv ∈ wa, kv.1 ≠ "createdBy") :
    ScopingContract db t uid (listPage env db q t w incl [])
      (listPage env db q t wa incl []) := by
  refine ⟨w, wa, orderByOf q, orderByOf q, skipOf (pageOf env q) (limitOf env q),
    skipOf (pageOf env q) (limitOf env q), limitOf env q, limitOf env q, incl,
    ?_, ?_, ?_, ?_, hwa, hw, ?_⟩
  · rw [listPage_calls]; rfl
  · rw [listPage_calls]; rfl
  · intro xs hxs x hx
    obtain ⟨row, _, hm, rfl⟩ := listPage_data_mem env db q t w incl [] xs hxs x hx
    exact ⟨_, rfl, by rw [applyIncls_createdBy]; exact ((hw row).1 hm).1⟩
  · intro n hn
    rw [listPage_total env db q t w incl [] n hn, count]
    congr 2
    refine congrArg (fun f => List.filter f (db.rows t)) ?_
    funext row
    have := hw row
    by_cases h1 : matchesWhere w row = true
    · have h2 := this.1 h1
      simp [h1, h2.1, h2.2]
    · have h3 : ¬ (getProp row "createdBy" = .str uid ∧ matchesWhere wa row = true) :=
        fun h => h1 (this.2 h)
      simp only [Bool.not_eq_true] at h1
      rw [h1]
      by_cases h4 : getProp row "createdBy" = .str uid
      · have h5 : matchesWhere wa row = false := by
          simpa using fun h => h3 ⟨h4, h⟩
        simp [h5]
      · simp [h4]
  · intro n hn
    rw [listPage_total env db q t wa incl [] n hn, count]

/-- C3. For `getAllCalculations`, `getAllQuestionnaires` and `getAllVideos`: to a
caller whose role is not ADMIN every returned row, and every row counted in
`total`, has `createdBy` equal to the caller id; for a caller whose role is ADMIN
asking the same query the where-clause has no `createdBy` key, it is the
where-clause of the user without the ownership predicate, and the total counts the
rows of every creator that match it. -/
theorem list_handlers_scoping (env : Env) (db : Db) (req adm : Request)
    (hu : req.user.role ≠ .ADMIN) (ha : adm.user.role = .ADMIN)
    (hq : adm.query = req.query) :
    ScopingContract db .investmentCalculation req.user.id
      (getAllCalculations env db req) (getAllCalculations env db adm) ∧
    ScopingContract db .investorQuestionnaire req.user.id
      (getAllQuestionnaires env db req) (getAllQuestionnaires env db adm) ∧
    ScopingContract db .video req.user.id
      (getAllVideos env db req) (getAllVideos env db adm) := by
  have hu' : req.user.role = .USER := by
    cases h : req.user.role
    · rfl
    · exact absurd h hu
  simp only [getAllCalculations, getAllQuestionnaires, getAllVideos, hq]
  refine ⟨?_, ?_, ?_⟩
  · exact listPage_scoping env db req.query _ _ _ _ _
      (fun row => (calculationsWhere_scoped req.user adm.user req.query hu' ha row).1)
      (calculationsWhere_scoped req.user adm.user req.query hu' ha []).2
  · exact listPage_scoping env db req.query _ _ _ _ _
      (fun row => (questionnairesWhere_scoped req.user adm.user req.query hu' ha row).1)
      (questionnairesWhere_scoped req.user adm.user req.query hu' ha []).2
  · exact listPage_scoping env db req.query _ _ _ _ _
      (fun row => (videosWhere_scoped req.user adm.user req.query hu' ha row).1)
      (videosWhere_scoped req.user adm.user req.query hu' ha []).2

/-- C3, at the sample requests of the user `u1` and of the administrator `a1`. -/
theorem list_handlers_scoping_witness :
    ScopingContract sampleDb .investmentCalculation "u1"
      (getAllCalculations sampleEnv sampleDb sampleListReq)
      (getAllCalculations sampleEnv sampleDb sampleAdminListReq) ∧
    ScopingContract sampleDb .investorQuestionnaire "u1"
      (getAllQuestionnaires sampleEnv sampleDb sampleListReq)
      (getAllQuestionnaires sampleEnv sampleDb sampleAdminListReq) ∧
    ScopingContract sampleDb .video "u1"
      (getAllVideos sampleEnv sampleDb sampleListReq)
      (getAllVideos sampleEnv sampleDb sampleAdminListReq) :=
  list_handlers_scoping sampleEnv sampleDb sampleListReq sampleAdminListReq
    (by decide) (by decide) (by decide)

/-! ## Ownership-scoped get, update and delete -/

theorem findFirst_owned_none (db : Db) (t : Table) (req : Request)
    (h : ∀ row ∈ db.rows t, getProp row "id" = getProp req.params "id" →
      getProp row "createdBy" ≠ .str req.user.id) :
    findFirst db t (ownedWhere req) = none := by
  unfold findFirst
  rw [List.find?_eq_none]
  intro row hrow hm
  simp only [ownedWhere, matchesWhere_cons] at hm
  exact h row hrow hm.1 hm.2.1

theorem byIdWhere_user (req : Request) (h : req.user.role = .USER) :
    byIdWhere req = ownedWhere req := by
  simp [byIdWhere, ownedWhere, whenUser, h, setProp]

/-- C4. For a USER-role caller and two store states, in the first of which no
calculation, questionnaire or video has the requested id and in the second of
which every such row with the requested id was created by someone else: each of
the ten ownership-scoped handlers gives the same outcome in both states, the 404
error with one message, after one and the same read and no write, and the stores
are unchanged.  Nothing is assumed of the feedback rows, so this covers
`deleteVideo` on a video of another user that has feedback. -/
theorem foreign_id_indistinguishable (db1 db2 : Db) (req : Request)
    (hrole : req.user.role = .USER)
    (habsent : ∀ row ∈ db1.investmentCalculation ++ db1.investorQuestionnaire ++ db1.video,
        getProp row "id" ≠ getProp req.params "id")
    (hforeign : ∀ row ∈ db2.investmentCalculation ++ db2.investorQuestionnaire ++ db2.video,
        getProp row "id" = getProp req.params "id" →
        getProp row "createdBy" ≠ .str req.user.id) :
    NotFoundAlike "Investment calculation not found" db1 db2
      (getCalculationById db1 req) (getCalculationById db2 req) ∧
    NotFoundAlike "Investment calculation not found" db1 db2
      (updateCalculation db1 req) (updateCalculation db2 req) ∧
    NotFoundAlike "Investment calculation not found" db1 db2
      (deleteCalculation db1 req) (deleteCalculation db2 req) ∧
    NotFoundAlike "Investor questionnaire not found" db1 db2
      (getQuestionnaireById db1 req) (getQuestionnaireById db2 req) ∧
    NotFoundAlike "Investor questionnaire not found" db1 db2
      (updateQuestionnaire db1 req) (updateQuestionnaire db2 req) ∧
    NotFoundAlike "Investor questionnaire not found" db1 db2
      (deleteQuestionnaire db1 req) (deleteQuestionnaire db2 req) ∧
    NotFoundAlike "Video not found" db1 db2
      (getVideoById db1 req) (getVideoById db2 req) ∧
    NotFoundAlike "Video not found or access denied" db1 db2
      (updateVideo db1 req) (updateVideo db2 req) ∧
    NotFoundAlike "Video not found or access denied" db1 db2
      (deleteVideo db1 req) (deleteVideo db2 req) ∧
    NotFoundAlike "Video not found or access denied" db1 db2
      (togglePublishStatus db1 req) (togglePublishStatus db2 req) := by
  have c1 := findFirst_owned_none db1 .investmentCalculation req
    (fun row hr e => absurd e (habsent row (by simp [Db.rows] at hr; simp [hr])))
  have q1 := findFirst_owned_none db1 .investorQuestionnaire req
    (fun row hr e => absurd e (habsent row (by simp [Db.rows] at hr; simp [hr])))
  have v1 := findFirst_owned_none db1 .video req
    (fun row hr e => absurd e (habsent row (by simp [Db.rows] at hr; simp [hr])))
  have c2 := findFirst_owned_none db2 .investmentCalculation req
    (fun row hr => hforeign row (by simp [Db.rows] at hr; simp [hr]))
  have q2 := findFirst_owned_none db2 .investorQuestionnaire req
    (fun row hr => hforeign row (by simp [Db.rows] at hr; simp [hr]))
  have v2 := findFirst_owned_none db2 .video req
    (fun row hr => hforeign row (by simp [Db.rows] at hr; simp [hr]))
  have hb := byIdWhere_user req hrole
  refine ⟨?_, ?_, ?_, ?_, ?_, ?_, ?_, ?_, ?_, ?_⟩ <;>
    simp only [getCalculationById, updateCalculation, deleteCalculation,
      getQuestionnaireById, updateQuestionnaire, deleteQuestionnaire, getVideoById,
      updateVideo, deleteVideo, togglePublishStatus, hb, c1, q1, v1, c2, q2, v2] <;>
    exact ⟨rfl, rfl, ⟨_, rfl, rfl, rfl⟩, rfl, rfl⟩

/-- C4, at the sample stores: id `x9` is absent from `sampleDb` and belongs to `u2`
in `foreignDb`, where the video `x9` has feedback; shown for `getCalculationById`
and `deleteVideo`. -/
theorem foreign_id_indistinguishable_witness :
    NotFoundAlike "Investment calculation not found" sampleDb foreignDb
      (getCalculationById sampleDb foreignReq) (getCalculationById foreignDb foreignReq) ∧
    NotFoundAlike "Video not found or access denied" sampleDb foreignDb
      (deleteVideo sampleDb foreignReq) (deleteVideo foreignDb foreignReq) ∧
    count foreignDb .videoFeedback [("videoId", .str "x9")] = 2 :=
  have h := foreign_id_indistinguishable sampleDb foreignDb foreignReq rfl
    (by decide) (by decide)
  ⟨h.1, h.2.2.2.2.2.2.2.2.1, by decide⟩

/-- C5. Whatever the role of the caller, ADMIN included: when no calculation,
questionnaire or video with the requested id has `createdBy` equal to the caller
id, each of the seven mutating handlers returns 404, issues no write and leaves
the store unchanged; so a row is mutated only if it was created by the caller. -/
theorem mutation_requires_ownership (db : Db) (req : Request)
    (hforeign : ∀ row ∈ db.investmentCalculation ++ db.investorQuestionnaire ++ db.video,
        getProp row "id" = getProp req.params "id" →
        getProp row "createdBy" ≠ .str req.user.id) :
    Refused "Investment calculation not found" db (updateCalculation db req) ∧
    Refused "Investment calculation not found" db (deleteCalculation db req) ∧
    Refused "Investor questionnaire not found" db (updateQuestionnaire db req) ∧
    Refused "Investor questionnaire not found" db (deleteQuestionnaire db req) ∧
    Refused "Video not found or access denied" db (updateVideo db req) ∧
    Refused "Video not found or access denied" db (deleteVideo db req) ∧
    Refused "Video not found or access denied" db (togglePublishStatus db req) := by
  have c2 := findFirst_owned_none db .investmentCalculation req
    (fun row hr => hforeign row (by simp [Db.rows] at hr; simp [hr]))
  have q2 := findFirst_owned_none db .investorQuestionnaire req
    (fun row hr => hforeign row (by simp [Db.rows] at hr; simp [hr]))
  have v2 := findFirst_owned_none db .video req
    (fun row hr => hforeign row (by simp [Db.rows] at hr; simp [hr]))
  refine ⟨?_, ?_, ?_, ?_, ?_, ?_, ?_⟩ <;>
    simp only [updateCalculation, deleteCalculation, updateQuestionnaire,
      deleteQuestionnaire, updateVideo, deleteVideo, togglePublishStatus, c2, q2, v2] <;>
    exact ⟨rfl, by simp [StoreCall.isWrite], rfl⟩

/-- C5, at the sample store for the administrator `a1` and the rows `x9` of `u2`;
shown for `updateCalculation` and `togglePublishStatus`. -/
theorem mutation_requires_ownership_witness :
    Refused "Investment calculation not found" foreignDb
      (updateCalculation foreignDb adminForeignReq) ∧
    Refused "Video not found or access denied" foreignDb
      (togglePublishStatus foreignDb adminForeignReq) :=
  have h := mutation_requires_ownership foreignDb adminForeignReq (by decide)
  ⟨h.1, h.2.2.2.2.2.2⟩

/-! ## Contact ownership of written rows -/

/-- C6, evaluated: `updateCalculation` and `updateQuestionnaire` by user `u1` with
the body `contactId: c2` answer 200, and afterwards the calculation `k1` and the
questionnaire `q1` reference the contact `c2`, whose `createdBy` is `u2`. -/
theorem update_foreign_contact :
    (∃ body, (updateCalculation sampleDb foreignContactReq).out = .json 200 body) ∧
    (findFirst (updateCalculation sampleDb foreignContactReq).db .investmentCalculation
        [("id", .str "k1")]).map (fun row => getProp row "contactId") = some (.str "c2") ∧
    (∃ body, (updateQuestionnaire sampleDb foreignContactQuestionnaireReq).out
        = .json 200 body) ∧
    (findFirst (updateQuestionnaire sampleDb foreignContactQuestionnaireReq).db
        .investorQuestionnaire
        [("id", .str "q1")]).map (fun row => getProp row "contactId") = some (.str "c2") ∧
    (findFirst sampleDb .contact
        [("id", .str "c2")]).map (fun row => getProp row "createdBy") = some (.str "u2") ∧
    (updateCalculation sampleDb foreignContactReq).db.contact = sampleDb.contact ∧
    (updateQuestionnaire sampleDb foreignContactQuestionnaireReq).db.contact
      = sampleDb.contact ∧
    foreignContactReq.user.id = "u1" ∧ foreignContactQuestionnaireReq.user.id = "u1" := by
  refine ⟨⟨_, rfl⟩, ?_, ⟨_, rfl⟩, ?_, ?_, ?_, ?_, rfl, rfl⟩ <;> decide

/-! ## Required fields -/

/-- C8 as stated fails: the list validated by `createCalculation` does not have
eleven entries. -/
theorem calculation_required_not_eleven :
    ¬ (calculationRequiredFields.length = 11 ∧ questionnaireRequiredFields.length = 11) := by
  decide

/-- C8, amended. The list validated by `createCalculation` has exactly twelve
entries, eleven calculation fields and `contactId`, without repetition; the list
validated by `createQuestionnaire` has exactly eleven, ten questionnaire fields and
`contactId`, without repetition; and each has the same members as the `required`
list documented for its POST endpoint. -/
theorem required_fields_documented :
    calculationRequiredFields.length = 12 ∧ calculationRequiredFields.Nodup ∧
    questionnaireRequiredFields.length = 11 ∧ questionnaireRequiredFields.Nodup ∧
    "contactId" ∈ calculationRequiredFields ∧ "contactId" ∈ questionnaireRequiredFields ∧
    (∀ f, f ∈ calculationRequiredFields ↔ f ∈ documentedCalculationRequired) ∧
    (∀ f, f ∈ questionnaireRequiredFields ↔ f ∈ documentedQuestionnaireRequired) := by
  refine ⟨by decide, by decide, by decide, by decide, by decide, by decide, ?_, ?_⟩
  · intro f
    exact Iff.rfl
  · intro f
    exact Iff.rfl

/-! ## The required-field check -/

theorem required_ne_createdBy :
    (∀ f ∈ calculationRequiredFields, f ≠ "createdBy") ∧
    (∀ f ∈ questionnaireRequiredFields, f ≠ "createdBy") := by
  constructor <;> decide

theorem firstMissing_setProp_createdBy (fields : List String) (body : Obj) (v : JsVal)
    (hf : ∀ f ∈ fields, f ≠ "createdBy") :
    firstMissing fields (setProp body "createdBy" v) = firstMissing fields body := by
  unfold firstMissing
  induction fields with
  | nil => rfl
  | cons f rest ih =>
    have h1 := getProp_setProp_ne body "createdBy" f v (hf f (List.mem_cons_self _ _))
    have h2 := ih fun g hg => hf g (List.mem_cons_of_mem _ hg)
    simp only [List.find?_cons, h1, h2]

theorem firstMissing_eq_none (fields : List String) (data : Obj) :
    firstMissing fields data = none ↔ ∀ f ∈ fields, getProp data f ≠ .undefined := by
  simp [firstMissing]

/-- C9. The required-field check tests only for `undefined`: for every body of
`createCalculation`, and every body of `createQuestionnaire`, in which each
required field is present with value `null`, the empty string or `0`, the check
finds no missing field, the handler does not forward a 400 error, and the first
store call it issues is the contact-ownership lookup. -/
theorem falsy_required_fields_pass (env : Env) (db : Db) (reqC reqQ : Request)
    (hC : ∀ f ∈ calculationRequiredFields,
      getProp reqC.body f = .null ∨ getProp reqC.body f = .str "" ∨
        getProp reqC.body f = .num 0)
    (hQ : ∀ f ∈ questionnaireRequiredFields,
      getProp reqQ.body f = .null ∨ getProp reqQ.body f = .str "" ∨
        getProp reqQ.body f = .num 0) :
    (firstMissing calculationRequiredFields
        (setProp reqC.body "createdBy" (.str reqC.user.id)) = none ∧
      (∀ msg, (createCalculation env db reqC).out ≠ .next msg 400) ∧
      (createCalculation env db reqC).calls.head? = some (.findFirst .contact
        [("id", getProp reqC.body "contactId"), ("createdBy", .str reqC.user.id)] [])) ∧
    (firstMissing questionnaireRequiredFields
        (setProp reqQ.body "createdBy" (.str reqQ.user.id)) = none ∧
      (∀ msg, (createQuestionnaire env db reqQ).out ≠ .next msg 400) ∧
      (createQuestionnaire env db reqQ).calls.head? = some (.findFirst .contact
        [("id", getProp reqQ.body "contactId"), ("createdBy", .str reqQ.user.id)] [])) := by
  have hc : firstMissing calculationRequiredFields
      (setProp reqC.body "createdBy" (.str reqC.user.id)) = none := by
    rw [firstMissing_setProp_createdBy _ _ _ required_ne_createdBy.1, firstMissing_eq_none]
    intro f hf
    rcases hC f hf with h | h | h <;> rw [h] <;> decide
  have hq : firstMissing questionnaireRequiredFields
      (setProp reqQ.body "createdBy" (.str reqQ.user.id)) = none := by
    rw [firstMissing_setProp_createdBy _ _ _ required_ne_createdBy.2, firstMissing_eq_none]
    intro f hf
    rcases hQ f hf with h | h | h <;> rw [h] <;> decide
  have kc : getProp (setProp reqC.body "createdBy" (.str reqC.user.id)) "contactId"
      = getProp reqC.body "contactId" := getProp_setProp_ne _ _ _ _ (by decide)
  have kq : getProp (setProp reqQ.body "createdBy" (.str reqQ.user.id)) "contactId"
      = getProp reqQ.body "contactId" := getProp_setProp_ne _ _ _ _ (by decide)
  refine ⟨⟨hc, ?_, ?_⟩, ⟨hq, ?_, ?_⟩⟩
  · intro msg
    simp only [createCalculation, hc]
    split <;> simp
  · simp only [createCalculation, hc, kc]
    split <;> rfl
  · intro msg
    simp only [createQuestionnaire, hq]
    split <;> simp
  · simp only [createQuestionnaire, hq, kq]
    split <;> rfl

/-- C9, at the two sample bodies: neither handler answers 400. -/
theorem falsy_required_fields_pass_witness :
    (∀ msg, (createCalculation sampleEnv sampleDb falsyCalculationReq).out
      ≠ .next msg 400) ∧
    (∀ msg, (createQuestionnaire sampleEnv sampleDb falsyQuestionnaireReq).out
      ≠ .next msg 400) :=
  have h := falsy_required_fields_pass sampleEnv sampleDb falsyCalculationReq
    falsyQuestionnaireReq (by decide) (by decide)
  ⟨h.1.2.1, h.2.2.1⟩

/-! ## What the create handlers pass to the store -/

theorem getProp_eq_undefined_of_not_mem (o : Obj) (k : String)
    (h : k ∉ o.map Prod.fst) : getProp o k = .undefined := by
  induction o with
  | nil => rfl
  | cons hd tl ih =>
    obtain ⟨k', v'⟩ := hd
    simp only [List.map_cons, List.mem_cons, not_or] at h
    have hne : (k == k') = false := by simpa using h.1
    simpa [getProp, List.lookup, hne] using ih h.2

theorem getProp_foldl_setProp (p : Obj) (l : Obj) (o : Obj) (k : String) :
    getProp (l.foldl (fun acc kv => setProp acc kv.1 (getProp p kv.1)) o) k =
      if k ∈ l.map Prod.fst then getProp p k else getProp o k := by
  induction l generalizing o with
  | nil => simp
  | cons hd tl ih =>
    obtain ⟨k', v'⟩ := hd
    rw [List.foldl_cons, ih]
    by_cases h1 : k ∈ tl.map Prod.fst
    · simp [h1]
    · by_cases h2 : k = k'
      · subst h2
        simp [h1, getProp_setProp_self]
      · simp [h1, h2, getProp_setProp_ne _ _ _ _ h2]

theorem getProp_spread (o p : Obj) (k : String) :
    getProp (spread o p) k = if k ∈ p.map Prod.fst then getProp p k else getProp o k :=
  getProp_foldl_setProp p p o k

theorem getProp_definedFields (d : Obj) (k : String) (h : getProp d k ≠ .undefined) :
    getProp (definedFields d) k = getProp d k := by
  induction d with
  | nil => rfl
  | cons hd tl ih =>
    obtain ⟨k', v'⟩ := hd
    by_cases hk : k = k'
    · subst hk
      have hv : v' ≠ .undefined := by simpa [getProp, List.lookup] using h
      simp [definedFields, List.filter_cons, hv, getProp, List.lookup]
    · have hne : (k == k') = false := by simpa using hk
      have h' : getProp tl k ≠ .undefined := by simpa [getProp, List.lookup, hne] using h
      have e1 : getProp ((k', v') :: tl) k = getProp tl k := by
        simp [getProp, List.lookup, hne]
      rw [e1, ← ih h']
      by_cases hv : v' = .undefined
      · simp [definedFields, List.filter_cons, hv]
      · simp [definedFields, List.filter_cons, hv, getProp, List.lookup, hne]

/-- The inserted row carries every provided column. -/
theorem getProp_created (generated data : Obj) (k : String)
    (h : getProp data k ≠ .undefined) :
    getProp (spread generated (definedFields data)) k = getProp data k := by
  have h1 := getProp_definedFields data k h
  rw [getProp_spread]
  split
  · exact h1
  · rename_i hn
    rw [getProp_eq_undefined_of_not_mem _ _ hn] at h1
    exact absurd h1.symm h

theorem ensureArray_createdBy (data : Obj) (key : String) (hk : key ≠ "createdBy") :
    getProp (ensureArray data key) "createdBy" = getProp data "createdBy" := by
  unfold ensureArray
  split
  · rfl
  · exact getProp_setProp_ne _ _ _ _ (Ne.symm hk)

/-- C10. Whatever the request body, one carrying its own `createdBy` included: the
data that `createCalculation`, `createQuestionnaire` and `createVideo` pass to the
store insert has `createdBy` equal to the id of the authenticated caller, and in
`createCalculation` every other field of the data reads as in the body.  Each
handler that answers 201 has issued such an insert. -/
theorem create_data_createdBy (env : Env) (db : Db) (req : Request) :
    ((∀ t data incl, StoreCall.create t data incl ∈ (createCalculation env db req).calls →
        t = .investmentCalculation ∧ getProp data "createdBy" = .str req.user.id ∧
        ∀ k, k ≠ "createdBy" → getProp data k = getProp req.body k) ∧
      (∀ body, (createCalculation env db req).out = .json 201 body →
        ∃ data incl, StoreCall.create .investmentCalculation data incl
          ∈ (createCalculation env db req).calls)) ∧
    ((∀ t data incl, StoreCall.create t data incl ∈ (createQuestionnaire env db req).calls →
        t = .investorQuestionnaire ∧ getProp data "createdBy" = .str req.user.id) ∧
      (∀ body, (createQuestionnaire env db req).out = .json 201 body →
        ∃ data incl, StoreCall.create .investorQuestionnaire data incl
          ∈ (createQuestionnaire env db req).calls)) ∧
    ((∀ t data incl, StoreCall.create t data incl ∈ (createVideo env db req).calls →
        t = .video ∧ getProp data "createdBy" = .str req.user.id) ∧
      (∀ body, (createVideo env db req).out = .json 201 body →
        ∃ data incl, StoreCall.create .video data incl ∈ (createVideo env db req).calls)) := by
  refine ⟨⟨?_, ?_⟩, ⟨?_, ?_⟩, ⟨?_, ?_⟩⟩
  · intro t data incl hmem
    simp only [createCalculation] at hmem
    split at hmem
    · simp at hmem
    · split at hmem
      · simp at hmem
      · simp only [create, List.mem_cons, StoreCall.create.injEq, List.mem_singleton,
          List.not_mem_nil, or_false, false_or, reduceCtorEq] at hmem
        obtain ⟨rfl, rfl, -⟩ := hmem
        exact ⟨rfl, getProp_setProp_self _ _ _, fun k hk => getProp_setProp_ne _ _ _ _ hk⟩
  · intro body hout
    simp only [createCalculation] at hout ⊢
    split at hout
    · simp at hout
    · split at hout
      · simp at hout
      · exact ⟨setProp req.body "createdBy" (.str req.user.id), [.contact], by simp [create]⟩
  · intro t data incl hmem
    simp only [createQuestionnaire] at hmem
    split at hmem
    · simp at hmem
    · split at hmem
      · simp at hmem
      · simp only [create, List.mem_cons, StoreCall.create.injEq, List.mem_singleton,
          List.not_mem_nil, or_false, false_or, reduceCtorEq] at hmem
        obtain ⟨rfl, rfl, -⟩ := hmem
        refine ⟨rfl, ?_⟩
        rw [ensureArray_createdBy _ _ (by decide), ensureArray_createdBy _ _ (by decide)]
        exact getProp_setProp_self _ _ _
  · intro body hout
    simp only [createQuestionnaire] at hout ⊢
    split at hout
    · simp at hout
    · split at hout
      · simp at hout
      · exact ⟨ensureArray (ensureArray (setProp req.body "createdBy" (.str req.user.id))
          "marketsInterested") "propertyTypesInterested", [.contact], by simp [create]⟩
  · intro t data incl hmem
    simp only [createVideo] at hmem
    split at hmem
    · simp at hmem
    · simp only [create, List.mem_singleton, StoreCall.create.injEq] at hmem
      obtain ⟨rfl, rfl, -⟩ := hmem
      exact ⟨rfl, by simp [getProp, List.lookup]⟩
  · intro body hout
    simp only [createVideo] at hout ⊢
    split at hout
    · simp at hout
    · rename_i hv
      rw [if_neg hv]
      exact ⟨_, _, List.mem_singleton.2 rfl⟩

/-! ## The contract of `createCalculation` -/

theorem firstMissing_first (fields pre post : List String) (f : String) (data : Obj)
    (hsplit : fields = pre ++ f :: post)
    (hpre : ∀ g ∈ pre, getProp data g ≠ .undefined) (hf : getProp data f = .undefined) :
    firstMissing fields data = some f := by
  subst hsplit
  unfold firstMissing
  rw [List.find?_append]
  have h1 : List.find? (fun field => decide (getProp data field = .undefined)) pre = none := by
    rw [List.find?_eq_none]
    intro g hg
    simpa using hpre g hg
  rw [h1]
  simp [hf]

theorem findFirst_id_of_mem (db : Db) (t : Table) (id : JsVal) (c : Obj)
    (hc : c ∈ db.rows t) (hid : getProp c "id" = id) :
    ∃ c', findFirst db t [("id", id)] = some c' ∧ getProp c' "id" = id := by
  have hs : (findFirst db t [("id", id)]).isSome = true := by
    unfold findFirst
    rw [List.find?_isSome]
    exact ⟨c, hc, by simp [matchesWhere, hid]⟩
  obtain ⟨c', hc'⟩ := Option.isSome_iff_exists.1 hs
  refine ⟨c', hc', ?_⟩
  have := List.find?_some hc'
  simpa [matchesWhere] using this

theorem findFirst_owned_of_mem (db : Db) (t : Table) (id : JsVal) (uid : String) (c : Obj)
    (hc : c ∈ db.rows t) (hid : getProp c "id" = id)
    (ho : getProp c "createdBy" = .str uid) :
    (findFirst db t [("id", id), ("createdBy", .str uid)]).isSome = true := by
  unfold findFirst
  rw [List.find?_isSome]
  exact ⟨c, hc, by simp [matchesWhere, hid, ho]⟩

/-- C7. `createCalculation` forwards a 400 error if and only if some field of its
required list reads `undefined` in the body, and the message is then
`<field> is required` for the first such field in list order, the store being left
alone.  When no required field is `undefined` and the `contactId` of the body names
a contact created by the caller, it answers 201 with `success: true`, the message,
and as data the inserted row with the joined contact summary (`id`, `name`,
`phoneNumber`, `email`) of the contact with that id; the inserted row is appended to
the calculations, echoes every provided body field other than `createdBy`, and has
`createdBy` equal to the caller id. -/
theorem createCalculation_contract (env : Env) (db : Db) (req : Request) :
    ((∃ msg, (createCalculation env db req).out = .next msg 400) ↔
      ∃ f ∈ calculationRequiredFields, getProp req.body f = .undefined) ∧
    (∀ pre f post, calculationRequiredFields = pre ++ f :: post →
      (∀ g ∈ pre, getProp req.body g ≠ .undefined) → getProp req.body f = .undefined →
      (createCalculation env db req).out = .next (f ++ " is required") 400 ∧
      (createCalculation env db req).db = db ∧ (createCalculation env db req).calls = []) ∧
    ((∀ f ∈ calculationRequiredFields, getProp req.body f ≠ .undefined) →
      (∃ c ∈ db.contact, getProp c "id" = getProp req.body "contactId" ∧
        getProp c "createdBy" = .str req.user.id) →
      ∃ created summary,
        (createCalculation env db req).out = .json 201
          [("success", .bool true),
           ("data", .obj (setProp created "contact" (.obj summary))),
           ("message", .str "Investment calculation created successfully")] ∧
        (createCalculation env db req).db
          = { db with investmentCalculation := db.investmentCalculation ++ [created] } ∧
        (∀ k, k ≠ "createdBy" → getProp req.body k ≠ .undefined →
          getProp created k = getProp req.body k) ∧
        getProp created "createdBy" = .str req.user.id ∧
        summary.map Prod.fst = ["id", "name", "phoneNumber", "email"] ∧
        getProp summary "id" = getProp req.body "contactId") := by
  have hfm := firstMissing_setProp_createdBy calculationRequiredFields req.body
    (.str req.user.id) required_ne_createdBy.1
  have kc : getProp (setProp req.body "createdBy" (.str req.user.id)) "contactId"
      = getProp req.body "contactId" := getProp_setProp_ne _ _ _ _ (by decide)
  refine ⟨?_, ?_, ?_⟩
  · cases hm : firstMissing calculationRequiredFields req.body with
    | none =>
      have hall := (firstMissing_eq_none _ _).1 hm
      constructor
      · rintro ⟨msg, hmsg⟩
        simp only [createCalculation, hfm, hm] at hmsg
        split at hmsg <;> simp at hmsg
      · rintro ⟨f, hf, hu⟩
        exact absurd hu (hall f hf)
    | some f =>
      constructor
      · intro _
        refine ⟨f, List.mem_of_find?_eq_some hm, ?_⟩
        simpa using List.find?_some hm
      · intro _
        exact ⟨f ++ " is required", by simp only [createCalculation, hfm, hm]⟩
  · intro pre f post hsplit hpre hf
    have hm := firstMissing_first _ pre post f req.body hsplit hpre hf
    simp only [createCalculation, hfm, hm, and_self]
  · intro hall hcontact
    obtain ⟨c, hc, hid, ho⟩ := hcontact
    have hm := (firstMissing_eq_none _ _).2 hall
    have hown := findFirst_owned_of_mem db .contact (getProp req.body "contactId")
      req.user.id c hc hid ho
    obtain ⟨c0, hc0⟩ := Option.isSome_iff_exists.1 hown
    obtain ⟨c', hc', hid'⟩ := findFirst_id_of_mem db .contact
      (getProp req.body "contactId") c hc hid
    have hcid : getProp (spread env.generated
        (definedFields (setProp req.body "createdBy" (.str req.user.id)))) "contactId"
        = getProp req.body "contactId" := by
      rw [getProp_created _ _ _ (by rw [kc]; exact hall _ (by decide)), kc]
    have hc'' : findFirst (db.setRows .investmentCalculation
        (db.rows .investmentCalculation ++ [spread env.generated
          (definedFields (setProp req.body "createdBy" (.str req.user.id)))])) .contact
        [("id", getProp req.body "contactId")] = some c' := hc'
    refine ⟨spread env.generated
      (definedFields (setProp req.body "createdBy" (.str req.user.id))),
      selectFields ["id", "name", "phoneNumber", "email"] c', ?_, ?_, ?_, ?_, rfl, ?_⟩
    · simp only [createCalculation, hfm, hm, kc, hc0, create, applyIncls, List.foldl_cons,
        List.foldl_nil, applyIncl, hcid, hc'']
    · simp only [createCalculation, hfm, hm, kc, hc0, create]
      rfl
    · intro k hk hdef
      have e := getProp_setProp_ne req.body "createdBy" k (.str req.user.id) hk
      rw [getProp_created _ _ _ (by rw [e]; exact hdef), e]
    · rw [getProp_created _ _ _ (by rw [getProp_setProp_self]; simp), getProp_setProp_self]
    · simpa [selectFields, getProp, List.lookup] using hid'

/-- C7, at the complete sample body: the handler answers 201 with the joined
contact summary. -/
theorem createCalculation_contract_witness :
    ∃ created summary,
      (createCalculation sampleEnv sampleDb fullCalculationReq).out = .json 201
        [("success", .bool true),
         ("data", .obj (setProp created "contact" (.obj summary))),
         ("message", .str "Investment calculation created successfully")] ∧
      (createCalculation sampleEnv sampleDb fullCalculationReq).db
        = { sampleDb with
            investmentCalculation := sampleDb.investmentCalculation ++ [created] } ∧
      (∀ k, k ≠ "createdBy" → getProp fullCalculationReq.body k ≠ .undefined →
        getProp created k = getProp fullCalculationReq.body k) ∧
      getProp created "createdBy" = .str "u1" ∧
      summary.map Prod.fst = ["id", "name", "phoneNumber", "email"] ∧
      getProp summary "id" = .str "c1" :=
  (createCalculation_contract sampleEnv sampleDb fullCalculationReq).2.2
    (by decide) (by decide)

/-! # Feedback writes, the conversation bridge and the route tables

Definitions for the handlers of `videoFeedbackController.js` that write, the
handlers of `aiController.js`, and the route tables of `src/routes`.

* The handlers of `aiController.js` return an `AiResult`: the store afterwards, the
  outcome, what was handed to `broadcast`, and the outbound posts.  The inbound
  webhook handler takes `Faults`, which say which of its calls throw in a run.
* A route table is the list of statements of its file; `effectiveRoutes` gives each
  route the middleware that runs on it, router-level middleware first. -/

/-- The caller `u2`, a plain user. -/
def userU2 : User := { id := "u2", role := .USER }

/-- The user `u1` deleting their video `v1`, which has no feedback. -/
def deleteOwnVideoReq : Request :=
  { user := userU1
    params := [("id", .str "v1")] }

/-- The user `u2` deleting their video `v2`, which has one feedback row. -/
def deleteRatedVideoReq : Request :=
  { user := userU2
    params := [("id", .str "v2")] }

/-! ## Writing video feedback -/

/-- The operator `typeof v`. -/
def JsVal.typeof : JsVal → String
  | .undefined => "undefined"
  | .null => "object"
  | .bool _ => "boolean"
  | .num _ => "number"
  | .str _ => "string"
  | .arr _ => "object"
  | .obj _ => "object"

/-- The test `typeof responses !== 'object' || responses === null`. -/
def notJsonObject (responses : JsVal) : Bool :=
  decide (responses.typeof ≠ "object") || decide (responses = .null)

/-- Handler `createFeedback`.  The route is public and the handler reads nothing
of the request but its body. -/
def createFeedback (env : Env) (db : Db) (body : Obj) : Result :=
  let videoId := getProp body "videoId"
  let responses := getProp body "responses"
  let contactId := getProp body "contactId"
  if !videoId.truthy || !responses.truthy then
    ⟨[], db, .next "videoId and responses are required" 400⟩
  else if notJsonObject responses then
    ⟨[], db, .next "responses must be a valid JSON object" 400⟩
  else
    let videoCheck := StoreCall.findUnique .video [("id", videoId)] []
    match findFirst db .video [("id", videoId)] with
    | none => ⟨[videoCheck], db, .next "Video not found" 404⟩
    | some _ =>
      let checks :=
        if contactId.truthy then
          [videoCheck, StoreCall.findUnique .contact [("id", contactId)] []]
        else [videoCheck]
      if contactId.truthy && (findFirst db .contact [("id", contactId)]).isNone then
        ⟨checks, db, .next "Contact not found" 404⟩
      else
        let data : Obj :=
          [("videoId", videoId), ("responses", responses), ("contactId", contactId)]
        let incl : List Incl := if contactId.truthy then [.video, .contact] else [.video]
        let (db', feedback) := create env.generated db .videoFeedback data
        ⟨checks ++ [.create .videoFeedback data incl], db',
         .json 201
          [("success", .bool true),
           ("data", .obj (applyIncls db' incl feedback)),
           ("message", .str "Video feedback created successfully")]⟩

/-- Handler `updateFeedback`. -/
def updateFeedback (db : Db) (req : Request) : Result :=
  let id := getProp req.params "id"
  let videoId := getProp req.body "videoId"
  let contactId := getProp req.body "contactId"
  let responses := getProp req.body "responses"
  let check := StoreCall.findUnique .videoFeedback [("id", id)] []
  match findFirst db .videoFeedback [("id", id)] with
  | none => ⟨[check], db, .next "Video feedback not found" 404⟩
  | some _ =>
    let videoChecks : List StoreCall :=
      if videoId.truthy then [.findUnique .video [("id", videoId)] []] else []
    if videoId.truthy && (findFirst db .video [("id", videoId)]).isNone then
      ⟨check :: videoChecks, db, .next "Video not found" 404⟩
    else
      let contactChecks : List StoreCall :=
        if contactId.truthy then [.findUnique .contact [("id", contactId)] []] else []
      if contactId.truthy && (findFirst db .contact [("id", contactId)]).isNone then
        ⟨check :: videoChecks ++ contactChecks, db, .next "Contact not found" 404⟩
      else if responses.truthy && notJsonObject responses then
        ⟨check :: videoChecks ++ contactChecks, db,
         .next "responses must be a valid JSON object" 400⟩
      else
        let calls := check :: videoChecks ++ contactChecks ++
          [.update .videoFeedback [("id", id)] req.body [.video, .contact]]
        match update db .videoFeedback id req.body with
        | none => ⟨calls, db, .thrown⟩
        | some (db', feedback) =>
          ⟨calls, db', .json 200
            [("success", .bool true),
             ("data", .obj (applyIncls db' [.video, .contact] feedback)),
             ("message", .str "Video feedback updated successfully")]⟩

/-! ## The conversation bridge -/

/-- What a handler of `aiController.js` did: the store afterwards, the outcome,
the payloads handed to `broadcast`, and the outbound `axios.post` calls with their
url and payload. -/
structure AiResult where
  db : Db
  out : Outcome
  broadcasts : List Obj
  posts : List (String × Obj)
  deriving DecidableEq

/-- Which of the calls made by `handleWebhookMessage` throw in a run: the user
lookup, the contact lookup, the insert, or loading and calling `broadcast`. -/
structure Faults where
  userLookup : Bool := false
  contactLookup : Bool := false
  insert : Bool := false
  broadcast : Bool := false
  deriving DecidableEq

/-- The answer of the `catch` block of `handleWebhookMessage`. -/
def webhookInternalError : Outcome :=
  .json 200
    [("success", .bool true),
     ("message", .str "Received, but internal server error occurred.")]

/-- Handler `handleWebhookMessage`.  The route carries no authenticated caller;
the handler reads the body only.  A call that throws leaves the store as it is and
hands control to the `catch` block. -/
def handleWebhookMessage (generated : Obj) (faults : Faults) (db : Db) (body : Obj) :
    AiResult :=
  let message := getProp body "message"
  let contactId := getProp body "contactId"
  let userId := getProp body "userId"
  if !message.truthy || !contactId.truthy || !userId.truthy then
    ⟨db, .json 200
      [("success", .bool true),
       ("message", .str "Received, but missing required fields.")], [], []⟩
  else if faults.userLookup then ⟨db, webhookInternalError, [], []⟩
  else
    match findFirst db .user [("id", userId)] with
    | none =>
      ⟨db, .json 200
        [("success", .bool true),
         ("message", .str "Received, but user not found.")], [], []⟩
    | some _ =>
      if faults.contactLookup then ⟨db, webhookInternalError, [], []⟩
      else
        match findFirst db .contact [("id", contactId), ("createdBy", userId)] with
        | none =>
          ⟨db, .json 200
            [("success", .bool true),
             ("message", .str "Received, but contact not found or invalid.")], [], []⟩
        | some _ =>
          if faults.insert then ⟨db, webhookInternalError, [], []⟩
          else
            let (db', aiMessage) := create generated db .aiMessage
              [("message", message), ("senderType", .str "AI"), ("userId", userId),
               ("contactId", contactId)]
            if faults.broadcast then ⟨db', webhookInternalError, [], []⟩
            else
              ⟨db', .json 200
                [("success", .bool true),
                 ("message", .str "AI message received and saved."),
                 ("data", .obj aiMessage)],
               [[("type", .str "newMessage"), ("data", .obj aiMessage)]], []⟩

/-- The placeholder that stands for an unconfigured webhook url. -/
def placeholderUrl : String := "YOUR_N8N_REPLY_WEBHOOK_URL_HERE"

/-- The constant `N8N_REPLY_WEBHOOK_URL = process.env.N8N_REPLY_WEBHOOK_URL ||
'YOUR_N8N_REPLY_WEBHOOK_URL_HERE'`; `envVar` is the environment variable, `none`
when unset. -/
def N8N_REPLY_WEBHOOK_URL (envVar : Option String) : String :=
  match envVar with
  | some s => if s = "" then placeholderUrl else s
  | none => placeholderUrl

/-- Handler `handleUserReply`.  `postFails` tells whether `axios.post` rejects. -/
def handleUserReply (generated : Obj) (envVar : Option String) (postFails : Bool)
    (db : Db) (req : Request) : AiResult :=
  let message := getProp req.body "message"
  let contactId := getProp req.body "contactId"
  let userId := JsVal.str req.user.id
  if !message.truthy || !contactId.truthy then
    ⟨db, .next "Please provide a message and contactId" 400, [], []⟩
  else
    match findFirst db .contact [("id", contactId), ("createdBy", userId)] with
    | none => ⟨db, .next "Contact not found or access denied" 404, [], []⟩
    | some _ =>
      let (db', userMessage) := create generated db .aiMessage
        [("message", message), ("senderType", .str "USER"), ("userId", userId),
         ("contactId", contactId)]
      if N8N_REPLY_WEBHOOK_URL envVar = placeholderUrl then
        ⟨db', .json 201
          [("success", .bool true),
           ("message", .str
             "User message saved. AI response trigger skipped (Webhook URL not configured)."),
           ("data", .obj userMessage)], [], []⟩
      else
        let post : String × Obj :=
          (N8N_REPLY_WEBHOOK_URL envVar,
           [("userId", userId), ("contactId", contactId), ("message", message)])
        if postFails then
          ⟨db', .next "Message saved, but failed to trigger AI response." 500, [], [post]⟩
        else
          ⟨db', .json 201
            [("success", .bool true),
             ("message", .str "User message saved and AI response triggered."),
             ("data", .obj userMessage)], [], [post]⟩

/-- The method `getTime()` of a timestamp.  A `Date` is carried as its epoch
milliseconds; any other value has no such method (`none`). -/
def getTime? : JsVal → Option Int
  | .num n => some n
  | _ => none

/-- The time `entry.lastMessage.createdAt.getTime()` of a conversation entry. -/
def lastMessageTime (entry : Obj) : Option Int :=
  match getProp entry "lastMessage" with
  | .obj m => getTime? (getProp m "createdAt")
  | _ => none

/-- The in-process sort `conversationList.sort((a, b) => b.time - a.time)`: a
stable sort, most recent first.  With two or more entries the comparator reads
the time of every entry, and throws (`none`) when one has none. -/
def sortConversations (l : List Obj) : Option (List Obj) :=
  if l.length ≤ 1 then some l
  else if l.all (fun e => (lastMessageTime e).isSome) then
    some (l.insertionSort fun a b =>
      (lastMessageTime b).getD 0 ≤ (lastMessageTime a).getD 0)
  else none

/-- The messages of one conversation: the rows of `userId` with `contactId`. -/
def conversationRows (db : Db) (userId contactId : JsVal) : List Obj :=
  (db.rows .aiMessage).filter (matchesWhere [("userId", userId), ("contactId", contactId)])

/-- One turn of the loop of `getConversationList` for a distinct `contactId`: the
newest message of the conversation and the contact summary, or nothing
(`continue`) when the id is falsy or no contact has it. -/
def conversationEntry (le : JsVal → JsVal → Bool) (db : Db) (userId contactId : JsVal) :
    Option Obj :=
  if contactId.truthy then
    let lastMessage :=
      (sortRows le [("createdAt", .str "desc")] (conversationRows db userId contactId)).head?
    let relatedEntity :=
      (findFirst db .contact [("id", contactId)]).map (selectFields ["id", "name"])
    match relatedEntity with
    | none => none
    | some rel =>
      match lastMessage with
      | none => none
      | some m =>
        some [("contactId", contactId),
              ("contactName",
                if (getProp rel "name").truthy then getProp rel "name" else .null),
              ("lastMessage", .obj m)]
  else none

/-- The distinct `contactId` values of the messages of `userId`.  The store does
not specify their order. -/
def distinctConversations (db : Db) (userId : JsVal) : List JsVal :=
  (((db.rows .aiMessage).filter (matchesWhere [("userId", userId)])).map
    fun m => getProp m "contactId").dedup

/-- Handler `getConversationList`. -/
def getConversationList (le : JsVal → JsVal → Bool) (db : Db) (req : Request) : AiResult :=
  let userId := JsVal.str req.user.id
  let conversationList :=
    (distinctConversations db userId).filterMap (conversationEntry le db userId)
  match sortConversations conversationList with
  | none => ⟨db, .thrown, [], []⟩
  | some sorted =>
    ⟨db, .json 200
      [("success", .bool true),
       ("count", .num sorted.length),
       ("data", .arr (sorted.map .obj))], [], []⟩

/-! ## The route tables -/

/-- The middleware of `middleware/auth` used by the route tables. -/
inductive Middleware
  /-- The bearer-token authentication `protect`. -/
  | protect
  /-- The role gate `authorize(role)`. -/
  | authorize (role : Role)
  deriving DecidableEq, Repr

/-- The HTTP methods of the route tables. -/
inductive Method
  | GET
  | POST
  | PUT
  | DELETE
  | PATCH
  deriving DecidableEq, Repr

/-- A registered route: method, path relative to the router, the middleware in
the order it runs, and the name of the handler that runs last. -/
structure Route where
  method : Method
  path : String
  middleware : List Middleware
  handler : String
  deriving DecidableEq, Repr

/-- A statement of a route file: `router.use(m)` or the registration of a route. -/
inductive RouterItem
  | use (m : Middleware)
  | route (r : Route)
  deriving DecidableEq, Repr

/-- The routes of a router as Express runs them: a `router.use` middleware runs
before every route registered after it. -/
def effectiveRoutes : List Middleware → List RouterItem → List Route
  | _, [] => []
  | pre, .use m :: rest => effectiveRoutes (pre ++ [m]) rest
  | pre, .route r :: rest =>
    { r with middleware := pre ++ r.middleware } :: effectiveRoutes pre rest

/-- The router of `routes/contactRoutes.js` (documented under `/api/contacts`). -/
def contactRoutes : List RouterItem :=
  [.use .protect,
   .route ⟨.GET, "/", [], "getAllContacts"⟩,
   .route ⟨.POST, "/", [], "createContact"⟩,
   .route ⟨.GET, "/:id", [], "getContactById"⟩,
   .route ⟨.PUT, "/:id", [], "updateContact"⟩,
   .route ⟨.DELETE, "/:id", [], "deleteContact"⟩,
   .route ⟨.PUT, "/:id/tags/add", [], "addTags"⟩,
   .route ⟨.PUT, "/:id/tags/remove", [], "removeTags"⟩,
   .route ⟨.PUT, "/:id/pipeline-stage", [], "updatePipelineStage"⟩,
   .route ⟨.GET, "/:contactId/calculations", [], "getContactCalculations"⟩,
   .route ⟨.GET, "/:contactId/questionnaires", [], "getContactQuestionnaires"⟩,
   .route ⟨.GET, "/:contactId/feedbacks", [], "getContactFeedbacks"⟩,
   .route ⟨.POST, "/pin", [], "getContactPinByPhone"⟩]

/-- The router of `routes/investmentCalculationRoutes.js` (`/api/calculations`). -/
def investmentCalculationRoutes : List RouterItem :=
  [.use .protect,
   .route ⟨.GET, "/", [], "getAllCalculations"⟩,
   .route ⟨.POST, "/", [], "createCalculation"⟩,
   .route ⟨.GET, "/:id", [], "getCalculationById"⟩,
   .route ⟨.PUT, "/:id", [], "updateCalculation"⟩,
   .route ⟨.DELETE, "/:id", [], "deleteCalculation"⟩]

/-- The router of `routes/investorQuestionnaireRoutes.js` (`/api/questionnaires`). -/
def investorQuestionnaireRoutes : List RouterItem :=
  [.use .protect,
   .route ⟨.GET, "/", [], "getAllQuestionnaires"⟩,
   .route ⟨.POST, "/", [], "createQuestionnaire"⟩,
   .route ⟨.GET, "/:id", [], "getQuestionnaireById"⟩,
   .route ⟨.PUT, "/:id", [], "updateQuestionnaire"⟩,
   .route ⟨.DELETE, "/:id", [], "deleteQuestionnaire"⟩]

/-- The router of `routes/videoRoutes.js` (`/api/videos`). -/
def videoRoutes : List RouterItem :=
  [.use .protect,
   .route ⟨.GET, "/", [], "getAllVideos"⟩,
   .route ⟨.POST, "/", [], "createVideo"⟩,
   .route ⟨.GET, "/:id", [], "getVideoById"⟩,
   .route ⟨.PUT, "/:id", [], "updateVideo"⟩,
   .route ⟨.DELETE, "/:id", [], "deleteVideo"⟩,
   .route ⟨.PATCH, "/:id/publish", [], "togglePublishStatus"⟩]

/-- The router of `routes/videoFeedbackRoutes.js` (`/api/feedbacks`). -/
def videoFeedbackRoutes : List RouterItem :=
  [.route ⟨.POST, "/", [], "createFeedback"⟩,
   .route ⟨.GET, "/", [.protect, .authorize .ADMIN], "getAllFeedbacks"⟩,
   .route ⟨.GET, "/:id", [.protect, .authorize .ADMIN], "getFeedbackById"⟩,
   .route ⟨.PUT, "/:id", [.protect, .authorize .ADMIN], "updateFeedback"⟩,
   .route ⟨.DELETE, "/:id", [.protect, .authorize .ADMIN], "deleteFeedback"⟩,
   .route ⟨.GET, "/videos/:videoId", [.protect, .authorize .ADMIN], "getVideoFeedbacks"⟩,
   .route ⟨.GET, "/contacts/:contactId", [.protect, .authorize .ADMIN],
     "getContactFeedbacks"⟩]

/-- The route of `videoFeedbackRoutes` that creates feedback, `POST /feedbacks`. -/
def createFeedbackRoute : Route := ⟨.POST, "/", [], "createFeedback"⟩

/-- Every route of the five route tables, with the middleware that runs on it. -/
def allRoutes : List Route :=
  effectiveRoutes [] contactRoutes ++ effectiveRoutes [] investmentCalculationRoutes ++
  effectiveRoutes [] investorQuestionnaireRoutes ++ effectiveRoutes [] videoRoutes ++
  effectiveRoutes [] videoFeedbackRoutes

/-- The handlers that read VideoFeedback rows. -/
def feedbackReadHandlers : List String :=
  ["getAllFeedbacks", "getFeedbackById", "getVideoFeedbacks", "getContactFeedbacks"]

/-- Modelled from the spec: `middleware/auth` is not part of the sources.  Access
control resolves the identity and role of the caller before a controller runs
(section 2): `protect` lets a request pass when its bearer token resolves to a
caller, `authorize(role)` when that caller has the role. -/
def Middleware.allows : Middleware → Option User → Bool
  | .protect, caller => caller.isSome
  | .authorize role, some u => decide (u.role = role)
  | .authorize _, none => false

/-- Whether a request of `caller` passes every middleware of a route. -/
def Route.allows (r : Route) (caller : Option User) : Bool :=
  r.middleware.all fun m => m.allows caller

/-- The validity test of `handleWebhookMessage`: `message`, `contactId` and
`userId` are truthy, a user has the id `userId`, and a contact has the id
`contactId` and was created by `userId`. -/
def WebhookValid (db : Db) (body : Obj) : Prop :=
  (getProp body "message").truthy = true ∧ (getProp body "contactId").truthy = true ∧
  (getProp body "userId").truthy = true ∧
  (∃ u ∈ db.user, getProp u "id" = getProp body "userId") ∧
  (∃ c ∈ db.contact, getProp c "id" = getProp body "contactId" ∧
    getProp c "createdBy" = getProp body "userId")

instance (db : Db) (body : Obj) : Decidable (WebhookValid db body) := by
  unfold WebhookValid
  infer_instance

/-- A webhook body for user `u1` and their contact `c1`. -/
def webhookBody : Obj :=
  [("message", .str "Hello from the assistant"), ("contactId", .str "c1"),
   ("userId", .str "u1")]

/-- A webhook body whose `message` is present and empty. -/
def emptyMessageWebhookBody : Obj :=
  [("message", .str ""), ("contactId", .str "c1"), ("userId", .str "u1")]

/-- The data `handleUserReply` inserts for a request. -/
def userReplyData (req : Request) : Obj :=
  [("message", getProp req.body "message"), ("senderType", .str "USER"),
   ("userId", .str req.user.id), ("contactId", getProp req.body "contactId")]

/-- A reply of `u1` to their contact `c1`, whose body names another user. -/
def replyReq : Request :=
  { user := userU1
    body := [("message", .str "Tell me more"), ("contactId", .str "c1"),
             ("userId", .str "u2")] }

/-- A reply of `u1` that names the contact `c2` of `u2`. -/
def foreignReplyReq : Request :=
  { user := userU1
    body := [("message", .str "Tell me more"), ("contactId", .str "c2")] }

/-- The time by which the conversation entries are compared, `0` standing for an
entry without one. -/
def conversationTime (entry : Obj) : Int :=
  (lastMessageTime entry).getD 0

/-- Whether a distinct `contactId` yields a conversation entry: it is truthy and a
contact has that id. -/
def hasContact (db : Db) (contactId : JsVal) : Bool :=
  contactId.truthy && decide (∃ k ∈ db.contact, getProp k "id" = contactId)

/-- A store with the messages of three conversations of user `u1`, with the
contacts `c1`, `c3` and `c4`, and one message of user `u2`. -/
def chatDb : Db :=
  { sampleDb with
    contact := sampleDb.contact ++
      [[("id", .str "c3"), ("name", .str "Eve"), ("createdBy", .str "u1")],
       [("id", .str "c4"), ("name", .str ""), ("createdBy", .str "u1")]]
    aiMessage :=
      [[("id", .str "m1"), ("message", .str "hi"), ("senderType", .str "USER"),
        ("userId", .str "u1"), ("contactId", .str "c1"), ("createdAt", .num 10)],
       [("id", .str "m2"), ("message", .str "hello"), ("senderType", .str "AI"),
        ("userId", .str "u1"), ("contactId", .str "c1"), ("createdAt", .num 20)],
       [("id", .str "m3"), ("message", .str "offer"), ("senderType", .str "AI"),
        ("userId", .str "u1"), ("contactId", .str "c3"), ("createdAt", .num 50)],
       [("id", .str "m4"), ("message", .str "note"), ("senderType", .str "USER"),
        ("userId", .str "u1"), ("contactId", .str "c4"), ("createdAt", .num 30)],
       [("id", .str "m5"), ("message", .str "other"), ("senderType", .str "USER"),
        ("userId", .str "u2"), ("contactId", .str "c2"), ("createdAt", .num 60)]] }

/-- The user `u1` asking for their conversations. -/
def conversationsReq : Request := { user := userU1 }

/-- The route `GET /:contactId/feedbacks` of the contact route table, with the
middleware that runs on it. -/
def contactFeedbacksRoute : Route :=
  ⟨.GET, "/:contactId/feedbacks", [.protect], "getContactFeedbacks"⟩

/-- The user `u2` listing, through the contact routes, what hangs under the
contact `c1`, which belongs to `u1`. -/
def foreignContactListReq : Request :=
  { user := userU2
    params := [("contactId", .str "c1")] }

/-- The user `u1` listing what hangs under a contact id that no contact has. -/
def missingContactListReq : Request :=
  { user := userU1
    params := [("contactId", .str "c0")] }

/-- A feedback body for the video `v1` whose `responses` is an array. -/
def arrayResponsesBody : Obj :=
  [("videoId", .str "v1"), ("responses", .arr [.str "yes", .str "no"])]

/-- The administrator updating the feedback `f1` with `responses: null`. -/
def nullResponsesUpdateReq : Request :=
  { user := adminA1
    params := [("id", .str "f1")]
    body := [("responses", .null)] }

/-- The administrator updating the feedback `f1` with an array as `responses`. -/
def arrayResponsesUpdateReq : Request :=
  { user := adminA1
    params := [("id", .str "f1")]
    body := [("responses", .arr [.num 1])] }

/-! ## Reading and clearing a conversation -/

/-- The joins of `getConversation`: `user: { select: { id, name } }` through
`userId` and `contact: { select: { id, name } }` through `contactId`.  Modelled
from the spec: the relations of an AiMessage (section 3), whose schema file is not
part of the sources.  A missing related row joins as `null`. -/
def joinConversation (db : Db) (m : Obj) : Obj :=
  setProp
    (setProp m "user"
      (match findFirst db .user [("id", getProp m "userId")] with
       | some u => .obj (selectFields ["id", "name"] u)
       | none => .null))
    "contact"
    (match findFirst db .contact [("id", getProp m "contactId")] with
     | some c => .obj (selectFields ["id", "name"] c)
     | none => .null)

/-- Handler `getConversation`. -/
def getConversation (le : JsVal → JsVal → Bool) (db : Db) (req : Request) : AiResult :=
  let contactId := getProp req.params "contactId"
  let userId := JsVal.str req.user.id
  if !contactId.truthy then
    ⟨db, .next "Please provide a contactId" 400, [], []⟩
  else
    match findFirst db .contact [("id", contactId), ("createdBy", userId)] with
    | none => ⟨db, .next "Contact not found or access denied" 404, [], []⟩
    | some _ =>
      let messages :=
        (sortRows le [("createdAt", .str "asc")] (conversationRows db userId contactId)).map
          (joinConversation db)
      ⟨db, .json 200
        [("success", .bool true),
         ("count", .num messages.length),
         ("data", .arr (messages.map .obj)),
         ("contactId", contactId)], [], []⟩

/-- Store `deleteMany`: every row satisfying the predicate is removed. -/
def deleteMany (db : Db) (t : Table) (whr : Obj) : Db :=
  db.setRows t ((db.rows t).filter fun r => !matchesWhere whr r)

/-- Handler `clearConversationHistory`. -/
def clearConversationHistory (db : Db) (req : Request) : AiResult :=
  ⟨deleteMany db .aiMessage [("userId", .str req.user.id)],
   .json 200
    [("success", .bool true),
     ("message", .str "User\x27s conversation history cleared successfully")], [], []⟩

/-- The time of a message row, `0` standing for a row without a timestamp. -/
def messageTime (m : Obj) : Int :=
  (getTime? (getProp m "createdAt")).getD 0

/-- The user `u1` reading their conversation with contact `c1`. -/
def conversationReq : Request :=
  { user := userU1
    params := [("contactId", .str "c1")] }

/-- The user `u1` asking for the conversation with the contact `c2` of `u2`. -/
def foreignConversationReq : Request :=
  { user := userU1
    params := [("contactId", .str "c2")] }

/-- The store `chatDb` with one more message of user `u1`, whose `contactId` is
the contact `c2` of user `u2`. -/
def strayDb : Db :=
  { chatDb with
    aiMessage := chatDb.aiMessage ++
      [[("id", .str "m6"), ("message", .str "stray"), ("senderType", .str "AI"),
        ("userId", .str "u1"), ("contactId", .str "c2"), ("createdAt", .num 70)]] }

/-- Whether a value is a conversation entry for the contact id `c`. -/
def isEntryFor (c : String) : JsVal → Bool
  | .obj e => decide (getProp e "contactId" = .str c)
  | _ => false

/-- The user `u1` updating their questionnaire `q1` with an empty string as
`marketsInterested` and `null` as `propertyTypesInterested`. -/
def falsyArraysUpdateReq : Request :=
  { user := userU1
    params := [("id", .str "q1")]
    body := [("marketsInterested", .str ""), ("propertyTypesInterested", .null)] }

/-- The two array fields of a questionnaire. -/
def questionnaireArrayFields : List String :=
  ["marketsInterested", "propertyTypesInterested"]

/-- The coercion the array fields are meant to undergo: an array is kept and
anything else becomes the empty array. -/
def coercedArray (v : JsVal) : JsVal :=
  if v.isArray then v else .arr []

/-- A value of a string field that is missing or empty: absent, `null` or `""`. -/
def missingOrEmpty (v : JsVal) : Prop :=
  v = .undefined ∨ v = .null ∨ v = .str ""

instance (v : JsVal) : Decidable (missingOrEmpty v) := by
  unfold missingOrEmpty
  infer_instance

/-- A value a string field of a JSON body can carry: absent, `null` or a string. -/
def stringOrAbsent (v : JsVal) : Prop :=
  v = .undefined ∨ v = .null ∨ ∃ s, v = .str s

/-- The data `createVideo` inserts for a request. -/
def createVideoData (req : Request) : Obj :=
  [("title", getProp req.body "title"),
   ("videoUrl", getProp req.body "videoUrl"),
   ("thumbnailUrl", getProp req.body "thumbnailUrl"),
   ("isPublished",
     if getProp req.body "isPublished" ≠ .undefined then getProp req.body "isPublished"
     else .bool true),
   ("createdBy", .str req.user.id)]

/-- A video body of `u1` with fields beyond those of a video and no `isPublished`. -/
def newVideoReq : Request :=
  { user := userU1
    body := [("title", .str "Walkthrough"), ("videoUrl", .str "http://v/3"),
             ("createdBy", .str "u2"), ("id", .str "v1"), ("views", .num 100)] }

/-- The sort contract of a result for a query: every fetch it issued carries an
`orderBy` with exactly one key, the `sortBy` of the query verbatim or `createdAt`
when the query has none, and a direction that is `asc` when `order` is exactly the
string `asc` and `desc` in every other case. -/
def OrderByContract (q : Query) (r : Result) : Prop :=
  ∀ c ∈ r.calls, ∀ t w ob sk tk incl, c = StoreCall.findMany t w ob sk tk incl →
    ∃ dir, ob = [(q.sortBy.getD "createdAt", .str dir)] ∧
      (q.order = some "asc" → dir = "asc") ∧ (q.order ≠ some "asc" → dir = "desc")

/-- Whether a result issued a fetch. -/
def IssuesFetch (r : Result) : Prop :=
  ∃ t w ob sk tk incl, StoreCall.findMany t w ob sk tk incl ∈ r.calls

/-- A result that wrote nothing: no write among its calls and the store as it was. -/
def NoWrite (db : Db) (r : Result) : Prop :=
  (∀ c ∈ r.calls, c.isWrite = false) ∧ r.db = db

/-- A result whose only write, if any, is its last call. -/
def WritesLast (r : Result) : Prop :=
  ∀ c ∈ r.calls.dropLast, c.isWrite = false

/-- A result that ended by forwarding a 400 or a 404 error. -/
def EndsInClientError (r : Result) : Prop :=
  ∃ msg, r.out = .next msg 400 ∨ r.out = .next msg 404

/-- The user `u1` toggling the publish status of their video `v1`. -/
def toggleReq : Request :=
  { user := userU1
    params := [("id", .str "v1")] }

/-- The sample row of the video `v1`, which is published. -/
def videoV1 : Obj :=
  [("id", .str "v1"), ("title", .str "Intro"), ("videoUrl", .str "http://v/1"),
   ("isPublished", .bool true), ("createdBy", .str "u1"), ("createdAt", .num 1)]

/-- The text `published` or `unpublished` for a publish state. -/
def publishWord (isPublished : Bool) : String :=
  if isPublished then "published" else "unpublished"

/-- A result every fetch of which carries the sort object `ob0`. -/
def FetchesWith (ob0 : Obj) (r : Result) : Prop :=
  ∀ c ∈ r.calls, ∀ t w ob sk tk incl, c = StoreCall.findMany t w ob sk tk incl → ob = ob0

/-- A list request of `u1` that asks to sort by `__proto__`, ascending. -/
def protoSortReq : Request :=
  { user := userU1
    params := [("contactId", .str "c1"), ("videoId", .str "v2")]
    query := { sortBy := some "__proto__", order := some "asc" } }

/-- A feedback body for the video `v1` whose `contactId` is provided and empty. -/
def emptyContactFeedbackBody : Obj :=
  [("videoId", .str "v1"), ("responses", .obj [("q1", .str "yes")]), ("contactId", .str "")]

/-- A video body whose `title` is the number 0. -/
def zeroTitleReq : Request :=
  { user := userU1
    body := [("title", .num 0), ("videoUrl", .str "http://v/3")] }

/-! ## Deleting a video -/

theorem count_videoFeedback (db : Db) (id : JsVal) :
    count db .videoFeedback [("videoId", id)] =
      (db.videoFeedback.filter fun f => decide (getProp f "videoId" = id)).length := by
  have e : matchesWhere [("videoId", id)] = fun f => decide (getProp f "videoId" = id) := by
    funext f
    simp [matchesWhere]
  simp only [count, Db.rows, e]

theorem findFirst_owned_some (db : Db) (t : Table) (req : Request)
    (h : ∃ v ∈ db.rows t, getProp v "id" = getProp req.params "id" ∧
      getProp v "createdBy" = .str req.user.id) :
    ∃ v, findFirst db t (ownedWhere req) = some v ∧
      getProp v "id" = getProp req.params "id" ∧
      getProp v "createdBy" = .str req.user.id ∧ v ∈ db.rows t := by
  obtain ⟨v, hv, hid, ho⟩ := h
  have hs := findFirst_owned_of_mem db t (getProp req.params "id") req.user.id v hv hid ho
  obtain ⟨v', hv'⟩ := Option.isSome_iff_exists.1 hs
  have hm := List.find?_some hv'
  simp only [matchesWhere_cons] at hm
  exact ⟨v', hv', hm.1, hm.2.1, List.mem_of_find?_eq_some hv'⟩

theorem delete_of_mem (db : Db) (t : Table) (id : JsVal)
    (h : ∃ v ∈ db.rows t, getProp v "id" = id) :
    delete db t id =
      some (db.setRows t ((db.rows t).filter fun x => decide (getProp x "id" ≠ id))) := by
  obtain ⟨v, hv, hid⟩ := h
  have hs : ((db.rows t).find? (fun r => decide (getProp r "id" = id))).isSome = true := by
    rw [List.find?_isSome]
    exact ⟨v, hv, by simp [hid]⟩
  obtain ⟨v', hv'⟩ := Option.isSome_iff_exists.1 hs
  simp only [delete, hv']

/-- C11. For every video owned by the caller: when no VideoFeedback row has
`videoId` equal to the id of the video, `deleteVideo` answers 200, the store
afterwards is the store before without the rows of that id in the video table, and
no video with that id remains; when at least one such feedback row exists, it
forwards the 400 error `Cannot delete video with existing feedback` and the store,
the video row and every feedback row included, is unchanged. -/
theorem deleteVideo_referential_guard (db : Db) (req : Request)
    (howned : ∃ v ∈ db.video, getProp v "id" = getProp req.params "id" ∧
      getProp v "createdBy" = .str req.user.id) :
    ((db.videoFeedback.filter fun f =>
        decide (getProp f "videoId" = getProp req.params "id")).length = 0 →
      (deleteVideo db req).out = .json 200
        [("success", .bool true), ("message", .str "Video deleted successfully")] ∧
      (deleteVideo db req).db = { db with
        video := db.video.filter fun x => decide (getProp x "id" ≠ getProp req.params "id") } ∧
      (∀ v ∈ (deleteVideo db req).db.video, getProp v "id" ≠ getProp req.params "id") ∧
      (deleteVideo db req).db.videoFeedback = db.videoFeedback) ∧
    (1 ≤ (db.videoFeedback.filter fun f =>
        decide (getProp f "videoId" = getProp req.params "id")).length →
      (deleteVideo db req).out = .next "Cannot delete video with existing feedback" 400 ∧
      (deleteVideo db req).db = db ∧
      (∀ c ∈ (deleteVideo db req).calls, c.isWrite = false)) := by
  obtain ⟨v, hf, hid, -, hmem⟩ := findFirst_owned_some db .video req howned
  have hdel := delete_of_mem db .video (getProp req.params "id") ⟨v, hmem, hid⟩
  rw [← count_videoFeedback]
  constructor
  · intro h0
    have hn : ¬ count db .videoFeedback [("videoId", getProp req.params "id")] > 0 := by omega
    have e : deleteVideo db req =
        ⟨[.findFirst .video (ownedWhere req) [],
          .count .videoFeedback [("videoId", getProp req.params "id")],
          .delete .video [("id", getProp req.params "id")]],
         db.setRows .video ((db.rows .video).filter
           fun x => decide (getProp x "id" ≠ getProp req.params "id")),
         .json 200
          [("success", .bool true), ("message", .str "Video deleted successfully")]⟩ := by
      simp only [deleteVideo, hf, hn, if_false, hdel]
    rw [e]
    refine ⟨rfl, rfl, ?_, rfl⟩
    intro x hx
    have hx' : x ∈ (db.rows .video).filter
        fun x => decide (getProp x "id" ≠ getProp req.params "id") := hx
    rw [List.mem_filter] at hx'
    simpa using hx'.2
  · intro h1
    have hp : count db .videoFeedback [("videoId", getProp req.params "id")] > 0 := by omega
    have e : deleteVideo db req =
        ⟨[.findFirst .video (ownedWhere req) [],
          .count .videoFeedback [("videoId", getProp req.params "id")]],
         db, .next "Cannot delete video with existing feedback" 400⟩ := by
      simp only [deleteVideo, hf, hp, if_true]
    rw [e]
    exact ⟨rfl, rfl, by simp [StoreCall.isWrite]⟩

/-- C11, at the sample store: `u1` deletes the video `v1`, which has no feedback,
and `u2` is refused the deletion of `v2`, which has one feedback row. -/
theorem deleteVideo_referential_guard_witness :
    ((deleteVideo sampleDb deleteOwnVideoReq).out = .json 200
        [("success", .bool true), ("message", .str "Video deleted successfully")] ∧
      ∀ v ∈ (deleteVideo sampleDb deleteOwnVideoReq).db.video, getProp v "id" ≠ .str "v1") ∧
    ((deleteVideo sampleDb deleteRatedVideoReq).out
        = .next "Cannot delete video with existing feedback" 400 ∧
      (deleteVideo sampleDb deleteRatedVideoReq).db = sampleDb) :=
  have h1 := (deleteVideo_referential_guard sampleDb deleteOwnVideoReq (by decide)).1
    (by decide)
  have h2 := (deleteVideo_referential_guard sampleDb deleteRatedVideoReq (by decide)).2
    (by decide)
  ⟨⟨h1.1, h1.2.2.1⟩, ⟨h2.1, h2.2.1⟩⟩

/-! ## The inbound webhook -/

/-- C12. Whatever the body and the store, and whichever of the user lookup, the
contact lookup, the insert and the broadcast throws, `handleWebhookMessage`
answers with status 200 and a JSON body in which `success` is `true` and `message`
is a string; the outcome is never an error forwarded to `next`. -/
theorem handleWebhookMessage_always_200 (generated : Obj) (faults : Faults) (db : Db)
    (body : Obj) :
    ∃ answer text,
      (handleWebhookMessage generated faults db body).out = .json 200 answer ∧
      getProp answer "success" = .bool true ∧ getProp answer "message" = .str text := by
  simp only [handleWebhookMessage, webhookInternalError, create]
  repeat' split
  all_goals exact ⟨_, _, rfl, rfl, rfl⟩

theorem truthy_ne_undefined (v : JsVal) (h : v.truthy = true) : v ≠ .undefined := by
  intro e
  rw [e] at h
  exact absurd h (by decide)

theorem findFirst_isSome_iff (db : Db) (t : Table) (whr : Obj) :
    (findFirst db t whr).isSome = true ↔ ∃ r ∈ db.rows t, matchesWhere whr r = true := by
  unfold findFirst
  rw [List.find?_isSome]

/-- C13 as stated fails: with `message` present but empty, an existing user `u1`
and their contact `c1`, no row is written and nothing is broadcast. -/
theorem webhook_empty_message_not_written :
    getProp emptyMessageWebhookBody "message" ≠ .undefined ∧
    getProp emptyMessageWebhookBody "contactId" ≠ .undefined ∧
    getProp emptyMessageWebhookBody "userId" ≠ .undefined ∧
    (∃ u ∈ sampleDb.user, getProp u "id" = getProp emptyMessageWebhookBody "userId") ∧
    (∃ c ∈ sampleDb.contact, getProp c "id" = getProp emptyMessageWebhookBody "contactId" ∧
      getProp c "createdBy" = getProp emptyMessageWebhookBody "userId") ∧
    (handleWebhookMessage sampleEnv.generated {} sampleDb emptyMessageWebhookBody).db
      = sampleDb ∧
    (handleWebhookMessage sampleEnv.generated {} sampleDb emptyMessageWebhookBody).broadcasts
      = [] := by
  decide

/-- C13, amended. In a run in which nothing throws, `handleWebhookMessage` writes
an AiMessage row if and only if `message`, `contactId` and `userId` are all truthy
(present and neither null, empty, zero nor false), a User with id `userId` exists,
and a Contact with id `contactId` and `createdBy` `userId` exists.  In that case
exactly one row is appended, with `senderType` `AI` and the given `message`,
`userId` and `contactId`, the broadcast is invoked once, with that row, and the row
is the data of the answer; in every other case the store is unchanged and nothing
is broadcast. -/
theorem handleWebhookMessage_writes_iff (generated : Obj) (db : Db) (body : Obj) :
    (WebhookValid db body →
      ∃ row,
        (handleWebhookMessage generated {} db body).db
          = { db with aiMessage := db.aiMessage ++ [row] } ∧
        getProp row "senderType" = .str "AI" ∧
        getProp row "message" = getProp body "message" ∧
        getProp row "userId" = getProp body "userId" ∧
        getProp row "contactId" = getProp body "contactId" ∧
        (handleWebhookMessage generated {} db body).broadcasts
          = [[("type", .str "newMessage"), ("data", .obj row)]] ∧
        (handleWebhookMessage generated {} db body).out = .json 200
          [("success", .bool true),
           ("message", .str "AI message received and saved."),
           ("data", .obj row)]) ∧
    (¬ WebhookValid db body →
      (handleWebhookMessage generated {} db body).db = db ∧
      (handleWebhookMessage generated {} db body).broadcasts = []) := by
  constructor
  · rintro ⟨hm, hc, hu, ⟨u, hu1, hu2⟩, ⟨c, hc1, hc2, hc3⟩⟩
    have h1 : (findFirst db .user [("id", getProp body "userId")]).isSome = true :=
      (findFirst_isSome_iff _ _ _).2 ⟨u, hu1, by simp [matchesWhere, hu2]⟩
    have h2 : (findFirst db .contact [("id", getProp body "contactId"),
        ("createdBy", getProp body "userId")]).isSome = true :=
      (findFirst_isSome_iff _ _ _).2 ⟨c, hc1, by simp [matchesWhere, hc2, hc3]⟩
    obtain ⟨u', hu'⟩ := Option.isSome_iff_exists.1 h1
    obtain ⟨c', hc'⟩ := Option.isSome_iff_exists.1 h2
    refine ⟨spread generated (definedFields
      [("message", getProp body "message"), ("senderType", .str "AI"),
       ("userId", getProp body "userId"), ("contactId", getProp body "contactId")]),
      ?_, ?_, ?_, ?_, ?_, ?_, ?_⟩
    · simp only [handleWebhookMessage, hm, hc, hu, hu', hc', create]
      rfl
    · rw [getProp_created _ _ _ (by simp [getProp, List.lookup])]
      simp [getProp, List.lookup]
    · have e : getProp [("message", getProp body "message"), ("senderType", .str "AI"),
          ("userId", getProp body "userId"), ("contactId", getProp body "contactId")]
          "message" = getProp body "message" := by simp [getProp, List.lookup]
      rw [getProp_created _ _ _ (by rw [e]; exact truthy_ne_undefined _ hm), e]
    · have e : getProp [("message", getProp body "message"), ("senderType", .str "AI"),
          ("userId", getProp body "userId"), ("contactId", getProp body "contactId")]
          "userId" = getProp body "userId" := by simp [getProp, List.lookup]
      rw [getProp_created _ _ _ (by rw [e]; exact truthy_ne_undefined _ hu), e]
    · have e : getProp [("message", getProp body "message"), ("senderType", .str "AI"),
          ("userId", getProp body "userId"), ("contactId", getProp body "contactId")]
          "contactId" = getProp body "contactId" := by simp [getProp, List.lookup]
      rw [getProp_created _ _ _ (by rw [e]; exact truthy_ne_undefined _ hc), e]
    · simp only [handleWebhookMessage, hm, hc, hu, hu', hc', create]
      rfl
    · simp only [handleWebhookMessage, hm, hc, hu, hu', hc', create]
      rfl
  · intro hnot
    by_cases htr : (!(getProp body "message").truthy || !(getProp body "contactId").truthy
        || !(getProp body "userId").truthy) = true
    · simp [handleWebhookMessage, htr]
    · cases hu : findFirst db .user [("id", getProp body "userId")] with
      | none =>
        simp [handleWebhookMessage, htr, hu]
      | some u =>
        cases hc : findFirst db .contact [("id", getProp body "contactId"),
            ("createdBy", getProp body "userId")] with
        | none =>
          simp [handleWebhookMessage, htr, hu, hc]
        | some c =>
          exfalso
          apply hnot
          simp only [Bool.or_eq_true, Bool.not_eq_true', not_or, Bool.not_eq_false] at htr
          have hmu := List.find?_some hu
          have hmc := List.find?_some hc
          simp only [matchesWhere_cons] at hmu hmc
          exact ⟨htr.1.1, htr.1.2, htr.2,
            ⟨u, List.mem_of_find?_eq_some hu, hmu.1⟩,
            ⟨c, List.mem_of_find?_eq_some hc, hmc.1, hmc.2.1⟩⟩

/-- C13 amended, at the sample body for user `u1` and contact `c1`. -/
theorem handleWebhookMessage_writes_iff_witness :
    ∃ row,
      (handleWebhookMessage sampleEnv.generated {} sampleDb webhookBody).db
        = { sampleDb with aiMessage := sampleDb.aiMessage ++ [row] } ∧
      getProp row "senderType" = .str "AI" ∧
      getProp row "message" = .str "Hello from the assistant" ∧
      getProp row "userId" = .str "u1" ∧
      getProp row "contactId" = .str "c1" ∧
      (handleWebhookMessage sampleEnv.generated {} sampleDb webhookBody).broadcasts
        = [[("type", .str "newMessage"), ("data", .obj row)]] ∧
      (handleWebhookMessage sampleEnv.generated {} sampleDb webhookBody).out = .json 200
        [("success", .bool true),
         ("message", .str "AI message received and saved."),
         ("data", .obj row)] :=
  (handleWebhookMessage_writes_iff sampleEnv.generated sampleDb webhookBody).1 (by decide)

/-! ## Replies of the user -/

theorem userReplyData_row (generated : Obj) (req : Request)
    (hm : (getProp req.body "message").truthy = true)
    (hc : (getProp req.body "contactId").truthy = true) :
    getProp (spread generated (definedFields (userReplyData req))) "senderType"
      = .str "USER" ∧
    getProp (spread generated (definedFields (userReplyData req))) "userId"
      = .str req.user.id ∧
    getProp (spread generated (definedFields (userReplyData req))) "contactId"
      = getProp req.body "contactId" ∧
    getProp (spread generated (definedFields (userReplyData req))) "message"
      = getProp req.body "message" := by
  have e1 : getProp (userReplyData req) "senderType" = .str "USER" := by
    simp [userReplyData, getProp, List.lookup]
  have e2 : getProp (userReplyData req) "userId" = .str req.user.id := by
    simp [userReplyData, getProp, List.lookup]
  have e3 : getProp (userReplyData req) "contactId" = getProp req.body "contactId" := by
    simp [userReplyData, getProp, List.lookup]
  have e4 : getProp (userReplyData req) "message" = getProp req.body "message" := by
    simp [userReplyData, getProp, List.lookup]
  refine ⟨?_, ?_, ?_, ?_⟩
  · rw [getProp_created _ _ _ (by rw [e1]; simp), e1]
  · rw [getProp_created _ _ _ (by rw [e2]; simp), e2]
  · rw [getProp_created _ _ _ (by rw [e3]; exact truthy_ne_undefined _ hc), e3]
  · rw [getProp_created _ _ _ (by rw [e4]; exact truthy_ne_undefined _ hm), e4]

theorem handleUserReply_saved (generated : Obj) (envVar : Option String) (postFails : Bool)
    (db : Db) (req : Request)
    (hm : (getProp req.body "message").truthy = true)
    (hc : (getProp req.body "contactId").truthy = true)
    (ho : ∃ c ∈ db.contact, getProp c "id" = getProp req.body "contactId" ∧
      getProp c "createdBy" = .str req.user.id) :
    handleUserReply generated envVar postFails db req =
      if N8N_REPLY_WEBHOOK_URL envVar = placeholderUrl then
        ⟨{ db with aiMessage := db.aiMessage ++
            [spread generated (definedFields (userReplyData req))] },
         .json 201
          [("success", .bool true),
           ("message", .str
             "User message saved. AI response trigger skipped (Webhook URL not configured)."),
           ("data", .obj (spread generated (definedFields (userReplyData req))))], [], []⟩
      else if postFails then
        ⟨{ db with aiMessage := db.aiMessage ++
            [spread generated (definedFields (userReplyData req))] },
         .next "Message saved, but failed to trigger AI response." 500, [],
         [(N8N_REPLY_WEBHOOK_URL envVar,
           [("userId", .str req.user.id), ("contactId", getProp req.body "contactId"),
            ("message", getProp req.body "message")])]⟩
      else
        ⟨{ db with aiMessage := db.aiMessage ++
            [spread generated (definedFields (userReplyData req))] },
         .json 201
          [("success", .bool true),
           ("message", .str "User message saved and AI response triggered."),
           ("data", .obj (spread generated (definedFields (userReplyData req))))], [],
         [(N8N_REPLY_WEBHOOK_URL envVar,
           [("userId", .str req.user.id), ("contactId", getProp req.body "contactId"),
            ("message", getProp req.body "message")])]⟩ := by
  obtain ⟨c, hc1, hc2, hc3⟩ := ho
  have h2 : (findFirst db .contact [("id", getProp req.body "contactId"),
      ("createdBy", .str req.user.id)]).isSome = true :=
    (findFirst_isSome_iff _ _ _).2 ⟨c, hc1, by simp [matchesWhere, hc2, hc3]⟩
  obtain ⟨c', hc'⟩ := Option.isSome_iff_exists.1 h2
  simp only [handleUserReply, hm, hc, hc', create, userReplyData]
  rfl

/-- C14. In `handleUserReply`, for every store and request: when `message` and
`contactId` pass validation, the contact is owned by the caller, a webhook url is
configured and the outbound call fails, the handler forwards the 500 error
`Message saved, but failed to trigger AI response.` and the store holds, appended,
the row with `senderType` `USER` written before the call.  And for every store,
request and configuration: a falsy `message` or `contactId` is answered with the
400 error and a contact that is not the caller's with the 404 error; and whenever
a request ends in a 400 or a 404 error, the store is unchanged and no call went
out. -/
theorem handleUserReply_webhook_failure (generated : Obj) :
    (∀ (envVar : Option String) (db : Db) (req : Request),
      (getProp req.body "message").truthy = true →
      (getProp req.body "contactId").truthy = true →
      (∃ c ∈ db.contact, getProp c "id" = getProp req.body "contactId" ∧
        getProp c "createdBy" = .str req.user.id) →
      N8N_REPLY_WEBHOOK_URL envVar ≠ placeholderUrl →
      ∃ row,
        (handleUserReply generated envVar true db req).out
          = .next "Message saved, but failed to trigger AI response." 500 ∧
        (handleUserReply generated envVar true db req).db
          = { db with aiMessage := db.aiMessage ++ [row] } ∧
        getProp row "senderType" = .str "USER" ∧
        getProp row "userId" = .str req.user.id ∧
        getProp row "contactId" = getProp req.body "contactId" ∧
        getProp row "message" = getProp req.body "message") ∧
    (∀ (envVar : Option String) (postFails : Bool) (db : Db) (req : Request),
      ((getProp req.body "message").truthy = false ∨
          (getProp req.body "contactId").truthy = false →
        handleUserReply generated envVar postFails db req
          = ⟨db, .next "Please provide a message and contactId" 400, [], []⟩) ∧
      ((getProp req.body "message").truthy = true →
        (getProp req.body "contactId").truthy = true →
        findFirst db .contact [("id", getProp req.body "contactId"),
          ("createdBy", .str req.user.id)] = none →
        handleUserReply generated envVar postFails db req
          = ⟨db, .next "Contact not found or access denied" 404, [], []⟩) ∧
      (∀ msg : String,
        ((handleUserReply generated envVar postFails db req).out = .next msg 400 ∨
          (handleUserReply generated envVar postFails db req).out = .next msg 404) →
        (handleUserReply generated envVar postFails db req).db = db ∧
        (handleUserReply generated envVar postFails db req).posts = [])) := by
  constructor
  · intro envVar db req hm hc ho hurl
    have hrow := userReplyData_row generated req hm hc
    refine ⟨spread generated (definedFields (userReplyData req)), ?_, ?_,
      hrow.1, hrow.2.1, hrow.2.2.1, hrow.2.2.2⟩
    · rw [handleUserReply_saved generated envVar true db req hm hc ho, if_neg hurl]
      rfl
    · rw [handleUserReply_saved generated envVar true db req hm hc ho, if_neg hurl]
      rfl
  · intro envVar postFails db req
    refine ⟨?_, ?_, ?_⟩
    · intro h
      have hcond : (!(getProp req.body "message").truthy ||
          !(getProp req.body "contactId").truthy) = true := by
        rcases h with h | h <;> simp [h]
      simp only [handleUserReply, if_pos hcond]
    · intro hm hc hnone
      simp [handleUserReply, hm, hc, hnone]
    · intro msg hout
      by_cases hcond : (!(getProp req.body "message").truthy ||
          !(getProp req.body "contactId").truthy) = true
      · simp only [handleUserReply, if_pos hcond, and_self]
      · cases hf : findFirst db .contact [("id", getProp req.body "contactId"),
            ("createdBy", .str req.user.id)] with
        | none => simp only [handleUserReply, if_neg hcond, hf, and_self]
        | some r =>
          exfalso
          simp only [handleUserReply, if_neg hcond, hf, create] at hout
          by_cases hu : N8N_REPLY_WEBHOOK_URL envVar = placeholderUrl
          · simp [hu] at hout
          · cases postFails <;> simp [hu] at hout

/-- C14, at the sample reply of `u1` to their contact `c1`, with a configured url
and a failing call; and the reply naming the contact of `u2` writes nothing,
whether or not a url is configured. -/
theorem handleUserReply_webhook_failure_witness :
    (∃ row,
      (handleUserReply sampleEnv.generated (some "http://n8n/hook") true sampleDb
        replyReq).out = .next "Message saved, but failed to trigger AI response." 500 ∧
      (handleUserReply sampleEnv.generated (some "http://n8n/hook") true sampleDb
        replyReq).db = { sampleDb with aiMessage := sampleDb.aiMessage ++ [row] } ∧
      getProp row "senderType" = .str "USER") ∧
    (handleUserReply sampleEnv.generated (some "http://n8n/hook") true sampleDb
      foreignReplyReq).db = sampleDb ∧
    (handleUserReply sampleEnv.generated none false sampleDb foreignReplyReq).db = sampleDb :=
  have h := handleUserReply_webhook_failure sampleEnv.generated
  have h1 := h.1 (some "http://n8n/hook") sampleDb replyReq (by decide) (by decide)
    (by decide) (by decide)
  ⟨⟨h1.choose, h1.choose_spec.1, h1.choose_spec.2.1, h1.choose_spec.2.2.1⟩,
   ((h.2 (some "http://n8n/hook") true sampleDb foreignReplyReq).2.2
     "Contact not found or access denied" (Or.inr (by decide))).1,
   ((h.2 none false sampleDb foreignReplyReq).2.2
     "Contact not found or access denied" (Or.inr (by decide))).1⟩

/-- C15. For a reply that passes validation and names a contact of the caller:
when the environment variable `N8N_REPLY_WEBHOOK_URL` is unset, the reply is saved
as a row with `senderType` `USER` and `userId` the id of the authenticated caller,
whatever the body says, no outbound call is made, and the answer is 201 with
`success: true` and the saved row as data; when it is set to a url, exactly one
call goes out, to that url, with the payload `userId, contactId, message`, whose
values are those of the saved row. -/
theorem handleUserReply_webhook_configuration (generated : Obj) (postFails : Bool)
    (db : Db) (req : Request)
    (hm : (getProp req.body "message").truthy = true)
    (hc : (getProp req.body "contactId").truthy = true)
    (ho : ∃ c ∈ db.contact, getProp c "id" = getProp req.body "contactId" ∧
      getProp c "createdBy" = .str req.user.id) :
    (∃ row,
      handleUserReply generated none postFails db req =
        ⟨{ db with aiMessage := db.aiMessage ++ [row] },
         .json 201
          [("success", .bool true),
           ("message", .str
             "User message saved. AI response trigger skipped (Webhook URL not configured)."),
           ("data", .obj row)], [], []⟩ ∧
      getProp row "senderType" = .str "USER" ∧
      getProp row "userId" = .str req.user.id ∧
      getProp row "contactId" = getProp req.body "contactId" ∧
      getProp row "message" = getProp req.body "message") ∧
    (∀ url : String, url ≠ "" → url ≠ placeholderUrl →
      ∃ row payload,
        (handleUserReply generated (some url) postFails db req).db
          = { db with aiMessage := db.aiMessage ++ [row] } ∧
        (handleUserReply generated (some url) postFails db req).posts = [(url, payload)] ∧
        payload.map Prod.fst = ["userId", "contactId", "message"] ∧
        getProp payload "userId" = getProp row "userId" ∧
        getProp payload "contactId" = getProp row "contactId" ∧
        getProp payload "message" = getProp row "message" ∧
        getProp row "userId" = .str req.user.id ∧
        getProp row "senderType" = .str "USER") := by
  have hrow := userReplyData_row generated req hm hc
  constructor
  · refine ⟨spread generated (definedFields (userReplyData req)), ?_,
      hrow.1, hrow.2.1, hrow.2.2.1, hrow.2.2.2⟩
    rw [handleUserReply_saved generated none postFails db req hm hc ho]
    simp [N8N_REPLY_WEBHOOK_URL]
  · intro url h1 h2
    have hu : N8N_REPLY_WEBHOOK_URL (some url) = url := by
      simp [N8N_REPLY_WEBHOOK_URL, h1]
    refine ⟨spread generated (definedFields (userReplyData req)),
      [("userId", .str req.user.id), ("contactId", getProp req.body "contactId"),
       ("message", getProp req.body "message")], ?_, ?_, rfl, ?_, ?_, ?_, hrow.2.1, hrow.1⟩
    · rw [handleUserReply_saved generated (some url) postFails db req hm hc ho, hu,
        if_neg h2]
      cases postFails <;> rfl
    · rw [handleUserReply_saved generated (some url) postFails db req hm hc ho, hu,
        if_neg h2]
      cases postFails <;> rfl
    · rw [hrow.2.1]
      simp [getProp, List.lookup]
    · rw [hrow.2.2.1]
      simp [getProp, List.lookup]
    · rw [hrow.2.2.2]
      simp [getProp, List.lookup]

/-- C15, at the sample reply of `u1`, whose body names `u2` as user: with the
variable unset nothing goes out and the saved row belongs to `u1`. -/
theorem handleUserReply_webhook_configuration_witness :
    ∃ row,
      handleUserReply sampleEnv.generated none false sampleDb replyReq =
        ⟨{ sampleDb with aiMessage := sampleDb.aiMessage ++ [row] },
         .json 201
          [("success", .bool true),
           ("message", .str
             "User message saved. AI response trigger skipped (Webhook URL not configured)."),
           ("data", .obj row)], [], []⟩ ∧
      getProp row "senderType" = .str "USER" ∧
      getProp row "userId" = .str "u1" ∧
      getProp row "contactId" = .str "c1" ∧
      getProp row "message" = .str "Tell me more" :=
  (handleUserReply_webhook_configuration sampleEnv.generated false sampleDb replyReq
    (by decide) (by decide) (by decide)).1

/-! ## The conversation list -/

theorem head_insertionSort_max (r : Obj → Obj → Prop) [DecidableRel r] (key : Obj → Int)
    (l : List Obj) (hr : ∀ a ∈ l, ∀ b ∈ l, r a b ↔ key b ≤ key a) (h : Obj)
    (hh : (l.insertionSort r).head? = some h) :
    h ∈ l ∧ ∀ x ∈ l, key x ≤ key h := by
  induction l generalizing h with
  | nil => simp at hh
  | cons a l ih =>
    have hr' : ∀ x ∈ l, ∀ y ∈ l, r x y ↔ key y ≤ key x := fun x hx y hy =>
      hr x (List.mem_cons_of_mem _ hx) y (List.mem_cons_of_mem _ hy)
    rw [List.insertionSort] at hh
    cases hs : l.insertionSort r with
    | nil =>
      have hl : l = [] := by
        have := (List.perm_insertionSort r l).length_eq
        rw [hs] at this
        exact List.length_eq_zero.1 this.symm
      subst hl
      rw [hs] at hh
      simp [List.orderedInsert] at hh
      subst hh
      simp
    | cons b s =>
      obtain ⟨hb, hmax⟩ := ih hr' b (by rw [hs]; rfl)
      rw [hs] at hh
      by_cases hab : r a b
      · simp [List.orderedInsert, hab] at hh
        subst hh
        have hk := (hr a (List.mem_cons_self _ _) b (List.mem_cons_of_mem _ hb)).1 hab
        refine ⟨List.mem_cons_self _ _, ?_⟩
        intro x hx
        rcases List.mem_cons.1 hx with rfl | hx
        · exact le_refl _
        · exact le_trans (hmax x hx) hk
      · simp [List.orderedInsert, hab] at hh
        subst hh
        have hk : ¬ key b ≤ key a := fun hle =>
          hab ((hr a (List.mem_cons_self _ _) b (List.mem_cons_of_mem _ hb)).2 hle)
        refine ⟨List.mem_cons_of_mem _ hb, ?_⟩
        intro x hx
        rcases List.mem_cons.1 hx with rfl | hx
        · omega
        · exact hmax x hx

theorem mem_conversationRows (db : Db) (uid c : JsVal) (m : Obj) :
    m ∈ conversationRows db uid c ↔
      m ∈ db.aiMessage ∧ getProp m "userId" = uid ∧ getProp m "contactId" = c := by
  simp [conversationRows, List.mem_filter, matchesWhere, Db.rows]

theorem mem_distinctConversations (db : Db) (uid c : JsVal) :
    c ∈ distinctConversations db uid ↔
      ∃ m ∈ db.aiMessage, getProp m "userId" = uid ∧ getProp m "contactId" = c := by
  simp [distinctConversations, List.mem_dedup, List.mem_filter, matchesWhere, Db.rows,
    and_assoc]

/-- The newest message of a conversation, as the store finds it. -/
theorem newest_message (le : JsVal → JsVal → Bool) (db : Db) (uid c : JsVal)
    (hle : ∀ a b : Int, le (.num a) (.num b) = decide (a ≤ b))
    (hnum : ∀ m ∈ db.aiMessage, getProp m "userId" = uid →
      ∃ t, getProp m "createdAt" = .num t)
    (m : Obj)
    (hm : (sortRows le [("createdAt", .str "desc")] (conversationRows db uid c)).head?
      = some m) :
    m ∈ conversationRows db uid c ∧
    ∃ t, getProp m "createdAt" = .num t ∧
      ∀ m' ∈ conversationRows db uid c, ∀ t', getProp m' "createdAt" = .num t' → t' ≤ t := by
  have hkey : ∀ x ∈ conversationRows db uid c,
      getProp x "createdAt" = .num ((getTime? (getProp x "createdAt")).getD 0) := by
    intro x hx
    obtain ⟨t, ht⟩ := hnum x ((mem_conversationRows _ _ _ _).1 hx).1
      ((mem_conversationRows _ _ _ _).1 hx).2.1
    rw [ht]
    rfl
  have hsort : sortRows le [("createdAt", .str "desc")] (conversationRows db uid c) =
      (conversationRows db uid c).insertionSort
        (fun a b => le (getProp b "createdAt") (getProp a "createdAt") = true) := by
    simp [sortRows]
  rw [hsort] at hm
  obtain ⟨h1, h2⟩ := head_insertionSort_max _
    (fun x => (getTime? (getProp x "createdAt")).getD 0) (conversationRows db uid c)
    (by
      intro a ha b hb
      rw [hkey a ha, hkey b hb, hle]
      simp [getTime?]) m hm
  refine ⟨h1, _, hkey m h1, ?_⟩
  intro m' hm' t' ht'
  have := h2 m' hm'
  rw [ht'] at this
  simpa [getTime?] using this

theorem conversationEntry_some (le : JsVal → JsVal → Bool) (db : Db) (uid c : JsVal)
    (e : Obj) (h : conversationEntry le db uid c = some e) :
    hasContact db c = true ∧ getProp e "contactId" = c ∧
    ∃ m, getProp e "lastMessage" = .obj m ∧
      (sortRows le [("createdAt", .str "desc")] (conversationRows db uid c)).head?
        = some m := by
  unfold conversationEntry at h
  split at h
  · rename_i htr
    simp only at h
    split at h
    · simp at h
    · rename_i rel hrel
      split at h
      · simp at h
      · rename_i m hm
        simp only [Option.some.injEq] at h
        subst h
        refine ⟨?_, by simp [getProp, List.lookup], m, by simp [getProp, List.lookup], hm⟩
        have hs : (findFirst db .contact [("id", c)]).isSome = true := by
          cases hf : findFirst db .contact [("id", c)] with
          | none => rw [hf] at hrel; simp at hrel
          | some k => rfl
        obtain ⟨k, hk, hmk⟩ := (findFirst_isSome_iff _ _ _).1 hs
        simp only [matchesWhere_cons] at hmk
        simp only [hasContact, htr, Bool.true_and, decide_eq_true_eq]
        exact ⟨k, hk, hmk.1⟩
  · simp at h

theorem conversationEntry_isSome (le : JsVal → JsVal → Bool) (db : Db) (uid c : JsVal)
    (hc : c ∈ distinctConversations db uid) (hv : hasContact db c = true) :
    (conversationEntry le db uid c).isSome = true := by
  simp only [hasContact, Bool.and_eq_true, decide_eq_true_eq] at hv
  obtain ⟨htr, k, hk, hid⟩ := hv
  obtain ⟨m, hm1, hm2, hm3⟩ := (mem_distinctConversations _ _ _).1 hc
  have hrows : m ∈ conversationRows db uid c := (mem_conversationRows _ _ _ _).2 ⟨hm1, hm2, hm3⟩
  have hsorted : m ∈ sortRows le [("createdAt", .str "desc")] (conversationRows db uid c) :=
    (sortRows_perm le _ _).mem_iff.2 hrows
  obtain ⟨k', hk'⟩ := findFirst_id_of_mem db .contact c k hk hid
  cases hh : (sortRows le [("createdAt", .str "desc")] (conversationRows db uid c)).head? with
  | none =>
    rw [List.head?_eq_none_iff] at hh
    rw [hh] at hsorted
    simp at hsorted
  | some m0 =>
    simp [conversationEntry, htr, hk'.1, hh]

theorem filterMap_map_eq_filter (f : JsVal → Option Obj) (p : JsVal → Bool)
    (l : List JsVal)
    (h1 : ∀ c ∈ l, ∀ e, f c = some e → p c = true ∧ getProp e "contactId" = c)
    (h2 : ∀ c ∈ l, p c = true → (f c).isSome = true) :
    (l.filterMap f).map (fun e => getProp e "contactId") = l.filter p := by
  induction l with
  | nil => rfl
  | cons c l ih =>
    have ih' := ih (fun x hx => h1 x (List.mem_cons_of_mem _ hx))
      (fun x hx => h2 x (List.mem_cons_of_mem _ hx))
    cases hf : f c with
    | none =>
      have hp : p c = false := by
        cases hpc : p c with
        | false => rfl
        | true =>
          have := h2 c (List.mem_cons_self _ _) hpc
          rw [hf] at this
          simp at this
      rw [List.filterMap_cons_none hf, List.filter_cons, hp, ih']
      simp
    | some e =>
      obtain ⟨hp, he⟩ := h1 c (List.mem_cons_self _ _) e hf
      rw [List.filterMap_cons_some hf, List.filter_cons, hp, List.map_cons, he, ih']
      simp

theorem sortConversations_spec (l : List Obj)
    (hall : ∀ e ∈ l, (lastMessageTime e).isSome = true) :
    ∃ s, sortConversations l = some s ∧ s.Perm l ∧
      s.Pairwise fun a b => conversationTime b ≤ conversationTime a := by
  unfold sortConversations
  by_cases hlen : l.length ≤ 1
  · refine ⟨l, by simp [hlen], List.Perm.refl _, ?_⟩
    match l, hlen with
    | [], _ => exact List.Pairwise.nil
    | [a], _ => exact List.pairwise_singleton _ _
    | _ :: _ :: _, h => simp at h
  · have hall' : (l.all fun e => (lastMessageTime e).isSome) = true := by
      rw [List.all_eq_true]
      exact hall
    haveI : IsTotal Obj (fun a b => conversationTime b ≤ conversationTime a) :=
      ⟨fun a b => le_total _ _⟩
    haveI : IsTrans Obj (fun a b => conversationTime b ≤ conversationTime a) :=
      ⟨fun a b c hab hbc => le_trans hbc hab⟩
    refine ⟨l.insertionSort fun a b => conversationTime b ≤ conversationTime a, ?_,
      List.perm_insertionSort _ _, List.sorted_insertionSort _ _⟩
    rw [if_neg hlen, if_pos hall']
    rfl

/-- C16. Let the store order timestamps chronologically and the messages of the
user carry timestamps.  Then `getConversationList` answers 200 with `count` the
number of entries and, as data, entries such that: their `contactId`s are, up to
order, the distinct `contactId`s of the messages of the user that are truthy and
for which a contact exists, each once; the `lastMessage` of every entry is a
message of the user with that `contactId` whose `createdAt` is greatest among
them; and the entries are ordered by the `createdAt` of their `lastMessage`,
non-increasing. -/
theorem getConversationList_contract (le : JsVal → JsVal → Bool) (db : Db) (req : Request)
    (hle : ∀ a b : Int, le (.num a) (.num b) = decide (a ≤ b))
    (htime : ∀ m ∈ db.aiMessage, getProp m "userId" = .str req.user.id →
      (getTime? (getProp m "createdAt")).isSome = true) :
    ∃ entries : List Obj,
      (getConversationList le db req).out = .json 200
        [("success", .bool true),
         ("count", .num entries.length),
         ("data", .arr (entries.map .obj))] ∧
      (entries.map fun e => getProp e "contactId").Perm
        ((distinctConversations db (.str req.user.id)).filter (hasContact db)) ∧
      (distinctConversations db (.str req.user.id)).Nodup ∧
      (∀ c, c ∈ distinctConversations db (.str req.user.id) ↔
        ∃ m ∈ db.aiMessage, getProp m "userId" = .str req.user.id ∧
          getProp m "contactId" = c) ∧
      (∀ e ∈ entries, ∃ m t,
        getProp e "lastMessage" = .obj m ∧ m ∈ db.aiMessage ∧
        getProp m "userId" = .str req.user.id ∧
        getProp m "contactId" = getProp e "contactId" ∧
        getProp m "createdAt" = .num t ∧ conversationTime e = t ∧
        ∀ m' ∈ db.aiMessage, getProp m' "userId" = .str req.user.id →
          getProp m' "contactId" = getProp e "contactId" →
          ∀ t', getProp m' "createdAt" = .num t' → t' ≤ t) ∧
      (entries.Pairwise fun a b => conversationTime b ≤ conversationTime a) ∧
      ((∀ c ∈ distinctConversations db (.str req.user.id), hasContact db c = true) →
        (entries.map fun e => getProp e "contactId").Perm
          (distinctConversations db (.str req.user.id)) ∧
        entries.length = (distinctConversations db (.str req.user.id)).length) := by
  have hnum : ∀ m ∈ db.aiMessage, getProp m "userId" = .str req.user.id →
      ∃ t, getProp m "createdAt" = .num t := by
    intro m hm hu
    have := htime m hm hu
    cases hv : getProp m "createdAt" with
    | num n => exact ⟨n, rfl⟩
    | _ => rw [hv] at this; simp [getTime?] at this
  have hentry : ∀ e ∈ (distinctConversations db (.str req.user.id)).filterMap
      (conversationEntry le db (.str req.user.id)), ∃ m t,
        getProp e "lastMessage" = .obj m ∧ m ∈ db.aiMessage ∧
        getProp m "userId" = .str req.user.id ∧
        getProp m "contactId" = getProp e "contactId" ∧
        getProp m "createdAt" = .num t ∧ conversationTime e = t ∧
        ∀ m' ∈ db.aiMessage, getProp m' "userId" = .str req.user.id →
          getProp m' "contactId" = getProp e "contactId" →
          ∀ t', getProp m' "createdAt" = .num t' → t' ≤ t := by
    intro e he
    obtain ⟨c, -, hce⟩ := List.mem_filterMap.1 he
    obtain ⟨-, hcid, m, hlast, hhead⟩ := conversationEntry_some le db _ c e hce
    obtain ⟨hmem, t, ht, hmax⟩ := newest_message le db _ c hle hnum m hhead
    have hm := (mem_conversationRows _ _ _ _).1 hmem
    refine ⟨m, t, hlast, hm.1, hm.2.1, by rw [hcid]; exact hm.2.2, ht, ?_, ?_⟩
    · simp [conversationTime, lastMessageTime, hlast, ht, getTime?]
    · intro m' h1 h2 h3 t' ht'
      rw [hcid] at h3
      exact hmax m' ((mem_conversationRows _ _ _ _).2 ⟨h1, h2, h3⟩) t' ht'
  have hall : ∀ e ∈ (distinctConversations db (.str req.user.id)).filterMap
      (conversationEntry le db (.str req.user.id)), (lastMessageTime e).isSome = true := by
    intro e he
    obtain ⟨m, t, hlast, -, -, -, ht, -, -⟩ := hentry e he
    simp [lastMessageTime, hlast, ht, getTime?]
  obtain ⟨s, hs, hperm, hsorted⟩ := sortConversations_spec _ hall
  have hids : (s.map fun e => getProp e "contactId").Perm
      ((distinctConversations db (.str req.user.id)).filter (hasContact db)) := by
    refine (hperm.map _).trans ?_
    rw [filterMap_map_eq_filter (conversationEntry le db (.str req.user.id)) (hasContact db)]
    · intro c _ e hce
      obtain ⟨h1, h2, -⟩ := conversationEntry_some le db _ c e hce
      exact ⟨h1, h2⟩
    · intro c hc hv
      exact conversationEntry_isSome le db _ c hc hv
  refine ⟨s, ?_, hids, List.nodup_dedup _, mem_distinctConversations db _, ?_, hsorted, ?_⟩
  · simp only [getConversationList, hs]
  · intro e he
    exact hentry e (hperm.mem_iff.1 he)
  · intro hall'
    have hf : (distinctConversations db (.str req.user.id)).filter (hasContact db)
        = distinctConversations db (.str req.user.id) := List.filter_eq_self.2 hall'
    rw [hf] at hids
    exact ⟨hids, by simpa using hids.length_eq⟩

/-- C16, at the sample store with conversations of `u1` across the three contacts
`c1`, `c3` and `c4`: the answer has exactly three entries, most recent first. -/
theorem getConversationList_contract_witness :
    (∃ entries : List Obj,
      (getConversationList sampleEnv.le chatDb conversationsReq).out = .json 200
        [("success", .bool true),
         ("count", .num entries.length),
         ("data", .arr (entries.map .obj))] ∧
      (entries.map fun e => getProp e "contactId").Perm
        ((distinctConversations chatDb (.str "u1")).filter (hasContact chatDb)) ∧
      entries.Pairwise fun a b => conversationTime b ≤ conversationTime a) ∧
    (distinctConversations chatDb (.str "u1")).filter (hasContact chatDb)
      = [.str "c1", .str "c3", .str "c4"] :=
  have h := getConversationList_contract sampleEnv.le chatDb conversationsReq
    (fun _ _ => rfl) (by decide)
  ⟨⟨h.choose, h.choose_spec.1, h.choose_spec.2.1, h.choose_spec.2.2.2.2.2.1⟩, by decide⟩

/-! ## The route tables -/

/-- C17 as stated fails: the contact route table has a route that reaches the
feedback read handler `getContactFeedbacks` without the ADMIN gate, and a caller
whose role is USER passes its middleware. -/
theorem feedback_read_route_without_gate :
    contactFeedbacksRoute ∈ allRoutes ∧
    contactFeedbacksRoute.handler ∈ feedbackReadHandlers ∧
    Middleware.authorize .ADMIN ∉ contactFeedbacksRoute.middleware ∧
    userU2.role = .USER ∧ contactFeedbacksRoute.allows (some userU2) = true := by
  decide

/-- C17, amended. Every route of the feedback route table that reaches a
VideoFeedback read handler runs `protect` and then the ADMIN role check, so no
caller whose role is USER passes it; the one other route of the five tables that
reaches such a handler is `GET /:contactId/feedbacks` of the contact route table,
which reaches `getContactFeedbacks` behind `protect` alone. -/
theorem feedback_routes_gate :
    (∀ r ∈ effectiveRoutes [] videoFeedbackRoutes, r.handler ∈ feedbackReadHandlers →
      r.middleware = [.protect, .authorize .ADMIN]) ∧
    (∀ r ∈ effectiveRoutes [] videoFeedbackRoutes, r.handler ∈ feedbackReadHandlers →
      ∀ u : User, u.role = .USER → r.allows (some u) = false) ∧
    (∀ h ∈ feedbackReadHandlers, ∃ r ∈ effectiveRoutes [] videoFeedbackRoutes,
      r.handler = h) ∧
    (∀ r ∈ allRoutes, r.handler ∈ feedbackReadHandlers →
      r ∈ effectiveRoutes [] videoFeedbackRoutes ∨ r = contactFeedbacksRoute) := by
  have h1 : ∀ r ∈ effectiveRoutes [] videoFeedbackRoutes, r.handler ∈ feedbackReadHandlers →
      r.middleware = [.protect, .authorize .ADMIN] := by decide
  refine ⟨h1, ?_, by decide, by decide⟩
  intro r hr hh u hu
  simp [Route.allows, h1 r hr hh, Middleware.allows, hu]

/-- C18. In the five route tables every route other than `POST /feedbacks`
(`createFeedback`) runs `protect` first, before any other middleware and before
its handler; `POST /feedbacks` is a route of the feedback table and runs no
middleware at all. -/
theorem routes_run_protect :
    (∀ r ∈ allRoutes, r ≠ createFeedbackRoute → r.middleware.head? = some .protect) ∧
    createFeedbackRoute ∈ effectiveRoutes [] videoFeedbackRoutes ∧
    createFeedbackRoute.middleware = [] ∧
    (∀ r ∈ allRoutes, r.handler = "createFeedback" → r = createFeedbackRoute) ∧
    allRoutes.length = 35 := by
  decide

/-! ## The contact-nested lists -/

/-- C19, evaluated: the user `u2` lists the feedback under the contact `c1`, which
was created by `u1`.  The route admits the caller, and `getContactFeedbacks`
answers 200 with the feedback row `f1` of that contact, where the sibling handlers
`getContactCalculations` and `getContactQuestionnaires` forward the 404 error. -/
theorem contact_feedbacks_foreign_contact :
    (findFirst sampleDb .contact [("id", .str "c1")]).map (fun c => getProp c "createdBy")
      = some (.str "u1") ∧
    foreignContactListReq.user.id = "u2" ∧
    contactFeedbacksRoute ∈ allRoutes ∧
    contactFeedbacksRoute.allows (some foreignContactListReq.user) = true ∧
    (∃ body, (getContactFeedbacks sampleEnv sampleDb foreignContactListReq).out
      = .json 200 body) ∧
    (∃ row, (getContactFeedbacks sampleEnv sampleDb foreignContactListReq).data
        = .arr [.obj row] ∧
      getProp row "id" = .str "f1" ∧ getProp row "contactId" = .str "c1") ∧
    (getContactCalculations sampleEnv sampleDb foreignContactListReq).out
      = .next "Contact not found or access denied" 404 ∧
    (getContactQuestionnaires sampleEnv sampleDb foreignContactListReq).out
      = .next "Contact not found or access denied" 404 := by
  refine ⟨by decide, rfl, by decide, by decide, ⟨_, rfl⟩, ⟨_, rfl, ?_, ?_⟩, ?_, ?_⟩ <;>
    decide

/-! ## The shape of `responses` -/

/-- C20, evaluated.  `createFeedback` forwards a 400 error and leaves the store
alone whenever `responses` is missing, null, a boolean, a number or a string; but
for the array body it answers 201 and appends a row whose `responses` is the
array.  `updateFeedback` answers 200 for the bodies `responses: null` and
`responses: [1]` and stores those values in the row `f1`. -/
theorem feedback_responses_shape :
    (∀ (env : Env) (db : Db) (body : Obj),
      (getProp body "responses" = .undefined ∨ getProp body "responses" = .null ∨
        (∃ b, getProp body "responses" = .bool b) ∨
        (∃ n, getProp body "responses" = .num n) ∨
        (∃ s, getProp body "responses" = .str s)) →
      (∃ msg, (createFeedback env db body).out = .next msg 400) ∧
      (createFeedback env db body).db = db ∧ (createFeedback env db body).calls = []) ∧
    ((∃ answer, (createFeedback sampleEnv sampleDb arrayResponsesBody).out
        = .json 201 answer) ∧
      ∃ row, (createFeedback sampleEnv sampleDb arrayResponsesBody).db.videoFeedback
          = sampleDb.videoFeedback ++ [row] ∧
        getProp row "responses" = .arr [.str "yes", .str "no"]) ∧
    ((∃ answer, (updateFeedback sampleDb nullResponsesUpdateReq).out = .json 200 answer) ∧
      (findFirst (updateFeedback sampleDb nullResponsesUpdateReq).db .videoFeedback
        [("id", .str "f1")]).map (fun row => getProp row "responses") = some .null) ∧
    ((∃ answer, (updateFeedback sampleDb arrayResponsesUpdateReq).out = .json 200 answer) ∧
      (findFirst (updateFeedback sampleDb arrayResponsesUpdateReq).db .videoFeedback
        [("id", .str "f1")]).map (fun row => getProp row "responses")
        = some (.arr [.num 1])) := by
  refine ⟨?_, ⟨⟨_, rfl⟩, ⟨_, rfl, by decide⟩⟩, ⟨⟨_, rfl⟩, by decide⟩,
    ⟨⟨_, rfl⟩, by decide⟩⟩
  intro env db body h
  simp only [createFeedback]
  by_cases h1 : (!(getProp body "videoId").truthy || !(getProp body "responses").truthy) = true
  · rw [if_pos h1]
    exact ⟨⟨_, rfl⟩, rfl, rfl⟩
  · have h2 : notJsonObject (getProp body "responses") = true := by
      rcases h with h | h | ⟨b, h⟩ | ⟨n, h⟩ | ⟨s, h⟩ <;> rw [h] <;> rfl
    rw [if_neg h1, if_pos h2]
    exact ⟨⟨_, rfl⟩, rfl, rfl⟩

/-! ## What `createFeedback` requires of its references -/

theorem findFirst_id_none (db : Db) (t : Table) (id : JsVal)
    (h : ∀ r ∈ db.rows t, getProp r "id" ≠ id) : findFirst db t [("id", id)] = none := by
  unfold findFirst
  rw [List.find?_eq_none]
  intro r hr hm
  simp only [matchesWhere_cons] at hm
  exact h r hr hm.1

/-- C21. `createFeedback` without a Video of id `videoId` leaves the store
unchanged, issues no write, and answers a body that passes the 400 checks with 404
`Video not found`; with a truthy `contactId` and no Contact of that id it does the
same with 404 `Contact not found`.  Every lookup it issues is by `id` alone, and
the handler reads nothing of the request but its body, so neither the caller nor
an ownership field is consulted.  A `contactId` that is provided and falsy is not
looked up: for the sample body with `contactId` the empty string the only lookup
is that of the video, the answer is 201, and the row is written with that
`contactId`, though no contact has it. -/
theorem createFeedback_references (env : Env) (db : Db) (body : Obj) :
    ((∀ v ∈ db.video, getProp v "id" ≠ getProp body "videoId") →
      (createFeedback env db body).db = db ∧
      (∀ c ∈ (createFeedback env db body).calls, c.isWrite = false) ∧
      ((getProp body "videoId").truthy = true → (getProp body "responses").truthy = true →
        notJsonObject (getProp body "responses") = false →
        (createFeedback env db body).out = .next "Video not found" 404)) ∧
    ((getProp body "contactId").truthy = true →
      (∀ c ∈ db.contact, getProp c "id" ≠ getProp body "contactId") →
      (createFeedback env db body).db = db ∧
      (∀ c ∈ (createFeedback env db body).calls, c.isWrite = false) ∧
      ((getProp body "videoId").truthy = true → (getProp body "responses").truthy = true →
        notJsonObject (getProp body "responses") = false →
        (∃ v ∈ db.video, getProp v "id" = getProp body "videoId") →
        (createFeedback env db body).out = .next "Contact not found" 404)) ∧
    (∀ c ∈ (createFeedback env db body).calls,
      c = .findUnique .video [("id", getProp body "videoId")] [] ∨
      c = .findUnique .contact [("id", getProp body "contactId")] [] ∨
      ∃ incl, c = .create .videoFeedback
        [("videoId", getProp body "videoId"), ("responses", getProp body "responses"),
         ("contactId", getProp body "contactId")] incl) ∧
    ((createFeedback sampleEnv sampleDb emptyContactFeedbackBody).calls =
        [.findUnique .video [("id", .str "v1")] [],
         .create .videoFeedback
           [("videoId", .str "v1"), ("responses", .obj [("q1", .str "yes")]),
            ("contactId", .str "")] [.video]] ∧
      (∃ answer, (createFeedback sampleEnv sampleDb emptyContactFeedbackBody).out
        = .json 201 answer) ∧
      (createFeedback sampleEnv sampleDb emptyContactFeedbackBody).db.videoFeedback =
        sampleDb.videoFeedback ++
          [[("id", .str "k9"), ("createdAt", .num 9), ("videoId", .str "v1"),
            ("responses", .obj [("q1", .str "yes")]), ("contactId", .str "")]] ∧
      (∀ c ∈ sampleDb.contact, getProp c "id" ≠ .str "")) := by
  refine ⟨?_, ?_, ?_, ⟨by decide, ⟨_, rfl⟩, by decide, by decide⟩⟩
  · intro hv
    have hnone := findFirst_id_none db .video (getProp body "videoId") hv
    refine ⟨?_, ?_, ?_⟩
    · simp only [createFeedback, hnone]
      split
      · rfl
      · split <;> rfl
    · simp only [createFeedback, hnone]
      split
      · simp
      · split <;> simp [StoreCall.isWrite]
    · intro h1 h2 h3
      simp [createFeedback, hnone, h1, h2, h3]
  · intro hc hcon
    have hnone := findFirst_id_none db .contact (getProp body "contactId") hcon
    refine ⟨?_, ?_, ?_⟩
    · simp only [createFeedback, hnone, hc]
      split
      · rfl
      · split
        · rfl
        · split <;> simp
    · simp only [createFeedback, hnone, hc]
      split
      · simp
      · split
        · simp
        · split <;> simp [StoreCall.isWrite]
    · intro h1 h2 h3 hv
      obtain ⟨v, hv1, hv2⟩ := hv
      obtain ⟨v', hv', -⟩ := findFirst_id_of_mem db .video _ v hv1 hv2
      simp [createFeedback, hnone, hc, h1, h2, h3, hv']
  · intro c hmem
    simp only [createFeedback] at hmem
    split at hmem
    · simp at hmem
    · split at hmem
      · simp at hmem
      · split at hmem
        · simp only [List.mem_singleton] at hmem
          exact Or.inl hmem
        · by_cases hc : (getProp body "contactId").truthy = true
          · simp only [hc, if_true, Bool.true_and] at hmem
            split at hmem
            · simp only [List.mem_cons, List.mem_singleton, List.not_mem_nil, or_false] at hmem
              rcases hmem with h | h
              · exact Or.inl h
              · exact Or.inr (Or.inl h)
            · simp only [create, List.cons_append, List.nil_append, List.mem_cons,
                List.mem_singleton, List.not_mem_nil, or_false] at hmem
              rcases hmem with h | h | h
              · exact Or.inl h
              · exact Or.inr (Or.inl h)
              · exact Or.inr (Or.inr ⟨_, h⟩)
          · simp only [hc, Bool.false_and, if_false, Bool.false_eq_true] at hmem
            simp only [create, List.cons_append, List.nil_append, List.mem_cons,
              List.mem_singleton, List.not_mem_nil, or_false] at hmem
            rcases hmem with h | h
            · exact Or.inl h
            · exact Or.inr (Or.inr ⟨_, h⟩)

/-! ## Reading and clearing a conversation -/

theorem orderedInsert_congr (r r' : Obj → Obj → Prop) [DecidableRel r] [DecidableRel r']
    (a : Obj) (s : List Obj) (h : ∀ b ∈ s, r a b ↔ r' a b) :
    s.orderedInsert r a = s.orderedInsert r' a := by
  induction s with
  | nil => rfl
  | cons b s ih =>
    have hb := h b (List.mem_cons_self _ _)
    have ih' := ih fun x hx => h x (List.mem_cons_of_mem _ hx)
    by_cases hab : r a b
    · simp [List.orderedInsert, hab, hb.1 hab]
    · have hab' : ¬ r' a b := fun h' => hab (hb.2 h')
      simp [List.orderedInsert, hab, hab', ih']

theorem insertionSort_congr (r r' : Obj → Obj → Prop) [DecidableRel r] [DecidableRel r']
    (l : List Obj) (h : ∀ a ∈ l, ∀ b ∈ l, r a b ↔ r' a b) :
    l.insertionSort r = l.insertionSort r' := by
  induction l with
  | nil => rfl
  | cons a l ih =>
    have ih' := ih fun x hx y hy =>
      h x (List.mem_cons_of_mem _ hx) y (List.mem_cons_of_mem _ hy)
    rw [List.insertionSort, List.insertionSort, ih']
    apply orderedInsert_congr
    intro b hb
    have hb' : b ∈ l := (List.perm_insertionSort r' l).mem_iff.1 hb
    exact h a (List.mem_cons_self _ _) b (List.mem_cons_of_mem _ hb')

/-- The rows of a conversation as the store returns them in ascending order. -/
theorem conversation_ascending (le : JsVal → JsVal → Bool) (db : Db) (uid c : JsVal)
    (hle : ∀ a b : Int, le (.num a) (.num b) = decide (a ≤ b))
    (htime : ∀ m ∈ db.aiMessage, getProp m "userId" = uid →
      (getTime? (getProp m "createdAt")).isSome = true) :
    (sortRows le [("createdAt", .str "asc")] (conversationRows db uid c)).Perm
      (conversationRows db uid c) ∧
    (sortRows le [("createdAt", .str "asc")] (conversationRows db uid c)).Pairwise
      fun a b => messageTime a ≤ messageTime b := by
  refine ⟨sortRows_perm _ _ _, ?_⟩
  have hkey : ∀ x ∈ conversationRows db uid c,
      getProp x "createdAt" = .num (messageTime x) := by
    intro x hx
    have hx' := (mem_conversationRows _ _ _ _).1 hx
    have := htime x hx'.1 hx'.2.1
    unfold messageTime
    cases hv : getProp x "createdAt" with
    | num n => rfl
    | _ => rw [hv] at this; simp [getTime?] at this
  have hsort : sortRows le [("createdAt", .str "asc")] (conversationRows db uid c) =
      (conversationRows db uid c).insertionSort
        (fun a b => le (getProp a "createdAt") (getProp b "createdAt") = true) := by
    simp [sortRows]
  rw [hsort, insertionSort_congr _ (fun a b => messageTime a ≤ messageTime b) _
    (by
      intro a ha b hb
      rw [hkey a ha, hkey b hb, hle]
      simp)]
  haveI : IsTotal Obj (fun a b => messageTime a ≤ messageTime b) :=
    ⟨fun a b => le_total _ _⟩
  haveI : IsTrans Obj (fun a b => messageTime a ≤ messageTime b) :=
    ⟨fun a b c hab hbc => le_trans hab hbc⟩
  exact List.sorted_insertionSort _ _

/-- C24. Let the store order timestamps chronologically and the messages of the
caller carry timestamps.  For a `contactId` in the path: when no contact with that
id was created by the caller, `getConversation` forwards the 404 error; otherwise
it answers 200 with, as data, exactly the AiMessage rows whose `userId` is the
caller and whose `contactId` is the given one, whatever their sender type, each
joined with its user and contact summary, in ascending order of `createdAt`, and
with `count` the number of rows returned. -/
theorem getConversation_contract (le : JsVal → JsVal → Bool) (db : Db) (req : Request)
    (hle : ∀ a b : Int, le (.num a) (.num b) = decide (a ≤ b))
    (htime : ∀ m ∈ db.aiMessage, getProp m "userId" = .str req.user.id →
      (getTime? (getProp m "createdAt")).isSome = true)
    (hcid : (getProp req.params "contactId").truthy = true) :
    ((∀ c ∈ db.contact, getProp c "id" = getProp req.params "contactId" →
        getProp c "createdBy" ≠ .str req.user.id) →
      (getConversation le db req).out = .next "Contact not found or access denied" 404) ∧
    ((∃ c ∈ db.contact, getProp c "id" = getProp req.params "contactId" ∧
        getProp c "createdBy" = .str req.user.id) →
      ∃ rows : List Obj,
        (getConversation le db req).out = .json 200
          [("success", .bool true),
           ("count", .num rows.length),
           ("data", .arr ((rows.map (joinConversation db)).map .obj)),
           ("contactId", getProp req.params "contactId")] ∧
        rows.Perm (db.aiMessage.filter fun m =>
          decide (getProp m "userId" = .str req.user.id) &&
          decide (getProp m "contactId" = getProp req.params "contactId")) ∧
        rows.Pairwise fun a b => messageTime a ≤ messageTime b) := by
  constructor
  · intro hno
    have hnone : findFirst db .contact [("id", getProp req.params "contactId"),
        ("createdBy", .str req.user.id)] = none := by
      unfold findFirst
      rw [List.find?_eq_none]
      intro c hc hm
      simp only [matchesWhere_cons] at hm
      exact hno c hc hm.1 hm.2.1
    simp [getConversation, hcid, hnone]
  · rintro ⟨c, hc1, hc2, hc3⟩
    have hsome : (findFirst db .contact [("id", getProp req.params "contactId"),
        ("createdBy", .str req.user.id)]).isSome = true :=
      (findFirst_isSome_iff _ _ _).2 ⟨c, hc1, by simp [matchesWhere, hc2, hc3]⟩
    obtain ⟨c', hc'⟩ := Option.isSome_iff_exists.1 hsome
    obtain ⟨hperm, hsorted⟩ := conversation_ascending le db (.str req.user.id)
      (getProp req.params "contactId") hle htime
    refine ⟨_, ?_, ?_, hsorted⟩
    · simp [getConversation, hcid, hc']
    · refine hperm.trans ?_
      have e : conversationRows db (.str req.user.id) (getProp req.params "contactId") =
          db.aiMessage.filter fun m =>
            decide (getProp m "userId" = .str req.user.id) &&
            decide (getProp m "contactId" = getProp req.params "contactId") := by
        unfold conversationRows
        refine congrArg (fun f => List.filter f db.aiMessage) ?_
        funext m
        simp [matchesWhere]
      rw [e]

/-- C24, at the sample store: `u1` reads the two messages exchanged with `c1`,
oldest first, and is refused the conversation with the contact `c2` of `u2`. -/
theorem getConversation_contract_witness :
    (∃ rows : List Obj,
      (getConversation sampleEnv.le chatDb conversationReq).out = .json 200
        [("success", .bool true),
         ("count", .num rows.length),
         ("data", .arr ((rows.map (joinConversation chatDb)).map .obj)),
         ("contactId", .str "c1")] ∧
      rows.Perm (chatDb.aiMessage.filter fun m =>
        decide (getProp m "userId" = .str "u1") &&
        decide (getProp m "contactId" = .str "c1")) ∧
      rows.Pairwise fun a b => messageTime a ≤ messageTime b) ∧
    (getConversation sampleEnv.le chatDb foreignConversationReq).out
      = .next "Contact not found or access denied" 404 :=
  ⟨(getConversation_contract sampleEnv.le chatDb conversationReq (fun _ _ => rfl)
      (by decide) (by decide)).2 (by decide),
   (getConversation_contract sampleEnv.le chatDb foreignConversationReq (fun _ _ => rfl)
      (by decide) (by decide)).1 (by decide)⟩

/-- C25. `clearConversationHistory` removes exactly the AiMessage rows whose
`userId` is the caller id: the messages afterwards are the messages before without
those rows, so none of the caller remains and every message of another user is
kept, in place; the rows of every other table are unchanged; and the answer is
200. -/
theorem clearConversationHistory_frame (db : Db) (req : Request) :
    (clearConversationHistory db req).db =
      { db with aiMessage := db.aiMessage.filter fun m =>
          decide (getProp m "userId" ≠ .str req.user.id) } ∧
    (∀ m ∈ (clearConversationHistory db req).db.aiMessage,
      getProp m "userId" ≠ .str req.user.id) ∧
    (∀ m ∈ db.aiMessage, getProp m "userId" ≠ .str req.user.id →
      m ∈ (clearConversationHistory db req).db.aiMessage) ∧
    (∀ t, t ≠ .aiMessage → (clearConversationHistory db req).db.rows t = db.rows t) ∧
    (clearConversationHistory db req).out = .json 200
      [("success", .bool true),
       ("message", .str "User\x27s conversation history cleared successfully")] := by
  have e : (fun r => !matchesWhere [("userId", .str req.user.id)] r) =
      fun m => decide (getProp m "userId" ≠ .str req.user.id) := by
    funext m
    simp [matchesWhere]
  have hdb : (clearConversationHistory db req).db =
      { db with aiMessage := db.aiMessage.filter fun m =>
          decide (getProp m "userId" ≠ .str req.user.id) } := by
    simp only [clearConversationHistory, deleteMany, Db.setRows, Db.rows, e]
  refine ⟨hdb, ?_, ?_, ?_, rfl⟩
  · intro m hm
    rw [hdb] at hm
    simpa using (List.mem_filter.1 hm).2
  · intro m hm hne
    rw [hdb]
    exact List.mem_filter.2 ⟨hm, by simpa using hne⟩
  · intro t ht
    rw [hdb]
    cases t <;> first | rfl | exact absurd rfl ht

/-- C26, evaluated: in a store where a message of `u1` carries the `contactId` of
the contact `c2`, which was created by `u2`, `getConversationList` answers `u1`
with four entries, one of them for `c2`. -/
theorem conversation_list_foreign_contact :
    (findFirst strayDb .contact [("id", .str "c2")]).map (fun c => getProp c "createdBy")
      = some (.str "u2") ∧
    conversationsReq.user.id = "u1" ∧
    ∃ answer entries,
      (getConversationList sampleEnv.le strayDb conversationsReq).out = .json 200 answer ∧
      getProp answer "data" = .arr entries ∧ entries.length = 4 ∧
      entries.any (isEntryFor "c2") = true := by
  refine ⟨by decide, rfl, _, _, rfl, rfl, ?_, ?_⟩ <;> decide

/-! ## Array fields of a questionnaire -/

theorem getProp_ensureArray_self (d : Obj) (k : String) :
    getProp (ensureArray d k) k = coercedArray (getProp d k) := by
  unfold ensureArray coercedArray
  split
  · rfl
  · exact getProp_setProp_self _ _ _

theorem getProp_ensureArray_ne (d : Obj) (k k' : String) (h : k' ≠ k) :
    getProp (ensureArray d k) k' = getProp d k' := by
  unfold ensureArray
  split
  · rfl
  · exact getProp_setProp_ne _ _ _ _ h

theorem getProp_ensureArrayIfProvided_self (d : Obj) (k : String)
    (h : (getProp d k).truthy = true) :
    getProp (ensureArrayIfProvided d k) k = coercedArray (getProp d k) := by
  unfold ensureArrayIfProvided coercedArray
  by_cases ha : (getProp d k).isArray = true
  · simp [h, ha]
  · simp only [Bool.not_eq_true] at ha
    simp [h, ha, getProp_setProp_self]

theorem getProp_ensureArrayIfProvided_ne (d : Obj) (k k' : String) (h : k' ≠ k) :
    getProp (ensureArrayIfProvided d k) k' = getProp d k' := by
  unfold ensureArrayIfProvided
  split
  · exact getProp_setProp_ne _ _ _ _ h
  · rfl

/-- C22, evaluated.  In `createQuestionnaire` each of the two array fields of the
inserted data is the value of the body when that is an array and the empty array
otherwise; in `updateQuestionnaire` the same holds for a field whose value in the
body is truthy.  But for the body `marketsInterested: ""`,
`propertyTypesInterested: null`, `updateQuestionnaire` answers 200 and the data of
its update carries the empty string and `null`, which are then in the stored
row. -/
theorem questionnaire_array_coercion :
    (∀ (env : Env) (db : Db) (req : Request) t data incl,
      StoreCall.create t data incl ∈ (createQuestionnaire env db req).calls →
      ∀ k ∈ questionnaireArrayFields, getProp data k = coercedArray (getProp req.body k)) ∧
    (∀ (db : Db) (req : Request) t w data incl,
      StoreCall.update t w data incl ∈ (updateQuestionnaire db req).calls →
      ∀ k ∈ questionnaireArrayFields, (getProp req.body k).truthy = true →
        getProp data k = coercedArray (getProp req.body k)) ∧
    (∃ answer, (updateQuestionnaire sampleDb falsyArraysUpdateReq).out = .json 200 answer) ∧
    (∃ check w data incl,
      (updateQuestionnaire sampleDb falsyArraysUpdateReq).calls
        = [check, .update .investorQuestionnaire w data incl] ∧
      getProp data "marketsInterested" = .str "" ∧
      getProp data "propertyTypesInterested" = .null) ∧
    (findFirst (updateQuestionnaire sampleDb falsyArraysUpdateReq).db .investorQuestionnaire
        [("id", .str "q1")]).map (fun row => getProp row "marketsInterested")
      = some (.str "") := by
  refine ⟨?_, ?_, ⟨_, rfl⟩, ⟨_, _, _, _, rfl, by decide, by decide⟩, by decide⟩
  · intro env db req t data incl hmem k hk
    simp only [createQuestionnaire] at hmem
    split at hmem
    · simp at hmem
    · split at hmem
      · simp at hmem
      · simp only [create, List.mem_cons, StoreCall.create.injEq, List.mem_singleton,
          List.not_mem_nil, or_false, false_or, reduceCtorEq] at hmem
        obtain ⟨-, rfl, -⟩ := hmem
        simp only [questionnaireArrayFields, List.mem_cons, List.mem_singleton,
          List.not_mem_nil, or_false] at hk
        rcases hk with rfl | rfl
        · rw [getProp_ensureArray_ne _ _ _ (by decide), getProp_ensureArray_self,
            getProp_setProp_ne _ _ _ _ (by decide)]
        · rw [getProp_ensureArray_self, getProp_ensureArray_ne _ _ _ (by decide),
            getProp_setProp_ne _ _ _ _ (by decide)]
  · intro db req t w data incl hmem k hk htr
    simp only [updateQuestionnaire] at hmem
    split at hmem
    · simp at hmem
    · split at hmem
      all_goals
        simp only [List.mem_cons, StoreCall.update.injEq, List.mem_singleton,
          List.not_mem_nil, or_false, false_or, reduceCtorEq] at hmem
        obtain ⟨-, -, rfl, -⟩ := hmem
        simp only [questionnaireArrayFields, List.mem_cons, List.mem_singleton,
          List.not_mem_nil, or_false] at hk
        rcases hk with rfl | rfl
        · rw [getProp_ensureArrayIfProvided_ne _ _ _ (by decide),
            getProp_ensureArrayIfProvided_self _ _ htr]
        · rw [getProp_ensureArrayIfProvided_self _ _
            (by rw [getProp_ensureArrayIfProvided_ne _ _ _ (by decide)]; exact htr),
            getProp_ensureArrayIfProvided_ne _ _ _ (by decide)]

/-! ## The contract of `createVideo` -/

theorem truthy_false_iff_missingOrEmpty (v : JsVal) (h : stringOrAbsent v) :
    v.truthy = false ↔ missingOrEmpty v := by
  rcases h with rfl | rfl | ⟨s, rfl⟩
  · simp [JsVal.truthy, missingOrEmpty]
  · simp [JsVal.truthy, missingOrEmpty]
  · simp [JsVal.truthy, missingOrEmpty]

theorem truthy_false_iff (v : JsVal) :
    v.truthy = false ↔
      v = .undefined ∨ v = .null ∨ v = .str "" ∨ v = .num 0 ∨ v = .bool false := by
  cases v <;> simp [JsVal.truthy]

/-- C23, the claim as it stands fails: the sample body whose `title` is the number
0, a title neither missing nor empty, is answered with the 400 error
`title and videoUrl are required`, and nothing is written. -/
theorem createVideo_zero_title_rejected :
    (createVideo sampleEnv sampleDb zeroTitleReq).out
      = .next "title and videoUrl are required" 400 ∧
    (createVideo sampleEnv sampleDb zeroTitleReq).calls = [] ∧
    ¬ (missingOrEmpty (getProp zeroTitleReq.body "title") ∨
        missingOrEmpty (getProp zeroTitleReq.body "videoUrl")) := by
  decide

/-- C23, amended. `createVideo` forwards the 400 error
`title and videoUrl are required` if and only if `title` or `videoUrl` is falsy in
the body, that is missing, null, the empty string, 0 or false, and then issues no
store call and leaves the store unchanged; for a `title` and a `videoUrl` that are
each absent, null or a string, falsy is missing or empty.  Otherwise it issues one
insert, whose data has exactly the keys `title`, `videoUrl`, `thumbnailUrl`,
`isPublished` and `createdBy`, with `title`, `videoUrl` and `thumbnailUrl` as in
the body, `isPublished` the value of the body when it has one and `true` when it
has none, and `createdBy` the caller id; the row made of that data is appended to
the videos and the answer is 201. -/
theorem createVideo_contract (env : Env) (db : Db) (req : Request) :
    ((createVideo env db req).out = .next "title and videoUrl are required" 400 ↔
      (getProp req.body "title").truthy = false ∨
        (getProp req.body "videoUrl").truthy = false) ∧
    (∀ v : JsVal, v.truthy = false ↔
      v = .undefined ∨ v = .null ∨ v = .str "" ∨ v = .num 0 ∨ v = .bool false) ∧
    (stringOrAbsent (getProp req.body "title") →
      stringOrAbsent (getProp req.body "videoUrl") →
      ((createVideo env db req).out = .next "title and videoUrl are required" 400 ↔
        missingOrEmpty (getProp req.body "title") ∨
          missingOrEmpty (getProp req.body "videoUrl"))) ∧
    (((getProp req.body "title").truthy = false ∨
        (getProp req.body "videoUrl").truthy = false) →
      (createVideo env db req).db = db ∧ (createVideo env db req).calls = []) ∧
    (¬ ((getProp req.body "title").truthy = false ∨
        (getProp req.body "videoUrl").truthy = false) →
      ∃ data,
        (createVideo env db req).calls = [.create .video data [.user]] ∧
        data.map Prod.fst = ["title", "videoUrl", "thumbnailUrl", "isPublished", "createdBy"] ∧
        getProp data "title" = getProp req.body "title" ∧
        getProp data "videoUrl" = getProp req.body "videoUrl" ∧
        getProp data "thumbnailUrl" = getProp req.body "thumbnailUrl" ∧
        (getProp req.body "isPublished" ≠ .undefined →
          getProp data "isPublished" = getProp req.body "isPublished") ∧
        (getProp req.body "isPublished" = .undefined →
          getProp data "isPublished" = .bool true) ∧
        getProp data "createdBy" = .str req.user.id ∧
        (createVideo env db req).db
          = { db with video := db.video ++ [spread env.generated (definedFields data)] } ∧
        ∃ answer, (createVideo env db req).out = .json 201 answer) := by
  have hcond : (!(getProp req.body "title").truthy || !(getProp req.body "videoUrl").truthy)
      = true ↔ (getProp req.body "title").truthy = false ∨
        (getProp req.body "videoUrl").truthy = false := by
    simp
  have hiff : (createVideo env db req).out = .next "title and videoUrl are required" 400 ↔
      (getProp req.body "title").truthy = false ∨
        (getProp req.body "videoUrl").truthy = false := by
    constructor
    · intro hout
      by_contra hno
      have hc : ¬ (!(getProp req.body "title").truthy ||
          !(getProp req.body "videoUrl").truthy) = true := fun h => hno (hcond.1 h)
      simp only [createVideo, create, if_neg hc] at hout
      exact absurd hout (by simp)
    · intro h
      simp only [createVideo, if_pos (hcond.2 h)]
  refine ⟨hiff, truthy_false_iff, ?_, ?_, ?_⟩
  · intro ht hv
    rw [hiff, truthy_false_iff_missingOrEmpty _ ht, truthy_false_iff_missingOrEmpty _ hv]
  · intro h
    simp only [createVideo, if_pos (hcond.2 h), and_self]
  · intro hno
    have hc : ¬ (!(getProp req.body "title").truthy ||
        !(getProp req.body "videoUrl").truthy) = true := fun h => hno (hcond.1 h)
    refine ⟨createVideoData req, ?_, rfl, ?_, ?_, ?_, ?_, ?_, ?_, ?_, ?_⟩
    · simp only [createVideo, create, if_neg hc, createVideoData]
    · simp [createVideoData, getProp, List.lookup]
    · simp [createVideoData, getProp, List.lookup]
    · simp [createVideoData, getProp, List.lookup]
    · intro hp
      have : getProp (createVideoData req) "isPublished" =
          if getProp req.body "isPublished" ≠ .undefined then getProp req.body "isPublished"
          else .bool true := by
        simp [createVideoData, getProp, List.lookup]
      rw [this, if_pos hp]
    · intro hp
      have : getProp (createVideoData req) "isPublished" =
          if getProp req.body "isPublished" ≠ .undefined then getProp req.body "isPublished"
          else .bool true := by
        simp [createVideoData, getProp, List.lookup]
      rw [this, if_neg (by simpa using hp)]
    · simp [createVideoData, getProp, List.lookup]
    · simp only [createVideo, create, if_neg hc, createVideoData]
      rfl
    · simp only [createVideo, create, if_neg hc]
      exact ⟨_, rfl⟩

/-- C23, at the sample body of `u1`, which carries `createdBy`, `id` and `views`
besides title and url and no `isPublished`. -/
theorem createVideo_contract_witness :
    ∃ data,
      (createVideo sampleEnv sampleDb newVideoReq).calls = [.create .video data [.user]] ∧
      data.map Prod.fst = ["title", "videoUrl", "thumbnailUrl", "isPublished", "createdBy"] ∧
      getProp data "isPublished" = .bool true ∧
      getProp data "createdBy" = .str "u1" :=
  have h := (createVideo_contract sampleEnv sampleDb newVideoReq).2.2.2.2 (by decide)
  ⟨h.choose, h.choose_spec.1, h.choose_spec.2.1, h.choose_spec.2.2.2.2.2.2.1 (by decide),
    h.choose_spec.2.2.2.2.2.2.2.1⟩

/-! ## The sort argument of the list handlers -/

theorem orderByOf_proto (q : Query) (hs : q.sortBy = some "__proto__") :
    orderByOf q = [] := by
  simp [orderByOf, hs]

theorem orderByOf_key (q : Query) (hs : q.sortBy ≠ some "__proto__") :
    orderByOf q =
      [(q.sortBy.getD "createdAt", .str (if q.order = some "asc" then "asc" else "desc"))] := by
  have h : q.sortBy.getD "createdAt" ≠ "__proto__" := by
    cases hq : q.sortBy with
    | none => decide
    | some k =>
      intro hk
      exact hs (by rw [hq]; exact congrArg some hk)
  simp only [orderByOf, if_neg h]

theorem listPage_fetchesWith (env : Env) (db : Db) (q : Query) (t : Table) (whr : Obj)
    (incl : List Incl) (pre : List StoreCall)
    (hpre : ∀ c ∈ pre, ∀ t w ob sk tk incl, c ≠ StoreCall.findMany t w ob sk tk incl) :
    FetchesWith (orderByOf q) (listPage env db q t whr incl pre) := by
  intro c hc t' w ob sk tk incl' hceq
  rw [listPage_calls] at hc
  simp only [List.mem_append, List.mem_cons, List.mem_singleton, List.not_mem_nil,
    or_false] at hc
  rcases hc with hc | hc | hc
  · exact absurd hceq (hpre c hc _ _ _ _ _ _)
  · rw [hc] at hceq
    exact absurd hceq (by simp)
  · rw [hc] at hceq
    simp only [StoreCall.findMany.injEq] at hceq
    exact hceq.2.2.1.symm

theorem guard_fetchesWith (ob0 : Obj) (db : Db) (c : StoreCall) (out : Outcome)
    (hc : ∀ t w ob sk tk incl, c ≠ StoreCall.findMany t w ob sk tk incl) :
    FetchesWith ob0 ⟨[c], db, out⟩ := by
  intro c' hc' t w ob sk tk incl hceq
  simp only [List.mem_singleton] at hc'
  rw [hc'] at hceq
  exact absurd hceq (hc _ _ _ _ _ _)

theorem handlers_fetchesWith (env : Env) (db : Db) (req : Request) :
    FetchesWith (orderByOf req.query) (getAllCalculations env db req) ∧
    FetchesWith (orderByOf req.query) (getAllQuestionnaires env db req) ∧
    FetchesWith (orderByOf req.query) (getAllVideos env db req) ∧
    FetchesWith (orderByOf req.query) (getAllFeedbacks env db req) ∧
    FetchesWith (orderByOf req.query) (getContactCalculations env db req) ∧
    FetchesWith (orderByOf req.query) (getContactQuestionnaires env db req) ∧
    FetchesWith (orderByOf req.query) (getVideoFeedbacks env db req) ∧
    FetchesWith (orderByOf req.query) (getContactFeedbacks env db req) := by
  have hnil : ∀ c ∈ ([] : List StoreCall), ∀ t w ob sk tk incl,
      c ≠ StoreCall.findMany t w ob sk tk incl := by simp
  refine ⟨listPage_fetchesWith _ _ _ _ _ _ _ hnil, listPage_fetchesWith _ _ _ _ _ _ _ hnil,
    listPage_fetchesWith _ _ _ _ _ _ _ hnil, listPage_fetchesWith _ _ _ _ _ _ _ hnil,
    ?_, ?_, ?_, ?_⟩
  · cases hf : findFirst db .contact (contactOwnedWhere req) with
    | none =>
      simp only [getContactCalculations, hf]
      exact guard_fetchesWith _ _ _ _ (by simp)
    | some c =>
      simp only [getContactCalculations, hf]
      exact listPage_fetchesWith _ _ _ _ _ _ _ (by simp)
  · cases hf : findFirst db .contact (contactOwnedWhere req) with
    | none =>
      simp only [getContactQuestionnaires, hf]
      exact guard_fetchesWith _ _ _ _ (by simp)
    | some c =>
      simp only [getContactQuestionnaires, hf]
      exact listPage_fetchesWith _ _ _ _ _ _ _ (by simp)
  · cases hf : findFirst db .video [("id", getProp req.params "videoId")] with
    | none =>
      simp only [getVideoFeedbacks, hf]
      exact guard_fetchesWith _ _ _ _ (by simp)
    | some c =>
      simp only [getVideoFeedbacks, hf]
      exact listPage_fetchesWith _ _ _ _ _ _ _ (by simp)
  · cases hf : findFirst db .contact [("id", getProp req.params "contactId")] with
    | none =>
      simp only [getContactFeedbacks, hf]
      exact guard_fetchesWith _ _ _ _ (by simp)
    | some c =>
      simp only [getContactFeedbacks, hf]
      exact listPage_fetchesWith _ _ _ _ _ _ _ (by simp)

theorem listPage_orderBy (env : Env) (db : Db) (q : Query) (t : Table) (whr : Obj)
    (incl : List Incl) (pre : List StoreCall)
    (hs : q.sortBy ≠ some "__proto__")
    (hpre : ∀ c ∈ pre, ∀ t w ob sk tk incl, c ≠ StoreCall.findMany t w ob sk tk incl) :
    OrderByContract q (listPage env db q t whr incl pre) ∧
    IssuesFetch (listPage env db q t whr incl pre) := by
  constructor
  · intro c hc t' w ob sk tk incl' hceq
    rw [listPage_fetchesWith env db q t whr incl pre hpre c hc t' w ob sk tk incl' hceq,
      orderByOf_key q hs]
    by_cases ho : q.order = some "asc"
    · exact ⟨"asc", by simp [ho], fun _ => rfl, fun h => absurd ho h⟩
    · exact ⟨"desc", by simp [ho], fun h => absurd h ho, fun _ => rfl⟩
  · refine ⟨t, whr, orderByOf q, skipOf (pageOf env q) (limitOf env q), limitOf env q,
      incl, ?_⟩
    rw [listPage_calls]
    simp

theorem guard_orderBy (q : Query) (db : Db) (c : StoreCall) (out : Outcome)
    (hc : ∀ t w ob sk tk incl, c ≠ StoreCall.findMany t w ob sk tk incl) :
    OrderByContract q ⟨[c], db, out⟩ := by
  intro c' hc' t w ob sk tk incl hceq
  simp only [List.mem_singleton] at hc'
  rw [hc'] at hceq
  exact absurd hceq (hc _ _ _ _ _ _)

/-- C27. For each of the eight list handlers and every `order` of the query: for
every `sortBy` other than `__proto__`, every fetch the handler issues carries an
`orderBy` with exactly one key, `sortBy` verbatim (`createdAt` when absent), whose
direction is `asc` if `order` is exactly the string `asc` and `desc` for every
other value, an absent one included; the four plain handlers always issue a fetch,
the four nested ones whenever their existence check finds the row.  For `sortBy`
equal to `__proto__` every fetch carries an `orderBy` without any key, as the one
`getAllCalculations` issues for the sample request of `u1` shows. -/
theorem list_handlers_orderBy (env : Env) (db : Db) (req : Request) :
    (req.query.sortBy ≠ some "__proto__" →
      (OrderByContract req.query (getAllCalculations env db req) ∧
        IssuesFetch (getAllCalculations env db req)) ∧
      (OrderByContract req.query (getAllQuestionnaires env db req) ∧
        IssuesFetch (getAllQuestionnaires env db req)) ∧
      (OrderByContract req.query (getAllVideos env db req) ∧
        IssuesFetch (getAllVideos env db req)) ∧
      (OrderByContract req.query (getAllFeedbacks env db req) ∧
        IssuesFetch (getAllFeedbacks env db req)) ∧
      (OrderByContract req.query (getContactCalculations env db req) ∧
        ((findFirst db .contact (contactOwnedWhere req)).isSome = true →
          IssuesFetch (getContactCalculations env db req))) ∧
      (OrderByContract req.query (getContactQuestionnaires env db req) ∧
        ((findFirst db .contact (contactOwnedWhere req)).isSome = true →
          IssuesFetch (getContactQuestionnaires env db req))) ∧
      (OrderByContract req.query (getVideoFeedbacks env db req) ∧
        ((findFirst db .video [("id", getProp req.params "videoId")]).isSome = true →
          IssuesFetch (getVideoFeedbacks env db req))) ∧
      (OrderByContract req.query (getContactFeedbacks env db req) ∧
        ((findFirst db .contact [("id", getProp req.params "contactId")]).isSome = true →
          IssuesFetch (getContactFeedbacks env db req)))) ∧
    (req.query.sortBy = some "__proto__" →
      FetchesWith [] (getAllCalculations env db req) ∧
      FetchesWith [] (getAllQuestionnaires env db req) ∧
      FetchesWith [] (getAllVideos env db req) ∧
      FetchesWith [] (getAllFeedbacks env db req) ∧
      FetchesWith [] (getContactCalculations env db req) ∧
      FetchesWith [] (getContactQuestionnaires env db req) ∧
      FetchesWith [] (getVideoFeedbacks env db req) ∧
      FetchesWith [] (getContactFeedbacks env db req)) ∧
    (getAllCalculations sampleEnv sampleDb protoSortReq).calls =
      [.count .investmentCalculation [("createdBy", .str "u1")],
       .findMany .investmentCalculation [("createdBy", .str "u1")] [] (.int 0) 10
         [.contact, .user]] := by
  refine ⟨?_, ?_, by decide⟩
  swap
  · intro hs
    rw [← orderByOf_proto req.query hs]
    exact handlers_fetchesWith env db req
  intro hs
  have hnil : ∀ c ∈ ([] : List StoreCall), ∀ t w ob sk tk incl,
      c ≠ StoreCall.findMany t w ob sk tk incl := by simp
  refine ⟨listPage_orderBy _ _ _ _ _ _ _ hs hnil, listPage_orderBy _ _ _ _ _ _ _ hs hnil,
    listPage_orderBy _ _ _ _ _ _ _ hs hnil, listPage_orderBy _ _ _ _ _ _ _ hs hnil, ?_, ?_, ?_, ?_⟩
  · cases hf : findFirst db .contact (contactOwnedWhere req) with
    | none =>
      simp only [getContactCalculations, hf]
      exact ⟨guard_orderBy _ _ _ _ (by simp), by simp⟩
    | some c =>
      simp only [getContactCalculations, hf]
      have h := listPage_orderBy env db req.query .investmentCalculation
        (contactScopedWhere req) [] [StoreCall.findFirst .contact (contactOwnedWhere req) []]
        hs (by simp)
      exact ⟨h.1, fun _ => h.2⟩
  · cases hf : findFirst db .contact (contactOwnedWhere req) with
    | none =>
      simp only [getContactQuestionnaires, hf]
      exact ⟨guard_orderBy _ _ _ _ (by simp), by simp⟩
    | some c =>
      simp only [getContactQuestionnaires, hf]
      have h := listPage_orderBy env db req.query .investorQuestionnaire
        (contactScopedWhere req) [] [StoreCall.findFirst .contact (contactOwnedWhere req) []]
        hs (by simp)
      exact ⟨h.1, fun _ => h.2⟩
  · cases hf : findFirst db .video [("id", getProp req.params "videoId")] with
    | none =>
      simp only [getVideoFeedbacks, hf]
      exact ⟨guard_orderBy _ _ _ _ (by simp), by simp⟩
    | some c =>
      simp only [getVideoFeedbacks, hf]
      have h := listPage_orderBy env db req.query .videoFeedback
        [("videoId", getProp req.params "videoId")] [.video, .contact]
        [StoreCall.findUnique .video [("id", getProp req.params "videoId")] []] hs (by simp)
      exact ⟨h.1, fun _ => h.2⟩
  · cases hf : findFirst db .contact [("id", getProp req.params "contactId")] with
    | none =>
      simp only [getContactFeedbacks, hf]
      exact ⟨guard_orderBy _ _ _ _ (by simp), by simp⟩
    | some c =>
      simp only [getContactFeedbacks, hf]
      have h := listPage_orderBy env db req.query .videoFeedback
        [("contactId", getProp req.params "contactId")] [.video]
        [StoreCall.findUnique .contact [("id", getProp req.params "contactId")] []] hs (by simp)
      exact ⟨h.1, fun _ => h.2⟩

/-! ## Error outcomes of the create handlers -/

/-- C28. Whenever `createCalculation`, `createQuestionnaire`, `createVideo` or
`createFeedback` ends by forwarding a 400 or a 404 error, it has issued no write
and the store is unchanged; and in every run the only write a create handler
issues, if any, is its last store call, so every validation and lookup precedes
the single insert. -/
theorem create_errors_write_nothing (env : Env) (db : Db) (req : Request) (body : Obj) :
    ((EndsInClientError (createCalculation env db req) →
        NoWrite db (createCalculation env db req)) ∧
      WritesLast (createCalculation env db req)) ∧
    ((EndsInClientError (createQuestionnaire env db req) →
        NoWrite db (createQuestionnaire env db req)) ∧
      WritesLast (createQuestionnaire env db req)) ∧
    ((EndsInClientError (createVideo env db req) →
        NoWrite db (createVideo env db req)) ∧
      WritesLast (createVideo env db req)) ∧
    ((EndsInClientError (createFeedback env db body) →
        NoWrite db (createFeedback env db body)) ∧
      WritesLast (createFeedback env db body)) := by
  unfold EndsInClientError NoWrite WritesLast
  refine ⟨?_, ?_, ?_, ?_⟩
  · simp only [createCalculation, create]
    split
    · simp [StoreCall.isWrite]
    · split <;> simp [StoreCall.isWrite]
  · simp only [createQuestionnaire, create]
    split
    · simp [StoreCall.isWrite]
    · split <;> simp [StoreCall.isWrite]
  · simp only [createVideo, create]
    split <;> simp [StoreCall.isWrite]
  · simp only [createFeedback, create]
    split
    · simp [StoreCall.isWrite]
    · split
      · simp [StoreCall.isWrite]
      · split
        · simp [StoreCall.isWrite]
        · by_cases hc : (getProp body "contactId").truthy = true
          · simp only [hc, if_true, Bool.true_and]
            split <;> simp [StoreCall.isWrite]
          · simp only [Bool.not_eq_true] at hc
            simp [hc, StoreCall.isWrite]

/-- An error outcome of a create handler: the complete calculation body of `u1`,
naming the contact `c2` of `u2`, is answered 404. -/
theorem createCalculation_foreign_contact_404 :
    (createCalculation sampleEnv sampleDb
      { fullCalculationReq with
        body := setProp fullCalculationReq.body "contactId" (.str "c2") }).out
      = .next "Contact not found or access denied" 404 := by
  decide

/-! ## Toggling the publish status -/

theorem setProp_restore (x : Obj) (k : String) (v w : JsVal)
    (h : getProp x k = v) (hv : v ≠ .undefined) : setProp (setProp x k w) k v = x := by
  induction x with
  | nil => simp [getProp, List.lookup] at h; exact absurd h.symm hv
  | cons hd tl ih =>
    obtain ⟨k', v'⟩ := hd
    by_cases hk : k' = k
    · subst hk
      have : v' = v := by simpa [getProp, List.lookup] using h
      simp [setProp, this]
    · have hne : (k == k') = false := by simpa using fun e => hk e.symm
      have h' : getProp tl k = v := by simpa [getProp, List.lookup, hne] using h
      simp [setProp, hk, ih h']

theorem spread_single (x : Obj) (k : String) (v : JsVal) (hv : v ≠ .undefined) :
    spread x (definedFields [(k, v)]) = setProp x k v := by
  simp [spread, definedFields, List.filter, hv, getProp, List.lookup]

theorem findFirst_owned_unique (db : Db) (t : Table) (req : Request) (v : Obj)
    (hv : v ∈ db.rows t) (hid : getProp v "id" = getProp req.params "id")
    (ho : getProp v "createdBy" = .str req.user.id)
    (huniq : ∀ x ∈ db.rows t, getProp x "id" = getProp req.params "id" → x = v) :
    findFirst db t (ownedWhere req) = some v ∧
    (db.rows t).find? (fun r => decide (getProp r "id" = getProp req.params "id")) = some v := by
  obtain ⟨v', hf, hid', -, hmem⟩ := findFirst_owned_some db t req ⟨v, hv, hid, ho⟩
  have e := huniq v' hmem hid'
  subst e
  refine ⟨hf, ?_⟩
  have hs : ((db.rows t).find?
      (fun r => decide (getProp r "id" = getProp req.params "id"))).isSome = true := by
    rw [List.find?_isSome]
    exact ⟨v', hmem, by simp [hid']⟩
  obtain ⟨v2, hv2⟩ := Option.isSome_iff_exists.1 hs
  have h2 := List.find?_some hv2
  have e2 := huniq v2 (List.mem_of_find?_eq_some hv2) (by simpa using h2)
  rw [hv2, e2]

theorem togglePublishStatus_eq (db : Db) (req : Request) (v : Obj) (b : Bool)
    (hv : v ∈ db.video) (hid : getProp v "id" = getProp req.params "id")
    (ho : getProp v "createdBy" = .str req.user.id)
    (hp : getProp v "isPublished" = .bool b)
    (huniq : ∀ x ∈ db.video, getProp x "id" = getProp req.params "id" → x = v) :
    togglePublishStatus db req =
      ⟨[.findFirst .video (ownedWhere req) [],
        .update .video [("id", getProp req.params "id")]
          [("isPublished", .bool (!b))] [.user]],
       { db with video := db.video.map fun x =>
          if getProp x "id" = getProp req.params "id" then
            setProp x "isPublished" (.bool (!b))
          else x },
       .json 200
        [("success", .bool true),
         ("data", .obj (applyIncls
            { db with video := db.video.map fun x =>
              if getProp x "id" = getProp req.params "id" then
                setProp x "isPublished" (.bool (!b))
              else x } [.user] (setProp v "isPublished" (.bool (!b))))),
         ("message", .str ("Video " ++ publishWord (!b) ++ " successfully"))]⟩ := by
  obtain ⟨h1, h2⟩ := findFirst_owned_unique db .video req v hv hid ho huniq
  have hs : ∀ x : Obj, spread x (definedFields [("isPublished", .bool (!b))])
      = setProp x "isPublished" (.bool (!b)) := fun x => spread_single x _ _ (by simp)
  have ht : (getProp v "isPublished").truthy = b := by rw [hp]; rfl
  have hw : (getProp (setProp v "isPublished" (.bool (!b))) "isPublished").truthy = !b := by
    rw [getProp_setProp_self]; rfl
  simp only [togglePublishStatus, h1, update, h2, ht, hs, hw, publishWord]
  cases b <;> rfl

/-- C29. For a video created by the caller, the one row with its id, whose
`isPublished` is the boolean `b`: `togglePublishStatus` answers 200, the videos
afterwards are the videos before with `isPublished` of that row set to `not b`
and every other field of it, and every other row, as before; the message reads
`published` exactly when the new value is `true` and `unpublished` exactly when
it is `false`; applying the handler twice gives back the store; and the data of
the update it issues has the one key `isPublished`. -/
theorem togglePublishStatus_contract (db : Db) (req : Request) (v : Obj) (b : Bool)
    (hv : v ∈ db.video) (hid : getProp v "id" = getProp req.params "id")
    (ho : getProp v "createdBy" = .str req.user.id)
    (hp : getProp v "isPublished" = .bool b)
    (huniq : ∀ x ∈ db.video, getProp x "id" = getProp req.params "id" → x = v) :
    (togglePublishStatus db req).db =
      { db with video := db.video.map fun x =>
          if x = v then setProp v "isPublished" (.bool (!b)) else x } ∧
    getProp (setProp v "isPublished" (.bool (!b))) "isPublished" = .bool (!b) ∧
    (∀ k, k ≠ "isPublished" →
      getProp (setProp v "isPublished" (.bool (!b))) k = getProp v k) ∧
    (∃ answer, (togglePublishStatus db req).out = .json 200 answer ∧
      getProp answer "message" = .str ("Video " ++ publishWord (!b) ++ " successfully")) ∧
    (publishWord (!b) = "published" ↔ (!b) = true) ∧
    (publishWord (!b) = "unpublished" ↔ (!b) = false) ∧
    (togglePublishStatus (togglePublishStatus db req).db req).db = db ∧
    (togglePublishStatus db req).calls =
      [.findFirst .video (ownedWhere req) [],
       .update .video [("id", getProp req.params "id")]
         [("isPublished", .bool (!b))] [.user]] := by
  have heq := togglePublishStatus_eq db req v b hv hid ho hp huniq
  have hmap : (db.video.map fun x =>
      if getProp x "id" = getProp req.params "id" then
        setProp x "isPublished" (.bool (!b)) else x) =
      db.video.map fun x => if x = v then setProp v "isPublished" (.bool (!b)) else x := by
    apply List.map_congr_left
    intro x hx
    by_cases hxi : getProp x "id" = getProp req.params "id"
    · have := huniq x hx hxi
      subst this
      simp [hxi]
    · have : x ≠ v := fun e => hxi (by rw [e]; exact hid)
      simp [hxi, this]
  refine ⟨?_, getProp_setProp_self _ _ _, fun k hk => getProp_setProp_ne _ _ _ _ hk,
    ?_, ?_, ?_, ?_, by rw [heq]⟩
  · rw [heq, hmap]
  · rw [heq]
    exact ⟨_, rfl, by simp [getProp, List.lookup]⟩
  · cases b <;> simp [publishWord]
  · cases b <;> simp [publishWord]
  · -- the second application, on the store after the first
    have hdb1 : (togglePublishStatus db req).db =
        { db with video := db.video.map fun x =>
            if x = v then setProp v "isPublished" (.bool (!b)) else x } := by
      rw [heq, hmap]
    have hv1 : setProp v "isPublished" (.bool (!b)) ∈ (togglePublishStatus db req).db.video := by
      rw [hdb1]
      exact List.mem_map.2 ⟨v, hv, by simp⟩
    have hid1 : getProp (setProp v "isPublished" (.bool (!b))) "id" = getProp req.params "id" := by
      rw [getProp_setProp_ne _ _ _ _ (by decide)]; exact hid
    have ho1 : getProp (setProp v "isPublished" (.bool (!b))) "createdBy" = .str req.user.id := by
      rw [getProp_setProp_ne _ _ _ _ (by decide)]; exact ho
    have huniq1 : ∀ x ∈ (togglePublishStatus db req).db.video,
        getProp x "id" = getProp req.params "id" → x = setProp v "isPublished" (.bool (!b)) := by
      intro x hx hxi
      rw [hdb1] at hx
      obtain ⟨y, hy, rfl⟩ := List.mem_map.1 hx
      by_cases hyv : y = v
      · simp [hyv]
      · simp only [hyv, if_false] at hxi ⊢
        exact absurd (huniq y hy hxi) hyv
    have heq2 := togglePublishStatus_eq (togglePublishStatus db req).db req
      (setProp v "isPublished" (.bool (!b))) (!b) hv1 hid1 ho1
      (getProp_setProp_self _ _ _) huniq1
    rw [heq2]
    simp only [hdb1, Bool.not_not, List.map_map]
    have hback : db.video.map ((fun x =>
        if getProp x "id" = getProp req.params "id" then
          setProp x "isPublished" (.bool b) else x) ∘
        fun x => if x = v then setProp v "isPublished" (.bool (!b)) else x) = db.video := by
      conv_rhs => rw [← List.map_id db.video]
      apply List.map_congr_left
      intro x hx
      by_cases hxv : x = v
      · subst hxv
        simp only [Function.comp_apply, if_true, hid1, id]
        exact setProp_restore x "isPublished" (.bool b) (.bool (!b)) hp (by simp)
      · have hxi : getProp x "id" ≠ getProp req.params "id" := fun e => hxv (huniq x hx e)
        simp [hxv, hxi]
    rw [hback]

/-- C29, at the sample store: `u1` toggles their published video `v1`. -/
theorem togglePublishStatus_contract_witness :
    (∃ answer, (togglePublishStatus sampleDb toggleReq).out = .json 200 answer ∧
      getProp answer "message" = .str "Video unpublished successfully") ∧
    (togglePublishStatus (togglePublishStatus sampleDb toggleReq).db toggleReq).db
      = sampleDb :=
  have h := togglePublishStatus_contract sampleDb toggleReq videoV1 true
    (by decide) (by decide) (by decide) (by decide) (by decide)
  ⟨h.2.2.2.1, h.2.2.2.2.2.2.1⟩

/-! ## The publish filter of `getAllVideos` -/

/-- C30. In `getAllVideos` the where-clause of the count and of the fetch carries
an `isPublished` predicate if and only if the query parameter is present.  When it
is present with value `s`, a row matches exactly when it matches the clause of the
same caller without the parameter and its `isPublished` is the boolean `s = "true"`,
which is `false` for `false`, `TRUE`, `1` and the empty string; when it is absent
the clause has no `isPublished` key, so rows of both publish states match. -/
theorem getAllVideos_publish_filter (env : Env) (db : Db) (req : Request) :
    (getAllVideos env db req).calls =
      [.count .video (getAllVideosWhere req.user req.query),
       .findMany .video (getAllVideosWhere req.user req.query) (orderByOf req.query)
         (skipOf (pageOf env req.query) (limitOf env req.query)) (limitOf env req.query)
         [.user, .countFeedbacks]] ∧
    (req.query.isPublished = none →
      ∀ kv ∈ getAllVideosWhere req.user req.query, kv.1 ≠ "isPublished") ∧
    (∀ s, req.query.isPublished = some s →
      getProp (getAllVideosWhere req.user req.query) "isPublished"
        = .bool (decide (s = "true")) ∧
      ∀ row, matchesWhere (getAllVideosWhere req.user req.query) row = true ↔
        matchesWhere (getAllVideosWhere req.user { req.query with isPublished := none })
          row = true ∧
        getProp row "isPublished" = .bool (decide (s = "true"))) ∧
    (decide (("true" : String) = "true") = true ∧ decide (("false" : String) = "true") = false ∧
      decide (("TRUE" : String) = "true") = false ∧ decide (("1" : String) = "true") = false ∧
      decide (("" : String) = "true") = false) := by
  refine ⟨?_, ?_, ?_, by decide⟩
  · simp only [getAllVideos, listPage_calls, List.nil_append]
  · intro hnone
    simp only [getAllVideosWhere, hnone, whenUser]
    split <;> simp [setProp]
  · intro s hs
    simp only [getAllVideosWhere, hs, whenUser]
    split <;> simp [setProp, matchesWhere, getProp, List.lookup]

end Backend
